import Mathlib

/-! Cataclysm-BN map generation: a shallow embedding of `mapgen_functions.cpp`.

The definitions below follow `src/mapgen_functions.cpp`: the geometry helpers
(`rotate_point`, `nesw_array_rotate`, `coord_rotate_cw`), the orientation
normaliser shared by `mapgen_road`, `mapgen_subway` and `mapgen_railroad`, the
arm pavement of `mapgen_road`, and the shoreline synthesiser
`mapgen_lake_shore`.  C `int` values are `Int`, `size_t` counters are `Nat`,
fixed C arrays are lists.
-/

namespace Cata

/-! ## Constants and points -/

/-- Modelled from the spec: `game_constants.h` is not among the sources; the tile
buffer is 24x24, that is `SEEX * 2` by `SEEY * 2` with `SEEX = 12`. -/
def SEEX : Int := 12

/-- Modelled from the spec: `game_constants.h` is not among the sources; the tile
buffer is 24x24, that is `SEEX * 2` by `SEEY * 2` with `SEEY = 12`. -/
def SEEY : Int := 12

/-- The type `point` of `point.h`: a pair of `int` coordinates. -/
structure point where
  x : Int
  y : Int
deriving DecidableEq, Repr

/-- The type `tripoint` of `point.h`: three `int` coordinates. -/
structure tripoint where
  x : Int
  y : Int
  z : Int
deriving DecidableEq, Repr

instance : Add point := ⟨fun a b => ⟨a.x + b.x, a.y + b.y⟩⟩
instance : Sub point := ⟨fun a b => ⟨a.x - b.x, a.y - b.y⟩⟩

/-! ## `rotate_point` (lines 51-81) -/

/-- The function `rotate_point`.  The `debugmsg` of the out-of-range branch only
logs; the returned point is what is modelled.  `rotations % 4` is the C
remainder (truncated), and the `switch` has no `default`, so a value outside
0..3 leaves `ret = p`. -/
def rotate_point (p : tripoint) (rotations : Int) : tripoint :=
  if p.x < 0 ∨ p.x ≥ SEEX * 2 ∨ p.y < 0 ∨ p.y ≥ SEEY * 2 then
    ⟨0, 0, p.z⟩
  else
    let rotations := Int.tmod rotations 4
    if rotations = 0 then p
    else if rotations = 1 then { p with x := p.y, y := SEEX * 2 - 1 - p.x }
    else if rotations = 2 then { p with x := SEEX * 2 - 1 - p.x, y := SEEY * 2 - 1 - p.y }
    else if rotations = 3 then { p with x := SEEY * 2 - 1 - p.y, y := p.x }
    else p

/-- A point lies inside the 24x24 tile buffer. -/
def in_buffer (p : tripoint) : Prop :=
  0 ≤ p.x ∧ p.x < SEEX * 2 ∧ 0 ≤ p.y ∧ p.y < SEEY * 2

instance (p : tripoint) : Decidable (in_buffer p) := by
  unfold in_buffer; infer_instance

/-! ## `nesw_array_rotate` (lines 440-466) -/

/-- Body of the `len == 4` loop of `nesw_array_rotate`: one left rotation of
`array[0..3]`.  Reading outside the array gives `none`. -/
def nesw_rotate4_body {T : Type} (array : List T) : Option (List T) := do
  let temp ← array[0]?
  let v1 ← array[1]?
  let array := array.set 0 v1
  let v2 ← array[2]?
  let array := array.set 1 v2
  let v3 ← array[3]?
  let array := array.set 2 v3
  let array := array.set 3 temp
  pure array

/-- Body of the other loop of `nesw_array_rotate`, for the layout
N E S W NE SE SW NW. -/
def nesw_rotate8_body {T : Type} (array : List T) : Option (List T) := do
  let temp ← array[0]?
  let v4 ← array[4]?
  let array := array.set 0 v4
  let v1 ← array[1]?
  let array := array.set 4 v1
  let v5 ← array[5]?
  let array := array.set 1 v5
  let v2 ← array[2]?
  let array := array.set 5 v2
  let v6 ← array[6]?
  let array := array.set 2 v6
  let v3 ← array[3]?
  let array := array.set 6 v3
  let v7 ← array[7]?
  let array := array.set 3 v7
  let array := array.set 7 temp
  pure array

/-- The loop `while( dist-- ) body`: the body runs `dist` times. -/
def while_dist {T : Type} (body : List T → Option (List T)) : Nat → List T → Option (List T)
  | 0, array => some array
  | dist + 1, array => (body array).bind (while_dist body dist)

/-- The function `nesw_array_rotate`: `dist` left rotations of a nesw array
(`len == 4`) or of a neswx array (any other `len`). -/
def nesw_array_rotate {T : Type} (array : List T) (len dist : Nat) : Option (List T) :=
  if len = 4 then while_dist nesw_rotate4_body dist array
  else while_dist nesw_rotate8_body dist array

/-- Indices of a neswx array read in compass order N, NE, E, SE, S, SW, W, NW. -/
def compass_order : List Nat := [0, 4, 1, 5, 2, 6, 3, 7]

/-- A neswx array rebuilt from its eight elements listed in compass order. -/
def from_compass {T : Type} : List T → List T
  | [r0, r1, r2, r3, r4, r5, r6, r7] => [r0, r2, r4, r6, r1, r3, r5, r7]
  | l => l

/-! ## `coord_rotate_cw` (lines 468-476) and `compare_neswx` (lines 478-484) -/

/-- The function `coord_rotate_cw`: the loop `for( ; rot--; )` runs `rot` times,
each time `temp = y; y = x; x = ( SEEY * 2 - 1 ) - temp`. -/
def coord_rotate_cw (p : point) : Nat → point
  | 0 => p
  | rot + 1 => coord_rotate_cw ⟨(SEEY * 2 - 1) - p.y, p.x⟩ rot

/-- Read of a local `bool x[N] = {}` array. -/
def at_ (array : List Bool) (i : Nat) : Bool := array.getD i false

/-- The function `compare_neswx`: `std::equal` of the initializer list `a2`
against the start of `a1`, comparing `static_cast<bool>( a ) == b`. -/
def compare_neswx (a1 : List Bool) (a2 : List Int) : Bool :=
  (List.range a2.length).all fun k => (decide (a2.getD k 0 ≠ 0)) == at_ a1 k

/-! ## Connectivity and orientation of road, subway and railroad tiles -/

/-- The function `terrain_type_to_nesw_array` (lines 429-438).  `has_connection`
is `oter.has_connection( dir )` for the four members of `om_direction::all`
(north, east, south, west = 0..3, from `omdata.h`). -/
def terrain_type_to_nesw_array (has_connection : Nat → Bool) (array : List Bool) :
    Int × List Bool :=
  [0, 1, 2, 3].foldl
    (fun (acc : Int × List Bool) (dir : Nat) =>
      (acc.1 + (if has_connection dir then 1 else 0), acc.2.set dir (has_connection dir)))
    (0, array)

/-- The nested conditional of `mapgen_road` (lines 550-559) that matches the
eight "is a four-way road" flags against the nine plaza shapes, first match
first; `-1` when none matches. -/
def road_plaza_dir (fourways_neswx : List Bool) : Int :=
  if compare_neswx fourways_neswx [1, 1, 1, 1, 1, 1, 1, 1] then 8
  else if compare_neswx fourways_neswx [0, 1, 1, 0, 0, 1, 0, 0] then 7
  else if compare_neswx fourways_neswx [1, 1, 0, 0, 1, 0, 0, 0] then 6
  else if compare_neswx fourways_neswx [1, 0, 0, 1, 0, 0, 0, 1] then 5
  else if compare_neswx fourways_neswx [0, 0, 1, 1, 0, 0, 1, 0] then 4
  else if compare_neswx fourways_neswx [1, 1, 1, 0, 1, 1, 0, 0] then 3
  else if compare_neswx fourways_neswx [1, 1, 0, 1, 1, 0, 0, 1] then 2
  else if compare_neswx fourways_neswx [1, 0, 1, 1, 0, 0, 1, 1] then 1
  else if compare_neswx fourways_neswx [0, 1, 1, 1, 0, 1, 1, 0] then 0
  else -1

/-- The `switch( num_dirs )` of `mapgen_road` (lines 536-634): the rotation, the
diagonal flag and `plaza_dir`.  `fourways` says for each of the eight
neighbours whether its id is `road_nesw` or `road_nesw_manhole`. -/
def mapgen_road_rot (num_dirs : Int) (roads_nesw : List Bool) (fourways : Nat → Bool) :
    Int × Bool × Int :=
  if num_dirs = 4 then
    let fourways_neswx := (List.range 8).map fourways
    let plaza_dir : Int := road_plaza_dir fourways_neswx
    if plaza_dir > -1 then (Int.tmod plaza_dir 4, false, plaza_dir) else (0, false, plaza_dir)
  else if num_dirs = 3 then
    if !at_ roads_nesw 0 then (2, false, -1)
    else if !at_ roads_nesw 1 then (3, false, -1)
    else if !at_ roads_nesw 3 then (1, false, -1)
    else (0, false, -1)
  else if num_dirs = 2 then
    if at_ roads_nesw 1 && at_ roads_nesw 3 then (1, false, -1)
    else if at_ roads_nesw 1 && at_ roads_nesw 2 then (1, true, -1)
    else if at_ roads_nesw 2 && at_ roads_nesw 3 then (2, true, -1)
    else if at_ roads_nesw 3 && at_ roads_nesw 0 then (3, true, -1)
    else if at_ roads_nesw 0 && at_ roads_nesw 1 then (0, true, -1)
    else (0, false, -1)
  else if num_dirs = 1 then
    if at_ roads_nesw 1 then (1, false, -1)
    else if at_ roads_nesw 2 then (2, false, -1)
    else if at_ roads_nesw 3 then (3, false, -1)
    else (0, false, -1)
  else (0, false, -1)

/-- The `switch( num_dirs )` of `mapgen_subway` (lines 891-967). -/
def mapgen_subway_rot (num_dirs : Int) (subway_nesw : List Bool) : Int × Bool :=
  if num_dirs = 4 then (0, false)
  else if num_dirs = 3 then
    if !at_ subway_nesw 0 then (2, false)
    else if !at_ subway_nesw 1 then (3, false)
    else if !at_ subway_nesw 3 then (1, false)
    else (0, false)
  else if num_dirs = 2 then
    if at_ subway_nesw 1 && at_ subway_nesw 3 then (1, false)
    else if at_ subway_nesw 1 && at_ subway_nesw 2 then (1, true)
    else if at_ subway_nesw 2 && at_ subway_nesw 3 then (2, true)
    else if at_ subway_nesw 3 && at_ subway_nesw 0 then (3, true)
    else if at_ subway_nesw 0 && at_ subway_nesw 1 then (0, true)
    else (0, false)
  else if num_dirs = 1 then
    if at_ subway_nesw 1 then (1, false)
    else if at_ subway_nesw 2 then (2, false)
    else if at_ subway_nesw 3 then (3, false)
    else (0, false)
  else (0, false)

/-- The `switch( num_dirs )` of `mapgen_railroad` (lines 1297-1367). -/
def mapgen_railroad_rot (num_dirs : Int) (railroads_nesw : List Bool) : Int × Bool :=
  if num_dirs = 4 then (0, false)
  else if num_dirs = 3 then
    if !at_ railroads_nesw 0 then (2, false)
    else if !at_ railroads_nesw 1 then (3, false)
    else if !at_ railroads_nesw 3 then (1, false)
    else (0, false)
  else if num_dirs = 2 then
    if at_ railroads_nesw 1 && at_ railroads_nesw 3 then (1, false)
    else if at_ railroads_nesw 1 && at_ railroads_nesw 2 then (1, true)
    else if at_ railroads_nesw 2 && at_ railroads_nesw 3 then (2, true)
    else if at_ railroads_nesw 3 && at_ railroads_nesw 0 then (3, true)
    else if at_ railroads_nesw 0 && at_ railroads_nesw 1 then (0, true)
    else (0, false)
  else if num_dirs = 1 then
    if at_ railroads_nesw 1 then (1, false)
    else if at_ railroads_nesw 2 then (2, false)
    else if at_ railroads_nesw 3 then (3, false)
    else (0, false)
  else (0, false)

/-- What the orientation part of a generator leaves behind: the connection
count, the rotation, the diagonal flag, `plaza_dir` (`-1` where the generator
has no plazas) and the connectivity array after `nesw_array_rotate`. -/
structure tile_layout where
  num_dirs : Int
  rot : Int
  diag : Bool
  plaza_dir : Int
  nesw : List Bool
deriving DecidableEq, Repr

/-- The part of `mapgen_road` that fixes the orientation (lines 503-506 and
534-638): the array from `terrain_type_to_nesw_array`, the `switch`, then
`nesw_array_rotate<bool>( roads_nesw, 4, rot )`.  The sidewalk and curve arrays,
rotated alongside, play no part in `rot`, `diag` or `roads_nesw`. -/
def mapgen_road_layout (has_connection : Nat → Bool) (fourways : Nat → Bool) :
    Option tile_layout :=
  let r := terrain_type_to_nesw_array has_connection [false, false, false, false]
  let num_dirs := r.1
  let roads_nesw := r.2
  let o := mapgen_road_rot num_dirs roads_nesw fourways
  (nesw_array_rotate roads_nesw 4 o.1.toNat).map fun rotated =>
    { num_dirs := num_dirs, rot := o.1, diag := o.2.1, plaza_dir := o.2.2, nesw := rotated }

/-- The loop of `mapgen_subway` (lines 846-851) that adds the neighbours carrying
the `subway_connection` flag; `subway_connection dir` is
`dat.t_nesw[dir]->has_flag( oter_flags::subway_connection )`. -/
def subway_add_connections (subway_connection : Nat → Bool) (start : Int × List Bool) :
    Int × List Bool :=
  [0, 1, 2, 3].foldl
    (fun (acc : Int × List Bool) (dir : Nat) =>
      if subway_connection dir && !at_ acc.2 dir then (acc.1 + 1, acc.2.set dir true)
      else acc)
    start

/-- The part of `mapgen_subway` that fixes the orientation (lines 841-851 and
889-970). -/
def mapgen_subway_layout (has_connection : Nat → Bool) (subway_connection : Nat → Bool) :
    Option tile_layout :=
  let r := subway_add_connections subway_connection
    (terrain_type_to_nesw_array has_connection [false, false, false, false])
  let num_dirs := r.1
  let subway_nesw := r.2
  let o := mapgen_subway_rot num_dirs subway_nesw
  (nesw_array_rotate subway_nesw 4 o.1.toNat).map fun rotated =>
    { num_dirs := num_dirs, rot := o.1, diag := o.2, plaza_dir := -1, nesw := rotated }

/-- The part of `mapgen_railroad` that fixes the orientation (lines 1272-1273 and
1295-1369). -/
def mapgen_railroad_layout (has_connection : Nat → Bool) : Option tile_layout :=
  let r := terrain_type_to_nesw_array has_connection [false, false, false, false]
  let num_dirs := r.1
  let railroads_nesw := r.2
  let o := mapgen_railroad_rot num_dirs railroads_nesw
  (nesw_array_rotate railroads_nesw 4 o.1.toNat).map fun rotated =>
    { num_dirs := num_dirs, rot := o.1, diag := o.2, plaza_dir := -1, nesw := rotated }

/-- The connectivity array of a tile whose own connections are `hc` and whose
neighbours carry the `subway_connection` flags `sc` (all false for a road or a
railroad). -/
def joined_nesw (hc sc : Nat → Bool) : List Bool :=
  [hc 0 || sc 0, hc 1 || sc 1, hc 2 || sc 2, hc 3 || sc 3]

/-- Number of connected directions of a connectivity array. -/
def count_dirs (a : List Bool) : Int := (a.filter id).length

/-! ## Arm pavement of `mapgen_road` (lines 715-725) -/

/-- Modelled from the spec: `square` (declared in `mapgen.h`) is not among the
sources; it sets every cell of the rectangle that has `p1` and `p2` as opposite
corners, whichever way round the corners are given. -/
def square_covers (p1 p2 q : point) : Bool :=
  decide (min p1.x p2.x ≤ q.x ∧ q.x ≤ max p1.x p2.x ∧ min p1.y p2.y ≤ q.y ∧ q.y ≤ max p1.y p2.y)

/-- The dead-end extension of `mapgen_road` (line 506). -/
def dead_end_extension (num_dirs : Int) : Int := if num_dirs = 1 then 8 else 0

/-- The two corners handed to `square( m, t_pavement, ... )` for direction `dir`
in the normal road drawing (lines 719-725). -/
def road_arm_corners (dead_end_ext : Int) (dir : Nat) : point × point :=
  (coord_rotate_cw ⟨4, 0⟩ dir, coord_rotate_cw ⟨SEEX * 2 - 1 - 4, SEEY - 1 + dead_end_ext⟩ dir)

/-- Cell `q` is covered by one of the arm pavement rectangles drawn by the loop
`for( int dir = 0; dir < 4; dir++ ) if( roads_nesw[dir] ) square( ... )` of the
normal road drawing, in the canonical orientation. -/
def road_arm_pavement (l : tile_layout) (q : point) : Bool :=
  (List.range 4).any fun dir =>
    at_ l.nesw dir &&
      square_covers (road_arm_corners (dead_end_extension l.num_dirs) dir).1
        (road_arm_corners (dead_end_extension l.num_dirs) dir).2 q

/-- The North arm rectangle: columns 4..19, rows 0..11 + dead-end extension. -/
def north_arm (dead_end_ext : Int) (p : point) : Bool :=
  decide (4 ≤ p.x ∧ p.x ≤ 19 ∧ 0 ≤ p.y ∧ p.y ≤ 11 + dead_end_ext)

/-! ## `mapgen_lake_shore` (lines 2532-2955) -/

/-- The local `enum class n_type` of `mapgen_lake_shore`. -/
inductive n_type where
  | lake
  | shore
  | river
  | solid
deriving DecidableEq, Repr, Fintype

/-- What `mapgen_lake_shore` reads of a neighbouring overmap terrain `n`:
`n == river_center`, `n.obj().is_lake()`, `n.obj().is_lake_shore()` and
`n.obj().is_river()` (the type `oter_t` itself is declared in `omdata.h`). -/
structure oter_t where
  is_river_center : Bool
  is_lake : Bool
  is_lake_shore : Bool
  is_river : Bool
deriving DecidableEq, Repr

/-- Body of the classification loop (lines 2612-2625) for one neighbour. -/
def classify (n : oter_t) : n_type :=
  if n.is_river_center || n.is_lake then n_type.lake
  else if n.is_lake_shore then n_type.shore
  else if n.is_river then n_type.river
  else n_type.solid

/-- The array `neighbours` after the classification loop: the classes of
`dat.t_nesw[0..7]`, in the order N E S W NE SE SW NW. -/
def classify_neighbours (t_nesw : Nat → oter_t) : List n_type :=
  (List.range 8).map fun i => classify (t_nesw i)

/-- The counter `lakes` after the classification loop. -/
def count_lakes (neighbours : List n_type) : Int :=
  (neighbours.filter fun t => t == n_type.lake).length

/-- Read of `neighbours[i]`. -/
def nb (neighbours : List n_type) (i : Nat) : n_type := neighbours.getD i n_type.solid

def mx : Int := SEEX * 2 - 1
def my : Int := SEEY * 2 - 1

/-- `sector_length = SEEX * 2 / 3`. -/
def sector_length : Int := Int.tdiv (SEEX * 2) 3

def nw_corner : point := ⟨0, 0⟩
def ne_corner : point := ⟨mx, 0⟩
def se_corner : point := ⟨mx, my⟩
def sw_corner : point := ⟨0, my⟩

def river_beach_x : point := ⟨Int.tdiv sector_length 2, 0⟩
def river_beach_y : point := ⟨0, Int.tdiv sector_length 2⟩
def lake_beach_x : point := ⟨sector_length * 2, 0⟩
def lake_beach_y : point := ⟨0, sector_length * 2⟩

/-- The assignment `slots[k] = p` when `c` holds.  The `std::map<int, point>`
named `slots` only ever holds keys 0..7 and is kept as a list of eight optional
points. -/
def slot_put (c : Bool) (k : Nat) (p : point) (slots : List (Option point)) :
    List (Option point) :=
  if c then slots.set k (some p) else slots

/-- The call `slots.contains( k )`. -/
def slot_contains (slots : List (Option point)) (k : Int) : Bool :=
  decide (0 ≤ k) && (slots.getD k.toNat none).isSome

/-- Read of `slots[k]` for a key that is present (a missing key would be
default-constructed as `point()`, which the code never relies on). -/
def slot_at (slots : List (Option point)) (k : Int) : point :=
  (slots.getD k.toNat none).getD ⟨0, 0⟩

/-- The sixteen conditional slot assignments (lines 2701-2778): river banks
first, then shores. -/
def lake_shore_slots (neighbours : List n_type) : List (Option point) :=
  let n_lake := nb neighbours 0 == n_type.lake
  let e_lake := nb neighbours 1 == n_type.lake
  let s_lake := nb neighbours 2 == n_type.lake
  let w_lake := nb neighbours 3 == n_type.lake
  let ne_lake := nb neighbours 4 == n_type.lake
  let se_lake := nb neighbours 5 == n_type.lake
  let sw_lake := nb neighbours 6 == n_type.lake
  let nw_lake := nb neighbours 7 == n_type.lake
  let n_shore := nb neighbours 0 == n_type.shore
  let e_shore := nb neighbours 1 == n_type.shore
  let s_shore := nb neighbours 2 == n_type.shore
  let w_shore := nb neighbours 3 == n_type.shore
  let n_river_bank := nb neighbours 0 == n_type.river
  let e_river_bank := nb neighbours 1 == n_type.river
  let s_river_bank := nb neighbours 2 == n_type.river
  let w_river_bank := nb neighbours 3 == n_type.river
  let n_water := nb neighbours 0 != n_type.solid
  let e_water := nb neighbours 1 != n_type.solid
  let s_water := nb neighbours 2 != n_type.solid
  let w_water := nb neighbours 3 != n_type.solid
  let ne_water := nb neighbours 4 != n_type.solid
  let se_water := nb neighbours 5 != n_type.solid
  let sw_water := nb neighbours 6 != n_type.solid
  let nw_water := nb neighbours 7 != n_type.solid
  let slots : List (Option point) := List.replicate 8 none
  let slots := slot_put (n_river_bank && nw_water && (!ne_water || !e_water)) 0
    (ne_corner - river_beach_x) slots
  let slots := slot_put (n_river_bank && ne_water && (!nw_water || !w_water)) 1
    (nw_corner + river_beach_x) slots
  let slots := slot_put (w_river_bank && sw_water && (!nw_water || !n_water)) 2
    (nw_corner + river_beach_y) slots
  let slots := slot_put (w_river_bank && nw_water && (!sw_water || !s_water)) 3
    (sw_corner - river_beach_y) slots
  let slots := slot_put (s_river_bank && se_water && (!sw_water || !w_water)) 4
    (sw_corner + river_beach_x) slots
  let slots := slot_put (s_river_bank && sw_water && (!se_water || !e_water)) 5
    (se_corner - river_beach_x) slots
  let slots := slot_put (e_river_bank && ne_water && (!se_water || !s_water)) 6
    (se_corner - river_beach_y) slots
  let slots := slot_put (e_river_bank && se_water && (!ne_water || !n_water)) 7
    (ne_corner + river_beach_y) slots
  let slots := slot_put (n_shore && (nw_lake || w_lake)) 0 (ne_corner - lake_beach_x) slots
  let slots := slot_put (n_shore && (ne_lake || e_lake)) 1 (nw_corner + lake_beach_x) slots
  let slots := slot_put (w_shore && (sw_lake || s_lake)) 2 (nw_corner + lake_beach_y) slots
  let slots := slot_put (w_shore && (nw_lake || n_lake)) 3 (sw_corner - lake_beach_y) slots
  let slots := slot_put (s_shore && (se_lake || e_lake)) 4 (sw_corner + lake_beach_x) slots
  let slots := slot_put (s_shore && (sw_lake || w_lake)) 5 (se_corner - lake_beach_x) slots
  let slots := slot_put (e_shore && (ne_lake || n_lake)) 6 (se_corner - lake_beach_y) slots
  let slots := slot_put (e_shore && (se_lake || s_lake)) 7 (ne_corner + lake_beach_y) slots
  slots

/-- The array `water` of the fallback branch (line 2814). -/
def water_sides (neighbours : List n_type) : List Bool :=
  let n_water := nb neighbours 0 != n_type.solid
  let e_water := nb neighbours 1 != n_type.solid
  let s_water := nb neighbours 2 != n_type.solid
  let w_water := nb neighbours 3 != n_type.solid
  [n_water, n_water, w_water, w_water, s_water, s_water, e_water, e_water]

/-- Body of the first loop over the slots (lines 2784-2792): `open[i]` records
whether slot `i` exists, and the two points of a side with both slots present
are swapped. -/
def open_slots_step (acc : List Bool × List (Option point)) (i : Nat) :
    List Bool × List (Option point) :=
  let open_ := acc.1.set i (slot_contains acc.2 i)
  if i % 2 ≠ 0 && at_ open_ i && at_ open_ (i - 1) then
    let p := slot_at acc.2 i
    let slots := acc.2.set i (some (slot_at acc.2 (i - 1)))
    (open_, slots.set (i - 1) (some p))
  else (open_, acc.2)

/-- The first loop over the slots, `for( int i = 0; i < 8; i++ )` with
`bool open[8] = { false }`.  Returns `open` and the updated `slots`. -/
def open_slots (slots : List (Option point)) : List Bool × List (Option point) :=
  (List.range 8).foldl open_slots_step (List.replicate 8 false, slots)

/-- Modelled from the spec: `modulo` (declared in `cata_utility.h`) is not among
the sources; it is the remainder brought into `0 .. m - 1`, which is what lets
the pairing scan run around the perimeter. -/
def modulo (v m : Int) : Int :=
  let r := Int.tmod v m
  if r ≥ 0 then r else r + m

/-- The scan `for( int j = modulo( i + dir, 8 ); j != i; j = modulo( j + dir, 8 ) )`
with body `if( hit j ) { result = j; break; }` and `result = i` beforehand.
`none` only when the fuel runs out before the loop ends. -/
def scan_loop (hit : Int → Bool) (i dir : Int) : Nat → Int → Option Int
  | 0, _ => none
  | fuel + 1, j =>
    if j = i then some i
    else if hit j then some j
    else scan_loop hit i dir fuel (modulo (j + dir) 8)

/-- State of the pairing loop: the array `open`, the vector `line_segments`, and
a history of the pairing steps taken (`closings`, one entry `(i, pair)` for each
pass that reaches "Close both points"; not a variable of the source). -/
structure pairing_state where
  open_ : List Bool
  line_segments : List (List point)
  closings : List (Int × Int)
deriving DecidableEq, Repr

/-- The segments pushed by the fallback branch (lines 2822-2830). -/
def fallback_segments (slots : List (Option point)) (i fallback : Int) : List (List point) :=
  if fallback < 2 then [[slot_at slots i, ⟨Int.tdiv mx 2, 0⟩]]
  else if fallback < 4 then [[slot_at slots i, ⟨0, Int.tdiv my 2⟩]]
  else if fallback < 6 then [[slot_at slots i, ⟨Int.tdiv mx 2, my⟩]]
  else if fallback < 8 then [[slot_at slots i, ⟨mx, Int.tdiv my 2⟩]]
  else []

/-- One pass of the pairing loop (lines 2794-2844) for slot `i`. -/
def pairing_step (slots : List (Option point)) (water : List Bool) (st : pairing_state)
    (i : Nat) : Option pairing_state :=
  if !at_ st.open_ i then some st
  else
    let next : Int := if i % 2 = 0 then 1 else -1
    let dir : Int := if slot_contains slots (i + next) then -next else next
    (scan_loop (fun j => at_ st.open_ j.toNat) i dir 8 (modulo (i + dir) 8)).bind fun pair =>
      let segments : Option (List (List point)) :=
        if pair = i then
          (scan_loop (fun j => !at_ water j.toNat) i dir 8 (modulo (i + dir) 8)).map
            (fallback_segments slots i)
        else if pair = i + next then
          let mid : point := ⟨Int.tdiv mx 2, Int.tdiv my 2⟩
          some [[mid, slot_at slots i], [mid, slot_at slots pair]]
        else some [[slot_at slots i, slot_at slots pair]]
      segments.map fun segs =>
        { open_ := (st.open_.set i false).set pair.toNat false
          line_segments := st.line_segments ++ segs
          closings := st.closings ++ [((i : Int), pair)] }

/-- The pairing loop `for( int i = 0; i < 8; i++ )`. -/
def pairing_loop (slots : List (Option point)) (water : List Bool) (st : pairing_state) :
    Option pairing_state :=
  (List.range 8).foldlM (pairing_step slots water) st

/-- The four segments of the reef (lines 2848-2855). -/
def reef_segments : List (List point) :=
  let nw_inner := nw_corner + ⟨sector_length, sector_length⟩
  let ne_inner := ne_corner + ⟨-sector_length, sector_length⟩
  let se_inner := se_corner + ⟨-sector_length, -sector_length⟩
  let sw_inner := sw_corner + ⟨sector_length, -sector_length⟩
  [[ne_inner, nw_inner], [nw_inner, sw_inner], [sw_inner, se_inner], [se_inner, ne_inner]]

/-- What the slot code leaves behind: the array `open` as first filled, the
state after the pairing loop, and `line_segments` after the reef test. -/
structure shoreline_plan where
  opened : List Bool
  paired : pairing_state
  line_segments : List (List point)
deriving DecidableEq, Repr

/-- Lines 2701-2856 of `mapgen_lake_shore`: slots, pairing, reef. -/
def lake_shore_plan (neighbours : List n_type) : Option shoreline_plan :=
  let o := open_slots (lake_shore_slots neighbours)
  (pairing_loop o.2 (water_sides neighbours) ⟨o.1, [], []⟩).map fun st =>
    { opened := o.1
      paired := st
      line_segments := if st.line_segments.isEmpty then reef_segments else st.line_segments }

/-! ### Terrain buffer and the helpers `mapgen_lake_shore` calls -/

/-- Terrain ids (`ter_id`, declared in `mapdata.h`): the six that
`mapgen_lake_shore` names, and `other n` for every other terrain. -/
inductive ter_id where
  | t_null
  | t_water_sh
  | t_water_dp
  | t_rock
  | t_lake_bed
  | t_water_cube
  | other (n : Nat)
deriving DecidableEq, Repr

/-- Furniture ids (`furn_id`, declared in `mapdata.h`): `f_null` and the rest. -/
inductive furn_id where
  | f_null
  | other (n : Nat)
deriving DecidableEq, Repr

/-- The terrain and furniture layers of the tile buffer `dat.m`. -/
structure map_t where
  ter : point → ter_id
  furn : point → furn_id

/-- The call `m->ter_set( p, t )`. -/
def ter_set (m : map_t) (p : point) (t : ter_id) : map_t :=
  { m with ter := fun q => if q = p then t else m.ter q }

/-- The call `m->furn_set( p, f )`. -/
def furn_set (m : map_t) (p : point) (f : furn_id) : map_t :=
  { m with furn := fun q => if q = p then f else m.furn q }

/-- The call `m->translate( from, to )`: every `from` terrain becomes `to`. -/
def translate (m : map_t) (t_from t_to : ter_id) : map_t :=
  { m with ter := fun q => if m.ter q = t_from then t_to else m.ter q }

/-- The test `map_boundaries.contains( p )` for the
`inclusive_rectangle<point> map_boundaries( nw_corner, se_corner )`. -/
def map_boundaries_contains (p : point) : Bool :=
  decide (nw_corner.x ≤ p.x ∧ p.x ≤ se_corner.x ∧ nw_corner.y ≤ p.y ∧ p.y ≤ se_corner.y)

/-- Modelled from the spec: `square_dist` (declared in `line.h`) is not among the
sources; it is the larger of the two coordinate distances. -/
def square_dist (p1 p2 : point) : Int :=
  max (Int.natAbs (p1.x - p2.x)) (Int.natAbs (p1.y - p2.y))

/-- Loop of the digital line for a slope of exactly one: `n` diagonal steps. -/
def bresenham_diag (s : point) : Nat → point → List point
  | 0, _ => []
  | n + 1, cur =>
    let cur1 : point := ⟨cur.x + s.x, cur.y + s.y⟩
    cur1 :: bresenham_diag s n cur1

/-- Loop of the digital line when `x` is the major axis: `n` steps in `x`, with a
step in `y` whenever the error term `t` is positive. -/
def bresenham_x (s a : point) : Nat → point → Int → List point
  | 0, _, _ => []
  | n + 1, cur, t =>
    let cur1 : point := if t > 0 then ⟨cur.x, cur.y + s.y⟩ else cur
    let t1 : Int := if t > 0 then t - a.x else t
    let cur2 : point := ⟨cur1.x + s.x, cur1.y⟩
    cur2 :: bresenham_x s a n cur2 (t1 + a.y)

/-- Loop of the digital line when `y` is the major axis. -/
def bresenham_y (s a : point) : Nat → point → Int → List point
  | 0, _, _ => []
  | n + 1, cur, t =>
    let cur1 : point := if t > 0 then ⟨cur.x + s.x, cur.y⟩ else cur
    let t1 : Int := if t > 0 then t - a.y else t
    let cur2 : point := ⟨cur1.x, cur1.y + s.y⟩
    cur2 :: bresenham_y s a n cur2 (t1 + a.x)

/-- Modelled from the spec: `line_to` (declared in `line.h`) is not among the
sources; the spec asks for a digital line algorithm (Bresenham-equivalent).
This is the integer Bresenham line from `p1` to `p2` with doubled slopes `a`,
step signs `s` and error term `t`: one cell per step along the major axis, the
start cell left out and the end cell included; a line of length zero is the
single cell `p1`. -/
def line_to (p1 p2 : point) (t : Int) : List point :=
  let d : point := p2 - p1
  let s : point := ⟨Int.sign d.x, Int.sign d.y⟩
  let a : point := ⟨2 * Int.natAbs d.x, 2 * Int.natAbs d.y⟩
  if square_dist p1 p2 = 0 then [p1]
  else if a.x = a.y then bresenham_diag s (Int.natAbs d.x) p1
  else if a.x > a.y then bresenham_x s a (Int.natAbs d.x) p1 t
  else bresenham_y s a (Int.natAbs d.y) p1 t

/-- Modelled from the spec: `closest_points_first` (declared in `point.h`) is not
among the sources; with radius 1 it lists the centre and its eight neighbours,
which is what gives the shallow-water line its thickness. -/
def closest_points_first (center : point) : List point :=
  [center,
   ⟨center.x + 1, center.y⟩, ⟨center.x + 1, center.y + 1⟩, ⟨center.x, center.y + 1⟩,
   ⟨center.x - 1, center.y + 1⟩, ⟨center.x - 1, center.y⟩, ⟨center.x - 1, center.y - 1⟩,
   ⟨center.x, center.y - 1⟩, ⟨center.x + 1, center.y - 1⟩]

/-- Body of the inner loop of `draw_shallow_water` (lines 2867-2873): a cell
outside `map_boundaries` is skipped, any other gets `t_null` and `f_null`. -/
def set_null (m : map_t) (bp : point) : map_t :=
  if map_boundaries_contains bp then furn_set (ter_set m bp ter_id.t_null) bp furn_id.f_null
  else m

/-- The lambda `draw_shallow_water` (lines 2863-2876). -/
def draw_shallow_water (m : map_t) (from_pt to_pt : point) : map_t :=
  (line_to from_pt to_pt 0).foldl (fun m p => (closest_points_first p).foldl set_null m) m

/-- The cells of the tile buffer, row by row. -/
def buffer_cells : List point :=
  (List.range 24).flatMap fun (y : Nat) =>
    (List.range 24).map fun (x : Nat) => (⟨(x : Int), (y : Int)⟩ : point)

/-- A predicate on the cells of the buffer stored as a table of 24 rows. -/
def table_of (f : point → Bool) : List (List Bool) :=
  (List.range 24).map fun (y : Nat) =>
    (List.range 24).map fun (x : Nat) => f ⟨(x : Int), (y : Int)⟩

/-- Read of a table of rows; `false` outside the table. -/
def table_at (rows : List (List Bool)) (p : point) : Bool :=
  if 0 ≤ p.x ∧ 0 ≤ p.y then (rows.getD p.y.toNat []).getD p.x.toNat false else false

/-- One round of flooding: a cell is reached when it can be filled and it, or one
of its four neighbours, was reached before. -/
def flood_round (fillable cur : point → Bool) (p : point) : Bool :=
  fillable p &&
    (cur p || cur ⟨p.x, p.y + 1⟩ || cur ⟨p.x, p.y - 1⟩ || cur ⟨p.x + 1, p.y⟩ ||
      cur ⟨p.x - 1, p.y⟩)

/-- The table of the cells reached after `n` rounds of flooding from `start`. -/
def flood_reach (fillable : List (List Bool)) (start : point) : Nat → List (List Bool)
  | 0 => table_of fun p => decide (p = start) && table_at fillable p
  | n + 1 => table_of (flood_round (table_at fillable) (table_at (flood_reach fillable start n)))

/-- Modelled from the spec: `ff::point_flood_fill_4_connected` (declared in
`flood_fill.h`) is not among the sources; it returns the cells 4-connected to
`start` through cells that satisfy the predicate.  Here the predicate holds
only inside the 24x24 buffer, so 576 rounds reach every such cell.  The set
`visited` shared by the four calls of the source only keeps a later call from
listing a cell a second time; it is left out. -/
def point_flood_fill_4_connected (start : point) (fillable : point → Bool) : List point :=
  buffer_cells.filter (table_at (flood_reach (table_of fillable) start 576))

/-- The lambda `should_fill` (lines 2918-2923). -/
def should_fill (m : map_t) (p : point) : Bool :=
  if !map_boundaries_contains p then false else decide (m.ter p ≠ ter_id.t_null)

/-- The lambda `fill_deep_water` (lines 2925-2932); also returns `water_points`. -/
def fill_deep_water (water_tile : ter_id) (m : map_t) (starting_point : point) :
    map_t × List point :=
  let water_points := point_flood_fill_4_connected starting_point (should_fill m)
  (water_points.foldl (fun m wp => furn_set (ter_set m wp water_tile) wp furn_id.f_null) m,
    water_points)

/-- The corners from which deep water is flood-filled, in the order of the four
`if` statements (lines 2936-2950). -/
def fill_corners (neighbours : List n_type) : List point :=
  let n_lake := nb neighbours 0 == n_type.lake
  let e_lake := nb neighbours 1 == n_type.lake
  let s_lake := nb neighbours 2 == n_type.lake
  let w_lake := nb neighbours 3 == n_type.lake
  let ne_lake := nb neighbours 4 == n_type.lake
  let se_lake := nb neighbours 5 == n_type.lake
  let sw_lake := nb neighbours 6 == n_type.lake
  let nw_lake := nb neighbours 7 == n_type.lake
  (if n_lake || nw_lake || w_lake then [nw_corner] else []) ++
  (if s_lake || sw_lake || w_lake then [sw_corner] else []) ++
  (if n_lake || ne_lake || e_lake then [ne_corner] else []) ++
  (if s_lake || se_lake || e_lake then [se_corner] else [])

/-! ### The generator -/

/-- The fields of `mapgendata` that `mapgen_lake_shore` reads, and the buffer. -/
structure mapgendata where
  /-- `dat.t_nesw[0..7]`. -/
  t_nesw : Nat → oter_t
  /-- `dat.pos`, the absolute overmap-terrain position of the tile. -/
  pos : tripoint
  /-- `dat.zlevel()`. -/
  zlevel : Int
  /-- `dat.region.overmap_lake.lake_depth`. -/
  lake_depth : Int
  /-- A tag for the regional settings `dat.region` read by the ground phase. -/
  region : Nat
  /-- The tile buffer `dat.m`. -/
  m : map_t

/-- What `mapgen_lake_shore` takes from outside the file.  `G` is the state of
the `std::mt19937` named `prng`, `A` the state of the ambient random source. -/
structure lake_env (G A : Type) where
  /-- `std::hash<point_abs_omt>()` applied to the x and y of `dat.pos`. -/
  hash_xy : Int → Int → Nat
  /-- Construction of a `std::mt19937` from a seed value. -/
  prng_seed : Nat → G
  /-- One draw of `std::uniform_int_distribution<int>( a, b )` from `prng`. -/
  roll : Int → Int → G → Int × G
  /-- The distance `rl_dist` of `line.h` (trigonometric or square, by option). -/
  rl_dist : point → point → Int
  /-- Lines 2545-2599: the optional run of an adjacent terrain's generator and
  the ground fill; they read `dat` and draw from the ambient random source. -/
  ground : mapgendata → A → map_t × A

/-- The lambda `jittered_midpoint` (lines 2886-2892).  The two draws are taken
for `x` first and `y` second; C++ leaves the order of the two constructor
arguments open, and nothing proved here depends on it. -/
def jittered_midpoint {G A : Type} (env : lake_env G A) (g : G) (from_pt to_pt : point) :
    point × G :=
  let jitter := Int.tdiv (env.rl_dist from_pt to_pt) 4
  let r1 := env.roll (-jitter) jitter g
  let r2 := env.roll (-jitter) jitter r1.2
  (⟨Int.tdiv (from_pt.x + to_pt.x) 2 + r1.1, Int.tdiv (from_pt.y + to_pt.y) 2 + r2.1⟩, r2.2)

/-- State of the loop over `line_segments` (lines 2902-2911): the generator, the
buffer, and the polylines drawn so far (each `ls[0], mp2, mp1, mp3, ls[1]`; the
list of polylines is a record of the loop, not a variable of the source). -/
structure jitter_state (G : Type) where
  prng : G
  m : map_t
  polylines : List (List point)

/-- Body of the loop over `line_segments`. -/
def jitter_step {G A : Type} (env : lake_env G A) (st : jitter_state G) (ls : List point) :
    jitter_state G :=
  let ls0 := ls.getD 0 ⟨0, 0⟩
  let ls1 := ls.getD 1 ⟨0, 0⟩
  let j1 := jittered_midpoint env st.prng ls0 ls1
  let mp1 := j1.1
  let j2 := jittered_midpoint env j1.2 ls0 mp1
  let mp2 := j2.1
  let j3 := jittered_midpoint env j2.2 mp1 ls1
  let mp3 := j3.1
  let m := draw_shallow_water st.m ls0 mp2
  let m := draw_shallow_water m mp2 mp1
  let m := draw_shallow_water m mp1 mp3
  let m := draw_shallow_water m mp3 ls1
  { prng := j3.2, m := m, polylines := st.polylines ++ [[ls0, mp2, mp1, mp3, ls1]] }

/-- What a run of `mapgen_lake_shore` leaves behind: the buffer, the ambient
random state, and a record of what was computed on the way (`plan` is `none`
when the function returned at `lakes == 0`). -/
structure lake_shore_result (A : Type) where
  m : map_t
  ambient : A
  plan : Option shoreline_plan
  polylines : List (List point)
  fill_starts : List point
  filled : List point

/-- The function `mapgen_lake_shore`.  `seed` is `g->get_seed()` and `ambient` the
state of the ambient random source on entry.  `none` only if a pairing scan
ran out of fuel. -/
def mapgen_lake_shore {G A : Type} (env : lake_env G A) (seed : Nat) (dat : mapgendata)
    (ambient : A) : Option (lake_shore_result A) :=
  let g0 := env.ground dat ambient
  let neighbours := classify_neighbours dat.t_nesw
  if count_lakes neighbours = 0 then
    some { m := g0.1, ambient := g0.2, plan := none, polylines := [], fill_starts := [],
           filled := [] }
  else
    (lake_shore_plan neighbours).map fun plan =>
      let prng := env.prng_seed (env.hash_xy dat.pos.x dat.pos.y ^^^ seed)
      let edge_tile := if dat.zlevel ≥ 0 then ter_id.t_water_sh else ter_id.t_rock
      let water_tile :=
        if dat.zlevel ≥ 0 then ter_id.t_water_dp
        else if dat.zlevel = dat.lake_depth then ter_id.t_lake_bed
        else ter_id.t_water_cube
      let drawn := plan.line_segments.foldl (jitter_step env) ⟨prng, g0.1, []⟩
      let starts := fill_corners neighbours
      let flooded := starts.foldl
        (fun (acc : map_t × List point) start =>
          let r := fill_deep_water water_tile acc.1 start
          (r.1, acc.2 ++ r.2))
        (drawn.m, [])
      { m := translate flooded.1 ter_id.t_null edge_tile
        ambient := g0.2
        plan := some plan
        polylines := drawn.polylines
        fill_starts := starts
        filled := flooded.2 }

/-- The part of `pairing_step` that decides which slots are closed, read off the
flags `slots.contains( k )` alone: it returns the new `open` array and the
extended history.  Used to reason about `pairing_step`. -/
def closing_step (contains : List Bool) (tr : List Bool × List (Int × Int)) (i : Nat) :
    Option (List Bool × List (Int × Int)) :=
  if !at_ tr.1 i then some tr
  else
    let next : Int := if i % 2 = 0 then 1 else -1
    let dir : Int := if decide (0 ≤ (i : Int) + next) && at_ contains ((i : Int) + next).toNat
      then -next else next
    (scan_loop (fun j => at_ tr.1 j.toNat) i dir 8 (modulo (i + dir) 8)).map fun pair =>
      ((tr.1.set i false).set pair.toNat false, tr.2 ++ [((i : Int), pair)])

/-- The closing history of the whole pairing loop, from the flags alone. -/
def closing_loop (contains : List Bool) : Option (List Bool × List (Int × Int)) :=
  (List.range 8).foldlM (closing_step contains) (contains, [])

/-- How many pairing steps of a history involve slot `s`. -/
def times_closed (closings : List (Int × Int)) (s : Nat) : Nat :=
  (closings.filter fun e => e.1 == (s : Int) || e.2 == (s : Int)).length

/-! ### Paths of cells -/

/-- A cell of the 24x24 buffer. -/
def in_tile (p : point) : Prop := 0 ≤ p.x ∧ p.x < 24 ∧ 0 ≤ p.y ∧ p.y < 24

/-- The `open` array and the history of a pairing state. -/
def trace_of (st : pairing_state) : List Bool × List (Int × Int) := (st.open_, st.closings)

/-! ### Sample inputs -/

/-- A sample environment: a counter as generator that always draws the middle of
the range, the square distance, and a ground phase that leaves the buffer as
it is. -/
def sample_env : lake_env Nat Nat :=
  { hash_xy := fun x y => (x + y).toNat
    prng_seed := fun n => n
    roll := fun a b n => ((a + b) / 2, n + 1)
    rl_dist := square_dist
    ground := fun d a => (d.m, a) }

/-- A sample tile on the surface: lake to the South, lake shore all around. -/
def sample_dat : mapgendata :=
  { t_nesw := fun i => if i = 2 then ⟨false, true, false, false⟩ else ⟨false, false, true, false⟩
    pos := ⟨3, 4, 0⟩
    zlevel := 0
    lake_depth := -5
    region := 0
    m := ⟨fun _ => ter_id.other 0, fun _ => furn_id.f_null⟩ }

/-- The same tile two levels down, with another buffer and a river centre (a
lake for the classification) to the South. -/
def sample_dat_below : mapgendata :=
  { t_nesw := fun i => if i = 2 then ⟨true, false, false, false⟩ else ⟨false, false, true, true⟩
    pos := ⟨3, 4, -2⟩
    zlevel := -2
    lake_depth := -5
    region := 1
    m := ⟨fun _ => ter_id.t_rock, fun _ => furn_id.other 3⟩ }

/-- The variable `dir` of the pairing loop for slot `i` (lines 2800-2801). -/
def scan_dir (slots : List (Option point)) (i : Nat) : Int :=
  let next : Int := if i % 2 = 0 then 1 else -1
  if slot_contains slots (i + next) then -next else next

/-- The variable `fallback` after the scan of lines 2815-2821 for the unpaired
slot `i`: the first index `j != i` around the perimeter with `!water[j]`, and
`i` itself when there is none. -/
def fallback_scan (slots : List (Option point)) (water : List Bool) (i : Nat) : Option Int :=
  scan_loop (fun j => !at_ water j.toNat) i (scan_dir slots i) 8
    (modulo (i + scan_dir slots i) 8)

/-- The side midpoint that the chain of lines 2822-2830 attaches the coast line
to. -/
def fallback_midpoint (fallback : Int) : point :=
  if fallback < 2 then ⟨Int.tdiv mx 2, 0⟩
  else if fallback < 4 then ⟨0, Int.tdiv my 2⟩
  else if fallback < 6 then ⟨Int.tdiv mx 2, my⟩
  else ⟨mx, Int.tdiv my 2⟩

/-- Index in `neighbours` of the cardinal neighbour behind the side picked by the
chain of lines 2822-2830: the northern side (y = 0) faces neighbour 0, the
western side (x = 0) neighbour 3, the southern side neighbour 2 and the eastern
side neighbour 1.  The array `water` holds the same four sides in this order,
two entries each. -/
def fallback_neighbour (fallback : Int) : Nat :=
  if fallback < 2 then 0 else if fallback < 4 then 3 else if fallback < 6 then 2 else 1

/-- Every unpaired step of the history has its fallback segment among the
segments collected so far. -/
def fallback_recorded (slots : List (Option point)) (water : List Bool)
    (st : pairing_state) : Prop :=
  ∀ e ∈ st.closings, e.2 = e.1 → 0 ≤ e.1 ∧
    ∃ fb, fallback_scan slots water e.1.toNat = some fb ∧
      ∀ s ∈ fallback_segments slots e.1 fb, s ∈ st.line_segments

/-- A sample tile: lake to the North-West, lake shore to the North, East and
South, river bank to the West, lake shore to the South-West, solid ground to
the North-East and South-East. -/
def sample_dat_cove : mapgendata :=
  { t_nesw := fun i =>
      if i = 7 then ⟨false, true, false, false⟩
      else if i = 3 then ⟨false, false, false, true⟩
      else if i = 4 ∨ i = 5 then ⟨false, false, false, false⟩
      else ⟨false, false, true, false⟩
    pos := ⟨3, 4, 0⟩
    zlevel := 0
    lake_depth := -5
    region := 0
    m := ⟨fun _ => ter_id.other 0, fun _ => furn_id.f_null⟩ }

/-- A sample tile without any lake around it: river bank to the North, lake
shore to the East, solid ground elsewhere. -/
def sample_dat_dry : mapgendata :=
  { t_nesw := fun i =>
      if i = 0 then ⟨false, false, false, true⟩
      else if i = 1 then ⟨false, false, true, true⟩
      else ⟨false, false, false, false⟩
    pos := ⟨3, 4, 0⟩
    zlevel := 0
    lake_depth := -5
    region := 0
    m := ⟨fun _ => ter_id.other 2, fun _ => furn_id.other 1⟩ }

/-! ## `mapgen_forest`: the blended feature pool (lines 2124-2304) -/

/-- The four adjacency factors `dat.n_fac`, `dat.e_fac`, `dat.s_fac`, `dat.w_fac`
of `mapgendata` (declared in `mapgendata.h`). -/
structure adjacency_factors where
  n_fac : Int
  e_fac : Int
  s_fac : Int
  w_fac : Int
deriving DecidableEq, Repr

/-- The lambda `get_sparseness_adjacency_factor` (lines 2135-2147): the factor of
the biome defined for `ot`, and 0 when there is none.  `biomes` stands for
`dat.region.forest_composition.biomes`, each biome reduced to its
`sparseness_adjacency_factor`. -/
def get_sparseness_adjacency_factor (biomes : List (Nat × Int)) (ot : Nat) : Int :=
  match biomes.lookup ot with
  | none => 0
  | some f => f

/-- The lambda `get_max_sparseness_adjacency_factor` (lines 2174-2184). -/
def get_max_sparseness_adjacency_factor (biomes : List (Nat × Int)) : Int :=
  match biomes.map Prod.snd with
  | [] => 0
  | f :: fs => fs.foldl max f

/-- The lambda `fill_adjacency_factor` (lines 2149-2154): `dat.fill( self_factor )`
sets the four factors to `self_factor`, then `dat.dir( i )` for `i = 0..3`
(north, east, south, west; `fill` and `dir` are declared in `mapgendata.h`)
gets the factor of neighbour `i` added. -/
def fill_adjacency_factor (self_factor : Int) (neighbour_factor : Nat → Int) :
    adjacency_factors :=
  { n_fac := self_factor + neighbour_factor 0
    e_fac := self_factor + neighbour_factor 1
    s_fac := self_factor + neighbour_factor 2
    w_fac := self_factor + neighbour_factor 3 }

/-- The constant `margin_x = SEEX * 2 / 3`. -/
def margin_x : Int := Int.tdiv (SEEX * 2) 3

/-- The constant `margin_y = SEEY * 2 / 3`. -/
def margin_y : Int := Int.tdiv (SEEY * 2) 3

/-- The local `west_weight` of `get_blended_feature` (line 2231). -/
def west_weight (p : point) : Int := max (margin_x - p.x) 0

/-- The local `east_weight` (line 2232). -/
def east_weight (p : point) : Int := max (p.x - (SEEX * 2 - margin_x) + 1) 0

/-- The local `north_weight` (line 2233). -/
def north_weight (p : point) : Int := max (margin_y - p.y) 0

/-- The local `south_weight` (line 2234). -/
def south_weight (p : point) : Int := max (p.y - (SEEY * 2 - margin_y) + 1) 0

/-- The features that `get_blended_feature` has picked before it builds the pool:
the empty `no_ter_furn`, the feature of the tile's own biome and those of the
four neighbours. -/
structure blend_features (F : Type) where
  no_ter_furn : F
  self_feature : F
  east_feature : F
  west_feature : F
  north_feature : F
  south_feature : F

/-- The calls `feature_pool.add( feature, weight )` that `get_blended_feature`
makes for the cell `p` (lines 2239-2304), in order.  `weighted_int_list` is
declared in `weighted_list.h`; what `add` and `pick` do with the pairs is left
to the parameter `pick` of `get_blended_feature`. -/
def feature_pool {F : Type} (max_factor factor : Int) (dat : adjacency_factors)
    (f : blend_features F) (p : point) : List (F × Int) :=
  if p.x < margin_x then
    if p.y < margin_y then
      [(f.no_ter_furn, 3 * max_factor - (dat.n_fac + dat.w_fac + factor * 2)),
        (f.self_feature, 1),
        (f.west_feature, west_weight p),
        (f.north_feature, north_weight p)]
    else if p.y > SEEY * 2 - margin_y then
      [(f.no_ter_furn, 3 * max_factor - (dat.s_fac + dat.w_fac + factor * 2)),
        (f.self_feature, factor),
        (f.west_feature, west_weight p),
        (f.south_feature, south_weight p)]
    else
      [(f.no_ter_furn, 2 * max_factor - (dat.w_fac + factor * 2)),
        (f.self_feature, factor),
        (f.west_feature, west_weight p)]
  else if p.x > SEEX * 2 - margin_x then
    if p.y < margin_y then
      [(f.no_ter_furn, 3 * max_factor - (dat.n_fac + dat.e_fac + factor * 2)),
        (f.self_feature, factor),
        (f.east_feature, east_weight p),
        (f.north_feature, north_weight p)]
    else if p.y > SEEY * 2 - margin_y then
      [(f.no_ter_furn, 3 * max_factor - (dat.s_fac + dat.e_fac + factor * 2)),
        (f.self_feature, factor),
        (f.east_feature, east_weight p),
        (f.south_feature, south_weight p)]
    else
      [(f.no_ter_furn, 2 * max_factor - (dat.e_fac + factor * 2)),
        (f.self_feature, factor),
        (f.east_feature, east_weight p)]
  else
    if p.y < margin_y then
      [(f.no_ter_furn, 2 * max_factor - (dat.n_fac + factor * 2)),
        (f.self_feature, factor),
        (f.north_feature, north_weight p)]
    else if p.y > SEEY * 2 - margin_y then
      [(f.no_ter_furn, 2 * max_factor - (dat.s_fac + factor * 2)),
        (f.self_feature, factor),
        (f.south_feature, south_weight p)]
    else
      [(f.no_ter_furn, max_factor - factor * 2),
        (f.self_feature, factor)]

/-- The lambda `get_blended_feature` (lines 2193-2304) once the features are
picked: the pool is built and one feature is drawn from it; `pick` stands for
`weighted_int_list::pick` on the pool filled by the calls given, `none` being
its `nullptr`. -/
def get_blended_feature {F : Type} (pick : List (F × Int) → Option F)
    (max_factor factor : Int) (dat : adjacency_factors) (f : blend_features F)
    (p : point) : F :=
  match pick (feature_pool max_factor factor dat f p) with
  | none => f.no_ter_furn
  | some feature => feature

/-- The names of the six features, used to tell the entries of a pool apart. -/
inductive feature_name where
  | none_
  | self
  | east
  | west
  | north
  | south
deriving DecidableEq, Repr

/-- The six features, each named after itself. -/
def named_features : blend_features feature_name :=
  ⟨feature_name.none_, feature_name.self, feature_name.east, feature_name.west,
    feature_name.north, feature_name.south⟩

/-- The weights with which a feature is handed to the pool. -/
def weights_of {F : Type} [DecidableEq F] (pool : List (F × Int)) (x : F) : List Int :=
  (pool.filter fun e => decide (e.1 = x)).map Prod.snd

/-- The neighbours (0 north, 1 east, 2 south, 3 west) whose `*_fac` enters the
placeholder weight at cell `p`, read off the section tests of lines 2239-2301:
west or east by the column, north or south by the row. -/
def blended_neighbours (p : point) : List Nat :=
  (if p.x < margin_x then [3] else if p.x > SEEX * 2 - margin_x then [1] else []) ++
  (if p.y < margin_y then [0] else if p.y > SEEY * 2 - margin_y then [2] else [])

/-- The weight of the placeholder in terms of the factors: one `max_factor` for
the tile and one for each blended neighbour, less twice the local factor and
less `factor + neighbour factor` (the value `fill_adjacency_factor` leaves in
`dat.dir( i )`) for each blended neighbour. -/
def placeholder_weight (max_factor factor : Int) (neighbour_factor : Nat → Int) (p : point) :
    Int :=
  (1 + ((blended_neighbours p).length : Int)) * max_factor -
    (2 * factor + ((blended_neighbours p).map fun i => factor + neighbour_factor i).sum)

/-! ## The plaza patterns of `mapgen_road` (lines 551-559) -/

/-- The nine initializer lists that `mapgen_road` hands to `compare_neswx`, in
the order in which the conditional chain tries them, each with the value of
`plaza_dir` it stands for. -/
def plaza_patterns : List (List Int × Int) :=
  [([1, 1, 1, 1, 1, 1, 1, 1], 8),
   ([0, 1, 1, 0, 0, 1, 0, 0], 7),
   ([1, 1, 0, 0, 1, 0, 0, 0], 6),
   ([1, 0, 0, 1, 0, 0, 0, 1], 5),
   ([0, 0, 1, 1, 0, 0, 1, 0], 4),
   ([1, 1, 1, 0, 1, 1, 0, 0], 3),
   ([1, 1, 0, 1, 1, 0, 0, 1], 2),
   ([1, 0, 1, 1, 0, 0, 1, 1], 1),
   ([0, 1, 1, 1, 0, 1, 1, 0], 0)]

/-- A conditional chain `compare_neswx( a, p1 ) ? d1 : compare_neswx( a, p2 ) ? d2
: ... : -1` over the tests of `l`, tried from the front. -/
def first_match (a : List Bool) : List (List Int × Int) → Int
  | [] => -1
  | t :: rest => if compare_neswx a t.1 then t.2 else first_match a rest

/-- The 8-entry signature (N E S W NE SE SW NW) that the pattern standing for
`plaza_dir = k` matches. -/
def plaza_shape (k : Int) : List Bool :=
  match plaza_patterns.find? fun t => t.2 == k with
  | some t => t.1.map fun v => decide (v ≠ 0)
  | none => []

/-! ## Curve indicators of road, railroad and subway tiles -/

/-- The block `if( n_num_dirs == 2 && n_nesw[( dir + 2 ) % 4] ) { ... }` shared by
`mapgen_road` (lines 523-532), `mapgen_subway` (lines 876-886) and
`mapgen_railroad` (lines 1284-1293): `n` is the count and the array of the
neighbour in direction `dir`, `curvedir` the array `curvedir_nesw`. -/
def curve_from_neighbour (n : Int × List Bool) (dir : Nat) (curvedir : List Int) : List Int :=
  if n.1 = 2 && at_ n.2 ((dir + 2) % 4) then
    let c1 :=
      if at_ n.2 (Int.tmod ((dir : Int) - 1 + 4) 4).toNat then
        curvedir.set dir (curvedir.getD dir 0 - 1)
      else curvedir
    if at_ n.2 ((dir + 1) % 4) then c1.set dir (c1.getD dir 0 + 1) else c1
  else curvedir

/-- The net change that `curve_from_neighbour` makes to `curvedir[dir]`: -1 from
the first adjustment, +1 from the second. -/
def curve_delta (n : Int × List Bool) (dir : Nat) : Int :=
  (if (n.1 = 2 && at_ n.2 ((dir + 2) % 4) &&
      at_ n.2 (Int.tmod ((dir : Int) - 1 + 4) 4).toNat) = true then -1 else 0) +
  (if (n.1 = 2 && at_ n.2 ((dir + 2) % 4) && at_ n.2 ((dir + 1) % 4)) = true then 1 else 0)

/-- The curve loop of `mapgen_road` (lines 508-532).  `is_road dir` is
`dat.t_nesw[dir]->get_type_id().str() == "road"` and `n_has_connection dir` the
connections of that neighbour. -/
def mapgen_road_curvedir (roads_nesw : List Bool) (is_road : Nat → Bool)
    (n_has_connection : Nat → Nat → Bool) : List Int :=
  [0, 1, 2, 3].foldl
    (fun (curvedir : List Int) (dir : Nat) =>
      if !at_ roads_nesw dir || !is_road dir then curvedir
      else curve_from_neighbour
        (terrain_type_to_nesw_array (n_has_connection dir) [false, false, false, false])
        dir curvedir)
    [0, 0, 0, 0]

/-- The curve loop of `mapgen_railroad` (lines 1274-1294), with `is_railroad dir`
for the test on the type id `"railroad"`. -/
def mapgen_railroad_curvedir (railroads_nesw : List Bool) (is_railroad : Nat → Bool)
    (n_has_connection : Nat → Nat → Bool) : List Int :=
  [0, 1, 2, 3].foldl
    (fun (curvedir : List Int) (dir : Nat) =>
      if !at_ railroads_nesw dir || !is_railroad dir then curvedir
      else curve_from_neighbour
        (terrain_type_to_nesw_array (n_has_connection dir) [false, false, false, false])
        dir curvedir)
    [0, 0, 0, 0]

/-- The curve loop of `mapgen_subway` (lines 853-887).  The inner loop (lines
869-874) declares its own `dir`, so the flags it reads are
`dat.t_nesw[0..3]->has_flag( subway_connection )`, the flags of this tile's four
neighbours (`subway_connection`), added to the array of the neighbour under
consideration. -/
def mapgen_subway_curvedir (subway_nesw : List Bool) (is_subway : Nat → Bool)
    (subway_connection : Nat → Bool) (n_has_connection : Nat → Nat → Bool) : List Int :=
  [0, 1, 2, 3].foldl
    (fun (curvedir : List Int) (dir : Nat) =>
      if !at_ subway_nesw dir then curvedir
      else if !is_subway dir && !subway_connection dir then curvedir
      else curve_from_neighbour
        (subway_add_connections subway_connection
          (terrain_type_to_nesw_array (n_has_connection dir) [false, false, false, false]))
        dir curvedir)
    [0, 0, 0, 0]

/-- The array `curvedir_nesw` of `mapgen_subway` for a tile with connections
`has_connection`: `subway_nesw` is the array after the pass over the
`subway_connection` flags (lines 841-851). -/
def mapgen_subway_curves (has_connection : Nat → Bool) (is_subway : Nat → Bool)
    (subway_connection : Nat → Bool) (n_has_connection : Nat → Nat → Bool) : List Int :=
  mapgen_subway_curvedir
    (subway_add_connections subway_connection
      (terrain_type_to_nesw_array has_connection [false, false, false, false])).2
    is_subway subway_connection n_has_connection

/-! ## ASCII templates (lines 975-1187, 1372-1572, 1577-1610) -/

/-- The terrain ids (`ter_id` constants of `mapdata.h`) named by the templates
of `mapgen_subway`, `mapgen_railroad`, `mapgen_railroad_bridge` and by
`mapgen_sewer`. -/
inductive ter_name where
  | t_rock_floor
  | t_rock
  | t_railroad_rubble
  | t_railroad_track_d
  | t_railroad_track
  | t_railroad_tie
  | t_railroad_track_on_tie
  | t_railroad_tie_d
  | t_buffer_stop
  | t_dirt
  | t_concrete
  | t_railing
  | t_sewage
deriving DecidableEq, Repr

/-- The arguments of one call of `mapf::formatted_set_simple`: the text and the
two legends `mapf::ter_bind( keys, ids... )` and `mapf::furn_bind( keys, ids...
)`. -/
structure template where
  text : String
  ter_keys : String
  ter_ids : List ter_name
  furn_keys : String
  furn_ids : List furn_id

/-- Modelled from the spec: `mapf::ter_bind` and `mapf::furn_bind` (declared in
`mapgenformat.h`) are not among the sources; the characters of `keys` other
than blanks are the keys of the legend, bound in order to the ids that
follow. -/
def legend_bind {A : Type} (keys : String) (ids : List A) : List (Char × A) :=
  (keys.toList.filter fun c => c != Char.ofNat 32).zip ids

/-- Modelled from the spec: the scan of `mapf::formatted_set_simple` (declared in
`mapgenformat.h`, not among the sources) over the text: a newline moves to the
start of the next row, every other character belongs to the cell under the
cursor, which then moves one column on. -/
def formatted_cells (start : point) : List Char → point → List (point × Char)
  | [], _ => []
  | c :: cs, p2 =>
    if c = Char.ofNat 10 then
      formatted_cells start cs ⟨start.x, p2.y + 1⟩
    else (p2, c) :: formatted_cells start cs ⟨p2.x + 1, p2.y⟩

/-- Modelled from the spec: `mapf::formatted_set_simple` (declared in
`mapgenformat.h`, not among the sources) looks every character of the text up
in both legends and sets the terrain and the furniture of its cell; a
character that is in neither legend is an error, here `none`.  The result lists
the cells in the order of the text. -/
def formatted_set_simple (start : point) (t : template) :
    Option (List (point × ter_name × furn_id)) :=
  (formatted_cells start t.text.toList start).mapM fun e =>
    match (legend_bind t.ter_keys t.ter_ids).lookup e.2,
      (legend_bind t.furn_keys t.furn_ids).lookup e.2 with
    | some ter, some furn => some (e.1, ter, furn)
    | _, _ => none

/-- The template of the 4-way intersection of `mapgen_subway` (lines 978-1014). -/
def subway_four_way : template :=
  { text :=
      "...^X^^^X^....^X^^^X^...\n" ++
      "..^DX^^DX^....^XD^^XD^..\n" ++
      ".^D^X^D^X^....^X^D^X^D^.\n" ++
      "^D^^XD^^X^^^^^^X^^DX^^D^\n" ++
      "XXXXDXXXXXXXXXXXXXXDXXXX\n" ++
      "^^^DX^^^X^^^^^^X^^^XD^^^\n" ++
      "^^D^X^^^X^^^^^^X^^^X^D^^\n" ++
      "^D^^X^^^X^^^^^^X^^^X^^D^\n" ++
      "XXXXXXXXXXXXXXXXXXXXXXXX\n" ++
      "^^^^X^^^X^^^^^^X^^^X^^^^\n" ++
      "...^X^^^X^....^X^^^X^...\n" ++
      "...^X^^^X^....^X^^^X^...\n" ++
      "...^X^^^X^....^X^^^X^...\n" ++
      "...^X^^^X^....^X^^^X^...\n" ++
      "^^^^X^^^X^^^^^^X^^^X^^^^\n" ++
      "XXXXXXXXXXXXXXXXXXXXXXXX\n" ++
      "^D^^X^^^X^^^^^^X^^^X^^D^\n" ++
      "^^D^X^^^X^^^^^^X^^^X^D^^\n" ++
      "^^^DX^^^X^^^^^^X^^^XD^^^\n" ++
      "XXXXDXXXXXXXXXXXXXXDXXXX\n" ++
      "^D^^XD^^X^^^^^^X^^DX^^D^\n" ++
      ".^D^X^D^X^....^X^D^X^D^.\n" ++
      "..^DX^^DX^....^XD^^XD^..\n" ++
      "...^X^^^X^....^X^^^X^..."
    ter_keys := ". # ^ D X"
    ter_ids :=
      [ter_name.t_rock_floor, ter_name.t_rock, ter_name.t_railroad_rubble,
       ter_name.t_railroad_track_d, ter_name.t_railroad_track]
    furn_keys := ". # ^ D X"
    furn_ids := [furn_id.f_null, furn_id.f_null, furn_id.f_null, furn_id.f_null, furn_id.f_null] }

/-- The template of the tee of `mapgen_subway` (lines 1018-1058). -/
def subway_tee : template :=
  { text :=
      "..^D^^^D^....^D^^^D^....\n" ++
      ".^D^^^D^....^D^^^D^.....\n" ++
      "^D^^^D^....^D^^^D^......\n" ++
      "D^^^D^^^^^^D^^^D^^^^^^^^\n" ++
      "XXXDXXXXXXDXXXDXXXXXXXXX\n" ++
      "^^D^^^^^^D^^^D^^^^^^^^^^\n" ++
      "^D^^^^^^D^^^D^^^^^^^^^^^\n" ++
      "D^^^^^^D^^^D^^^^^^^^^^^^\n" ++
      "XXXXXXDXXXDXXXXXXXXXXXXX\n" ++
      "^^^^^D^^^D^^^^^^^^^^^^^^\n" ++
      "...^D^^^D^..............\n" ++
      "..^D^^^D^...............\n" ++
      ".^D^^^D^................\n" ++
      "^D^^^D^.................\n" ++
      "D^^^D^^^^^|^^|^^|^^|^^|^\n" ++
      "XXXDXXXXXXxXXxXXxXXxXXxX\n" ++
      "^^D^^^^^^^|^^|^^|^^|^^|^\n" ++
      "^D^^^^^^^^|^^|^^|^^|^^|^\n" ++
      "D^^^^^^^^^|^^|^^|^^|^^|^\n" ++
      "XXXXXXXXXXxXXxXXxXXxXXxX\n" ++
      "^^^^^^^^^^|^^|^^|^^|^^|^\n" ++
      "........................\n" ++
      "........................\n" ++
      "........................"
    ter_keys := ". # ^ | X x D"
    ter_ids :=
      [ter_name.t_rock_floor, ter_name.t_rock, ter_name.t_railroad_rubble,
       ter_name.t_railroad_tie, ter_name.t_railroad_track,
       ter_name.t_railroad_track_on_tie, ter_name.t_railroad_track_d]
    furn_keys := ". # ^ | X x D"
    furn_ids :=
      [furn_id.f_null, furn_id.f_null, furn_id.f_null, furn_id.f_null, furn_id.f_null,
       furn_id.f_null, furn_id.f_null] }

/-- The template of the diagonal of `mapgen_subway` (lines 1063-1097). -/
def subway_diagonal : template :=
  { text :=
      "...^D^^^D^....^D^^^D^...\n" ++
      "....^D^^^D^....^D^^^D^..\n" ++
      ".....^D^^^D^....^D^^^D^.\n" ++
      "......^D^^^D^....^D^^^D^\n" ++
      ".......^D^^^D^....^D^^^D\n" ++
      "#.......^D^^^D^....^D^^^\n" ++
      "##.......^D^^^D^....^D^^\n" ++
      "###.......^D^^^D^....^D^\n" ++
      "####.......^D^^^D^....^D\n" ++
      "#####.......^D^^^D^....^\n" ++
      "######.......^D^^^D^....\n" ++
      "#######.......^D^^^D^...\n" ++
      "########.......^D^^^D^..\n" ++
      "#########.......^D^^^D^.\n" ++
      "##########.......^D^^^D^\n" ++
      "###########.......^D^^^D\n" ++
      "############.......^D^^^\n" ++
      "#############.......^D^^\n" ++
      "##############.......^D^\n" ++
      "###############.......^D\n" ++
      "################.......^\n" ++
      "#################.......\n" ++
      "##################......\n" ++
      "###################....."
    ter_keys := ". # ^ D"
    ter_ids :=
      [ter_name.t_rock_floor, ter_name.t_rock, ter_name.t_railroad_rubble,
       ter_name.t_railroad_track_d]
    furn_keys := ". # ^ D"
    furn_ids := [furn_id.f_null, furn_id.f_null, furn_id.f_null, furn_id.f_null] }

/-- The template of the straight subway of `mapgen_subway` (lines 1099-1137). -/
def subway_straight : template :=
  { text :=
      "...^X^^^X^....^X^^^X^...\n" ++
      "...-x---x-....-x---x-...\n" ++
      "...^X^^^X^....^X^^^X^...\n" ++
      "...^X^^^X^....^X^^^X^...\n" ++
      "...-x---x-....-x---x-...\n" ++
      "...^X^^^X^....^X^^^X^...\n" ++
      "...^X^^^X^....^X^^^X^...\n" ++
      "...-x---x-....-x---x-...\n" ++
      "...^X^^^X^....^X^^^X^...\n" ++
      "...^X^^^X^....^X^^^X^...\n" ++
      "...-x---x-....-x---x-...\n" ++
      "...^X^^^X^....^X^^^X^...\n" ++
      "...^X^^^X^....^X^^^X^...\n" ++
      "...-x---x-....-x---x-...\n" ++
      "...^X^^^X^....^X^^^X^...\n" ++
      "...^X^^^X^....^X^^^X^...\n" ++
      "...-x---x-....-x---x-...\n" ++
      "...^X^^^X^....^X^^^X^...\n" ++
      "...^X^^^X^....^X^^^X^...\n" ++
      "...-x---x-....-x---x-...\n" ++
      "...^X^^^X^....^X^^^X^...\n" ++
      "...^X^^^X^....^X^^^X^...\n" ++
      "...-x---x-....-x---x-...\n" ++
      "...^X^^^X^....^X^^^X^..."
    ter_keys := ". # ^ - X x"
    ter_ids :=
      [ter_name.t_rock_floor, ter_name.t_rock, ter_name.t_railroad_rubble,
       ter_name.t_railroad_tie, ter_name.t_railroad_track,
       ter_name.t_railroad_track_on_tie]
    furn_keys := ". # ^ - X x"
    furn_ids :=
      [furn_id.f_null, furn_id.f_null, furn_id.f_null, furn_id.f_null, furn_id.f_null,
       furn_id.f_null] }

/-- The template of the dead end of `mapgen_subway` (lines 1142-1184). -/
def subway_dead_end : template :=
  { text :=
      "...^X^^^X^....^D^^^D^...\n" ++
      "...-x---x-...^DX^^DX^...\n" ++
      "...^X^^^X^..^D^X^D^X^...\n" ++
      "...^X^^^X^.^D^^XD^^X^...\n" ++
      "...^X^^^X^^D^^^D^^^X^...\n" ++
      "...^X^^^X^D^^^DX^^^X^...\n" ++
      "...^X^^^XD^^^D^X^^^X^...\n" ++
      "...^X^^^D^^^D^-x---x-...\n" ++
      "...^X^^DX^^D^.^X^^^X^...\n" ++
      "...^X^D^X^D^..^X^^^X^...\n" ++
      "...^XD^^XD^...-x---x-...\n" ++
      "...^D^^^D^....^X^^^X^...\n" ++
      "...^X^^^X^....^X^^^X^...\n" ++
      "...-x---x-....-x---x-...\n" ++
      "...^X^^^X^....^X^^^X^...\n" ++
      "...^X^^^X^....^X^^^X^...\n" ++
      "...-x---x-....-x---x-...\n" ++
      "...^X^^^X^....^X^^^X^...\n" ++
      "...^X^^^X^....^X^^^X^...\n" ++
      "...^S^^^S^....^S^^^S^...\n" ++
      "...^^^^^^^....^^^^^^^...\n" ++
      "#......................#\n" ++
      "##....................##\n" ++
      "########################"
    ter_keys := ". # S ^ - D X x"
    ter_ids :=
      [ter_name.t_rock_floor, ter_name.t_rock, ter_name.t_buffer_stop,
       ter_name.t_railroad_rubble, ter_name.t_railroad_tie,
       ter_name.t_railroad_track_d, ter_name.t_railroad_track,
       ter_name.t_railroad_track_on_tie]
    furn_keys := ". # S ^ - D X x"
    furn_ids :=
      [furn_id.f_null, furn_id.f_null, furn_id.f_null, furn_id.f_null, furn_id.f_null,
       furn_id.f_null, furn_id.f_null, furn_id.f_null] }

/-- The template of the 4-way intersection of `mapgen_railroad` (lines 1375-1407). -/
def railroad_four_way : template :=
  { text :=
      ".DD^^DD^........^DD^^DD.\n" ++
      "DD^^DD^..........^DD^^DD\n" ++
      "D^^DD^............^DD^^D\n" ++
      "^^DD^..............^DD^^\n" ++
      "^DD^................^DD^\n" ++
      "DD^..................^DD\n" ++
      "D^....................^D\n" ++
      "........................\n" ++
      "........................\n" ++
      "........................\n" ++
      "........................\n" ++
      "........................\n" ++
      "........................\n" ++
      "........................\n" ++
      "........................\n" ++
      "........................\n" ++
      "........................\n" ++
      "D^....................^D\n" ++
      "DD^..................^DD\n" ++
      "^DD^................^DD^\n" ++
      "^^DD^..............^DD^^\n" ++
      "D^^DD^............^DD^^D\n" ++
      "DD^^DD^..........^DD^^DD\n" ++
      ".DD^^DD^........^DD^^DD."
    ter_keys := ". ^ D"
    ter_ids := [ter_name.t_dirt, ter_name.t_railroad_rubble, ter_name.t_railroad_track_d]
    furn_keys := ". ^ D"
    furn_ids := [furn_id.f_null, furn_id.f_null, furn_id.f_null] }

/-- The template of the tee of `mapgen_railroad` (lines 1411-1451). -/
def railroad_tee : template :=
  { text :=
      ".DD^^DD^........^DD^^DD.\n" ++
      "DD^^DD^..........^DD^^DD\n" ++
      "D^^DD^............^DD^^D\n" ++
      "^^DD^..............^DD^^\n" ++
      "^DD^................^DD^\n" ++
      "DD^..................^DD\n" ++
      "D^....................^D\n" ++
      "........................\n" ++
      "........................\n" ++
      "........................\n" ++
      "........................\n" ++
      "........................\n" ++
      "........................\n" ++
      "........................\n" ++
      "........................\n" ++
      "........................\n" ++
      "^|^^|^^|^^|^^|^^|^^|^^|^\n" ++
      "XxXXxXXxXXxXXxXXxXXxXXxX\n" ++
      "^|^^|^^|^^|^^|^^|^^|^^|^\n" ++
      "^|^^|^^|^^|^^|^^|^^|^^|^\n" ++
      "^|^^|^^|^^|^^|^^|^^|^^|^\n" ++
      "XxXXxXXxXXxXXxXXxXXxXXxX\n" ++
      "^|^^|^^|^^|^^|^^|^^|^^|^\n" ++
      "........................"
    ter_keys := ". ^ | X x / D"
    ter_ids :=
      [ter_name.t_dirt, ter_name.t_railroad_rubble, ter_name.t_railroad_tie,
       ter_name.t_railroad_track, ter_name.t_railroad_track_on_tie,
       ter_name.t_railroad_tie_d, ter_name.t_railroad_track_d]
    furn_keys := ". ^ | X x / D"
    furn_ids :=
      [furn_id.f_null, furn_id.f_null, furn_id.f_null, furn_id.f_null, furn_id.f_null,
       furn_id.f_null, furn_id.f_null] }

/-- The template of the diagonal of `mapgen_railroad` (lines 1457-1489). -/
def railroad_diagonal : template :=
  { text :=
      ".^DD^^DD^.......^DD^^DD^\n" ++
      "..^DD^^DD^.......^DD^^DD\n" ++
      "...^DD^^DD^.......^DD^^D\n" ++
      "....^DD^^DD^.......^DD^^\n" ++
      ".....^DD^^DD^.......^DD^\n" ++
      "......^DD^^DD^.......^DD\n" ++
      ".......^DD^^DD^.......^D\n" ++
      "........^DD^^DD^.......^\n" ++
      ".........^DD^^DD^.......\n" ++
      "..........^DD^^DD^......\n" ++
      "...........^DD^^DD^.....\n" ++
      "............^DD^^DD^....\n" ++
      ".............^DD^^DD^...\n" ++
      "..............^DD^^DD^..\n" ++
      "...............^DD^^DD^.\n" ++
      "................^DD^^DD^\n" ++
      ".................^DD^^DD\n" ++
      "..................^DD^^D\n" ++
      "...................^DD^^\n" ++
      "....................^DD^\n" ++
      ".....................^DD\n" ++
      "......................^D\n" ++
      ".......................^\n" ++
      "........................"
    ter_keys := ". ^ D"
    ter_ids := [ter_name.t_dirt, ter_name.t_railroad_rubble, ter_name.t_railroad_track_d]
    furn_keys := ". ^ D"
    furn_ids := [furn_id.f_null, furn_id.f_null, furn_id.f_null] }

/-- The template of the straight railroad of `mapgen_railroad` (lines 1491-1527). -/
def railroad_straight : template :=
  { text :=
      ".^X^^^X^........^X^^^X^.\n" ++
      ".-x---x-........-x---x-.\n" ++
      ".^X^^^X^........^X^^^X^.\n" ++
      ".^X^^^X^........^X^^^X^.\n" ++
      ".-x---x-........-x---x-.\n" ++
      ".^X^^^X^........^X^^^X^.\n" ++
      ".^X^^^X^........^X^^^X^.\n" ++
      ".-x---x-........-x---x-.\n" ++
      ".^X^^^X^........^X^^^X^.\n" ++
      ".^X^^^X^........^X^^^X^.\n" ++
      ".-x---x-........-x---x-.\n" ++
      ".^X^^^X^........^X^^^X^.\n" ++
      ".^X^^^X^........^X^^^X^.\n" ++
      ".-x---x-........-x---x-.\n" ++
      ".^X^^^X^........^X^^^X^.\n" ++
      ".^X^^^X^........^X^^^X^.\n" ++
      ".-x---x-........-x---x-.\n" ++
      ".^X^^^X^........^X^^^X^.\n" ++
      ".^X^^^X^........^X^^^X^.\n" ++
      ".-x---x-........-x---x-.\n" ++
      ".^X^^^X^........^X^^^X^.\n" ++
      ".^X^^^X^........^X^^^X^.\n" ++
      ".-x---x-........-x---x-.\n" ++
      ".^X^^^X^........^X^^^X^."
    ter_keys := ". ^ - X x"
    ter_ids :=
      [ter_name.t_dirt, ter_name.t_railroad_rubble, ter_name.t_railroad_tie,
       ter_name.t_railroad_track, ter_name.t_railroad_track_on_tie]
    furn_keys := ". ^ - X x"
    furn_ids := [furn_id.f_null, furn_id.f_null, furn_id.f_null, furn_id.f_null, furn_id.f_null] }

/-- The template of the dead end of `mapgen_railroad` (lines 1532-1570). -/
def railroad_dead_end : template :=
  { text :=
      ".^X^^^X^........^X^^^X^.\n" ++
      ".-x---x-........-x---x-.\n" ++
      ".^X^^^X^........^X^^^X^.\n" ++
      ".^X^^^X^........^X^^^X^.\n" ++
      ".-x---x-........-x---x-.\n" ++
      ".^X^^^X^........^X^^^X^.\n" ++
      ".^X^^^X^........^X^^^X^.\n" ++
      ".-x---x-........-x---x-.\n" ++
      ".^X^^^X^........^X^^^X^.\n" ++
      ".^X^^^X^........^X^^^X^.\n" ++
      ".-x---x-........-x---x-.\n" ++
      ".^X^^^X^........^X^^^X^.\n" ++
      ".^S^^^S^........^S^^^S^.\n" ++
      ".^^^^^^^........^^^^^^^.\n" ++
      "........................\n" ++
      "........................\n" ++
      "........................\n" ++
      "........................\n" ++
      "........................\n" ++
      "........................\n" ++
      "........................\n" ++
      "........................\n" ++
      "........................\n" ++
      "........................"
    ter_keys := ". ^ S - X x"
    ter_ids :=
      [ter_name.t_dirt, ter_name.t_railroad_rubble, ter_name.t_buffer_stop,
       ter_name.t_railroad_tie, ter_name.t_railroad_track,
       ter_name.t_railroad_track_on_tie]
    furn_keys := ". ^ S - X x"
    furn_ids :=
      [furn_id.f_null, furn_id.f_null, furn_id.f_null, furn_id.f_null, furn_id.f_null,
       furn_id.f_null] }

/-- The template of `mapgen_railroad_bridge` (lines 1580-1608). -/
def railroad_bridge : template :=
  { text :=
      "r^X^^^X^________^X^^^X^r\n" ++
      "r-x---x-________-x---x-r\n" ++
      "r^X^^^X^________^X^^^X^r\n" ++
      "r^X^^^X^________^X^^^X^r\n" ++
      "r-x---x-________-x---x-r\n" ++
      "r^X^^^X^________^X^^^X^r\n" ++
      "r^X^^^X^________^X^^^X^r\n" ++
      "r-x---x-________-x---x-r\n" ++
      "r^X^^^X^________^X^^^X^r\n" ++
      "r^X^^^X^________^X^^^X^r\n" ++
      "r-x---x-________-x---x-r\n" ++
      "r^X^^^X^________^X^^^X^r\n" ++
      "r^X^^^X^________^X^^^X^r\n" ++
      "r-x---x-________-x---x-r\n" ++
      "r^X^^^X^________^X^^^X^r\n" ++
      "r^X^^^X^________^X^^^X^r\n" ++
      "r-x---x-________-x---x-r\n" ++
      "r^X^^^X^________^X^^^X^r\n" ++
      "r^X^^^X^________^X^^^X^r\n" ++
      "r-x---x-________-x---x-r\n" ++
      "r^X^^^X^________^X^^^X^r\n" ++
      "r^X^^^X^________^X^^^X^r\n" ++
      "r-x---x-________-x---x-r\n" ++
      "r^X^^^X^________^X^^^X^r"
    ter_keys := ". _ r ^ - X x"
    ter_ids :=
      [ter_name.t_dirt, ter_name.t_concrete, ter_name.t_railing,
       ter_name.t_railroad_rubble, ter_name.t_railroad_tie, ter_name.t_railroad_track,
       ter_name.t_railroad_track_on_tie]
    furn_keys := ". _ r ^ - X x"
    furn_ids :=
      [furn_id.f_null, furn_id.f_null, furn_id.f_null, furn_id.f_null, furn_id.f_null,
       furn_id.f_null, furn_id.f_null] }

/-- The second `switch( num_dirs )` of `mapgen_subway` (lines 973-1187): the
template stamped for the shape; none for a count outside 1..4. -/
def mapgen_subway_template (num_dirs : Int) (diag : Bool) : Option template :=
  if num_dirs = 4 then some subway_four_way
  else if num_dirs = 3 then some subway_tee
  else if num_dirs = 2 then (if diag then some subway_diagonal else some subway_straight)
  else if num_dirs = 1 then some subway_dead_end
  else none

/-- The second `switch( num_dirs )` of `mapgen_railroad` (lines 1372-1572). -/
def mapgen_railroad_template (num_dirs : Int) (diag : Bool) : Option template :=
  if num_dirs = 4 then some railroad_four_way
  else if num_dirs = 3 then some railroad_tee
  else if num_dirs = 2 then (if diag then some railroad_diagonal else some railroad_straight)
  else if num_dirs = 1 then some railroad_dead_end
  else none

/-- Every template that `mapgen_subway`, `mapgen_railroad` and
`mapgen_railroad_bridge` hand to `mapf::formatted_set_simple`. -/
def all_templates : List template :=
  [subway_four_way, subway_tee, subway_diagonal, subway_straight, subway_dead_end,
    railroad_four_way, railroad_tee, railroad_diagonal, railroad_straight, railroad_dead_end,
    railroad_bridge]

/-- The rows of a text: the runs of characters between newlines. -/
def text_rows : List Char → List (List Char)
  | [] => [[]]
  | c :: cs =>
    if c = Char.ofNat 10 then [] :: text_rows cs
    else match text_rows cs with
      | [] => [[c]]
      | r :: rs => (c :: r) :: rs

/-- The terrains of the track corridor: track, tie, rubble and buffer stop. -/
def is_corridor (t : ter_name) : Bool :=
  t == ter_name.t_railroad_rubble || t == ter_name.t_railroad_track_d ||
  t == ter_name.t_railroad_track || t == ter_name.t_railroad_tie ||
  t == ter_name.t_railroad_track_on_tie || t == ter_name.t_railroad_tie_d ||
  t == ter_name.t_buffer_stop

/-- The cells that a stamped template sets to a terrain satisfying `f`. -/
def cells_with (f : ter_name → Bool) (stamped : Option (List (point × ter_name × furn_id))) :
    List point :=
  match stamped with
  | none => []
  | some l => (l.filter fun e => f e.2.1).map fun e => e.1

/-- What `mapgen_subway` does up to the template: the layout (lines 841-971) and
the cells stamped by `mapf::formatted_set_simple( m, point_zero, ... )`, before
the final `m->rotate( rot )`. -/
def mapgen_subway_stamp (has_connection : Nat → Bool) (subway_connection : Nat → Bool) :
    Option (tile_layout × template × List (point × ter_name × furn_id)) :=
  (mapgen_subway_layout has_connection subway_connection).bind fun l =>
    (mapgen_subway_template l.num_dirs l.diag).bind fun t =>
      (formatted_set_simple ⟨0, 0⟩ t).map fun cells => (l, t, cells)

/-! ## `mapgen_sewer` (lines 1193-1233) -/

/-- The flag `fill` of `mapgen_sewer` for the cell `(i, j)` (lines 1202-1226). -/
def sewer_fill (sewer_nesw : List Bool) (i j : Int) : Bool :=
  if j ≥ SEEY - 2 ∧ j ≤ SEEY + 1 then
    if i ≤ SEEX - 2 then (if at_ sewer_nesw 3 then false else true)
    else if i ≥ SEEX + 1 then (if at_ sewer_nesw 1 then false else true)
    else false
  else if i ≥ SEEX - 2 ∧ i ≤ SEEX + 1 then
    if j ≤ SEEY - 2 then (if at_ sewer_nesw 0 then false else true)
    else (if at_ sewer_nesw 2 then false else true)
  else true

/-- The terrain that `mapgen_sewer` sets at `p` (line 1228); `none` outside the
two loops, where nothing is set. -/
def mapgen_sewer (has_connection : Nat → Bool) (p : point) : Option ter_name :=
  let sewer_nesw := (terrain_type_to_nesw_array has_connection [false, false, false, false]).2
  if 0 ≤ p.x ∧ p.x < SEEX * 2 ∧ 0 ≤ p.y ∧ p.y < SEEY * 2 then
    some (if sewer_fill sewer_nesw p.x p.y then ter_name.t_rock else ter_name.t_sewage)
  else none

/-- The connections of a tile turned one quarter-turn clockwise: what pointed
North points East, East South, South West and West North. -/
def turn_connections (has_connection : Nat → Bool) (dir : Nat) : Bool :=
  has_connection ((dir + 3) % 4)

/-! ## `cata_algo.h` -/

/-- What `std::sort` promises for a comparator `lt` that is a strict weak order
(here only irreflexivity and transitivity of `lt` and of "neither is less"
are asked): the result is a rearrangement of the input in which no later
element is less than an earlier one.  `std::sort` itself belongs to the
standard library; the model takes any function with this contract. -/
def is_std_sort {β : Type} (sort : (β → β → Bool) → List β → List β) : Prop :=
  ∀ (lt : β → β → Bool) (l : List β),
    (∀ a, lt a a = false) →
    (∀ a b c, lt a b = true → lt b c = true → lt a c = true) →
    (∀ a b c, lt a b = false → lt b a = false → lt b c = false → lt c b = false →
      lt a c = false ∧ lt c a = false) →
    (sort lt l).Perm l ∧ (sort lt l).Pairwise fun a b => lt b a = false

/-- One function with the contract of `std::sort`: insertion sort, which puts `a`
before `b` unless `b` is less than `a`. -/
def insertion_sort {β : Type} (lt : β → β → Bool) (l : List β) : List β :=
  l.insertionSort fun a b => lt b a = false

/-- The first `std::transform` of `sort_by_rating` (lines 30-33): the entries are
rated from the front, each call of `rating_func` passing on the state `S` of
whatever the functor records (a call log, a counter). -/
def rate_entries {α R S : Type} (rating_func : α → S → R × S) :
    List α → S → List (α × R) × S
  | [], s => ([], s)
  | elem :: rest, s =>
    let r := rating_func elem s
    let tl := rate_entries rating_func rest r.2
    ((elem, r.1) :: tl.1, tl.2)

/-- The function `sort_by_rating` (lines 24-45) on the sequence `begin .. end`
given as a list: rate, sort the pairs by `lhs.second < rhs.second`, write the
first components back.  Returns the sequence and the final state of the rating
functor. -/
def sort_by_rating {α R S : Type} [LT R] [DecidableRel (fun (a b : R) => a < b)]
    (sort : (α × R → α × R → Bool) → List (α × R) → List (α × R))
    (rating_func : α → S → R × S) (elems : List α) (s : S) : List α × S :=
  let rated_entries := rate_entries rating_func elems s
  let sorted := sort (fun lhs rhs => decide (lhs.2 < rhs.2)) rated_entries.1
  (sorted.map fun elem => elem.1, rated_entries.2)

/-- What `find_cycles_impl` works on: the set `visited`, the map
`on_current_branch` (key, value) and the vector `result`. -/
structure cycle_state (T : Type) where
  visited : List T
  on_current_branch : List (T × T)
  result : List (List T)
deriving DecidableEq, Repr

/-- The loop `while( true )` of `find_cycles_impl` (lines 76-82), which walks
back along the branch from `v` to `next_v`.  `none` when the fuel runs out, and
where `on_current_branch[on_path]` would have to insert a missing key. -/
def loop_back {T : Type} [DecidableEq T] (branch : List (T × T)) (next_v : T) :
    Nat → T → List T → Option (List T)
  | 0, _, _ => none
  | fuel + 1, on_path, loop =>
    if on_path = next_v then some (loop ++ [on_path])
    else
      match branch.lookup on_path with
      | some prev => loop_back branch next_v fuel prev (loop ++ [on_path])
      | none => none

/-- The function `find_cycles_impl` (lines 49-91).  The map `edges` is a list of
(vertex, successors) pairs; `none` only when the fuel runs out. -/
def find_cycles_impl {T : Type} [DecidableEq T] (edges : List (T × List T)) :
    Nat → T → cycle_state T → Option (cycle_state T)
  | 0, _, _ => none
  | fuel + 1, v, st =>
    if v ∈ st.visited then some st
    else
      let st0 : cycle_state T := { st with visited := v :: st.visited }
      match edges.lookup v with
      | none => some st0
      | some next =>
        next.foldlM
          (fun (st1 : cycle_state T) (next_v : T) =>
            if next_v = v then some { st1 with result := st1.result ++ [[v]] }
            else
              match st1.on_current_branch.lookup next_v with
              | some _ =>
                (loop_back st1.on_current_branch next_v (st1.on_current_branch.length + 1)
                  v []).map fun loop => { st1 with result := st1.result ++ [loop.reverse] }
              | none =>
                (find_cycles_impl edges fuel next_v
                  { st1 with on_current_branch := (next_v, v) :: st1.on_current_branch }).map
                  fun st2 => { st2 with on_current_branch :=
                    st2.on_current_branch.filter fun e => decide (e.1 ≠ next_v) })
          st0

/-- Number of vertices named in `edges`, as keys or as successors, plus one:
enough fuel for any branch. -/
def cycle_fuel {T : Type} (edges : List (T × List T)) : Nat :=
  edges.length + (edges.map fun p => p.2.length).sum + 1

/-- The function `find_cycles` (lines 106-121); the keys of the map are visited
in the order of the list `edges`. -/
def find_cycles {T : Type} [DecidableEq T] (edges : List (T × List T)) :
    Option (List (List T)) :=
  (edges.foldlM
    (fun (st : cycle_state T) (p : T × List T) =>
      (find_cycles_impl edges (cycle_fuel edges) p.1
        { st with on_current_branch := (p.1, p.1) :: st.on_current_branch }).map
        fun st1 => { st1 with on_current_branch :=
          st1.on_current_branch.filter fun e => decide (e.1 ≠ p.1) })
    ⟨[], [], []⟩).map fun st => st.result

/-- The list `c` is a cycle of the graph: every vertex has an edge to the next
one and the last has an edge to the first. -/
def is_cycle {T : Type} [DecidableEq T] (edges : List (T × List T)) (c : List T) : Bool :=
  !c.isEmpty && (List.range c.length).all fun i =>
    match c.get? i, c.get? ((i + 1) % c.length) with
    | some a, some b => ((edges.lookup a).getD []).contains b
    | _, _ => false

/-- Some rotation of the cycle `c` is in `found`. -/
def has_rotation {T : Type} [DecidableEq T] (found : List (List T)) (c : List T) : Bool :=
  (List.range c.length).any fun k => found.contains (c.rotate k)

/-- The statement `result[key].emplace_back( elem )` on a map kept as a list of
(key, group) pairs with distinct keys: `operator[]` finds the group of `key` or
adds an empty one.  The order in which a `std::map` keeps its pairs is not
modelled. -/
def map_emplace_back {K α : Type} [DecidableEq K] :
    List (K × List α) → K → α → List (K × List α)
  | [], key, elem => [(key, [elem])]
  | (k, group) :: rest, key, elem =>
    if k = key then (k, group ++ [elem]) :: rest
    else (k, group) :: map_emplace_back rest key elem

/-- The function `group_by` (lines 138-148). -/
def group_by {K α : Type} [DecidableEq K] (c : List α) (selector : α → K) :
    List (K × List α) :=
  c.foldl (fun result elem => map_emplace_back result (selector elem) elem) []

/-- The state of the loop of `group_by` after the elements `done`: every key
looks up the elements of `done` with that key, in order, or nothing if there
are none; the keys are distinct; the group sizes add up. -/
def group_inv {K α : Type} [DecidableEq K] (selector : α → K) (done : List α)
    (r : List (K × List α)) : Prop :=
  (∀ k, r.lookup k = if (done.filter fun e => decide (selector e = k)).isEmpty then none
      else some (done.filter fun e => decide (selector e = k))) ∧
  (r.map Prod.fst).Nodup ∧
  (r.map fun p => p.2.length).sum = done.length

/-- The three-cycle `0 -> 1 -> 2 -> 0` with the chord `0 -> 2`, the key 0 coming
first. -/
def chord_graph : List (Nat × List Nat) := [(0, [1, 2]), (1, [2]), (2, [0])]

/-- The complete directed graph on three vertices. -/
def complete_graph (order : List Nat) : List (Nat × List Nat) :=
  order.map fun v => (v, [0, 1, 2].filter fun u => u != v)

/-! ## Corner pieces of `mapgen_road` (lines 726-735) -/

/-- The cells that the loops `for( int x = 1; x < 4; x++ ) for( int y = 0; y < x;
y++ )` of the normal road drawing set to `t_pavement` for the arm `dir` whose
curve indicator `curvedir_nesw[dir]` is `curvedir`, in the order written:
`ty = y`, `tx = ( curvedir == -1 ? x : SEEX * 2 - 1 - x )`, then
`coord_rotate_cw( tx, ty, dir )`. -/
def road_corner_cells (curvedir : Int) (dir : Nat) : List point :=
  (List.range' 1 3).flatMap fun (x : Nat) =>
    (List.range x).map fun (y : Nat) =>
      coord_rotate_cw
        ⟨if curvedir = -1 then (x : Int) else SEEX * 2 - 1 - (x : Int), (y : Int)⟩ dir

/-- Lines 718-735 for one direction `dir`: the corner cells set to pavement,
none when the tile has no arm in that direction or the indicator is 0. -/
def road_corner_fill (roads_nesw : List Bool) (curvedir_nesw : List Int) (dir : Nat) :
    List point :=
  if at_ roads_nesw dir then
    if curvedir_nesw.getD dir 0 ≠ 0 then road_corner_cells (curvedir_nesw.getD dir 0) dir
    else []
  else []

/-- The triangle of the corner piece in the frame of the North arm, as the
specification words it: the cells `(tx, y)` for `1 ≤ x ≤ 3`, `0 ≤ y < x`, with
`tx = x` for the indicator -1 and `tx = 23 - x` otherwise. -/
def corner_triangle (curvedir : Int) : List point :=
  if curvedir = -1 then [⟨1, 0⟩, ⟨2, 0⟩, ⟨2, 1⟩, ⟨3, 0⟩, ⟨3, 1⟩, ⟨3, 2⟩]
  else [⟨22, 0⟩, ⟨21, 0⟩, ⟨21, 1⟩, ⟨20, 0⟩, ⟨20, 1⟩, ⟨20, 2⟩]

/-- The step `(x, y) -> (23 - y, x)` that the specification gives for one turn
of `coord_rotate_cw`. -/
def quarter_turn (p : point) : point := ⟨23 - p.y, p.x⟩

/-- The x and y of a `tripoint`. -/
def tripoint.xy (p : tripoint) : point := ⟨p.x, p.y⟩

/-! ## `mapgen_rift` (lines 1917-1966) and `mapgen_hellmouth` (lines 1968-2072) -/

/-- The terrain ids (`ter_id` constants of `mapdata.h`) that `mapgen_rift` and
`mapgen_hellmouth` name. -/
inductive lava_ter where
  | t_rock_floor
  | t_rock
  | t_lava
  | t_slope_down
deriving DecidableEq, Repr

/-- What `mapgen_rift` and `mapgen_hellmouth` read of one cardinal neighbour. -/
structure rift_side where
  /-- The neighbour is `"rift"` or `"hellmouth"`. -/
  is_rift : Bool
  /-- The value of `connects_to( neighbour, side )` (declared in `mapgen_functions.h`). -/
  connects : Bool
deriving DecidableEq, Repr

/-- One of the four blocks at the head of `mapgen_rift` (lines 1921-1948):
a side that is neither rift nor hellmouth gets `rng( -6, -2 )` when it connects
and `rng( 2, 6 )` when it does not; `rng a b` is the value that call draws. -/
def rift_fac (side : rift_side) (rng : Int → Int → Int) (fac : Int) : Int :=
  if !side.is_rift then
    if side.connects then rng (-6) (-2) else rng 2 6
  else fac

/-- The four factors after the head of `mapgen_rift`; `nesw k` is the neighbour
on side `k` (0 north, 1 east, 2 south, 3 west) and `rng k` the draw made for
it. -/
def rift_factors (nesw : Nat → rift_side) (rng : Nat → Int → Int → Int)
    (dat : adjacency_factors) : adjacency_factors :=
  { n_fac := rift_fac (nesw 0) (rng 0) dat.n_fac
    e_fac := rift_fac (nesw 1) (rng 1) dat.e_fac
    s_fac := rift_fac (nesw 2) (rng 2) dat.s_fac
    w_fac := rift_fac (nesw 3) (rng 3) dat.w_fac }

/-- The body of the two loops of `mapgen_rift` (lines 1952-1964): the terrain
set at `(i, j)`. -/
def rift_cell (dat : adjacency_factors) (i j : Int) : lava_ter :=
  if (dat.n_fac < 0 ∧ j < dat.n_fac * -1) ∨ (dat.s_fac < 0 ∧ j ≥ SEEY * 2 - dat.s_fac) ∨
      (dat.w_fac < 0 ∧ i < dat.w_fac * -1) ∨ (dat.e_fac < 0 ∧ i ≥ SEEX * 2 - dat.e_fac) then
    lava_ter.t_rock_floor
  else if j < dat.n_fac ∨ j ≥ SEEY * 2 - dat.s_fac ∨ i < dat.w_fac ∨
      i ≥ SEEX * 2 - dat.e_fac then
    lava_ter.t_rock
  else lava_ter.t_lava

/-- The function `mapgen_rift`: the terrain of cell `p` afterwards, `none`
outside the two loops, where nothing is set. -/
def mapgen_rift (nesw : Nat → rift_side) (rng : Nat → Int → Int → Int)
    (dat : adjacency_factors) (p : point) : Option lava_ter :=
  if 0 ≤ p.x ∧ p.x < SEEX * 2 ∧ 0 ≤ p.y ∧ p.y < SEEY * 2 then
    some (rift_cell (rift_factors nesw rng dat) p.x p.y)
  else none

/-- Neighbours of a rift tile that lies between rifts on three sides and has
another terrain on side `s`, which connects or not as `connects` says. -/
def one_open_side (s : Nat) (connects : Bool) (k : Nat) : rift_side :=
  if k = s then ⟨false, connects⟩ else ⟨true, false⟩

/-- A sequence of calls `m->ter_set( p, t )`, applied to the terrain layer `m`
from the first to the last. -/
def write_all (ws : List (point × lava_ter)) (m : point → Option lava_ter) :
    point → Option lava_ter :=
  ws.foldl (fun m w q => if q = w.1 then some w.2 else m q) m

/-- The first loop of `mapgen_hellmouth` (lines 1973-1977): `dat.dir( i ) = 6`
for every side that is neither rift nor hellmouth (`dir( 0..3 )` are `n_fac`,
`e_fac`, `s_fac`, `w_fac`, as declared in `mapgendata.h`). -/
def hellmouth_factors (nesw : Nat → rift_side) (dat : adjacency_factors) : adjacency_factors :=
  { n_fac := if !(nesw 0).is_rift then 6 else dat.n_fac
    e_fac := if !(nesw 1).is_rift then 6 else dat.e_fac
    s_fac := if !(nesw 2).is_rift then 6 else dat.s_fac
    w_fac := if !(nesw 3).is_rift then 6 else dat.w_fac }

/-- The body of the two loops of `mapgen_hellmouth` (lines 1979-1991): rock
floor or lava first, then the slope over it on the four central cells. -/
def hellmouth_cell (dat : adjacency_factors) (i j : Int) : lava_ter :=
  let t :=
    if j < dat.n_fac ∨ j ≥ SEEY * 2 - dat.s_fac ∨ i < dat.w_fac ∨ i ≥ SEEX * 2 - dat.e_fac ∨
        (i ≥ 6 ∧ i < SEEX * 2 - 6 ∧ j ≥ 6 ∧ j < SEEY * 2 - 6) then
      lava_ter.t_rock_floor
    else lava_ter.t_lava
  if i ≥ SEEX - 1 ∧ i ≤ SEEX ∧ j ≥ SEEY - 1 ∧ j ≤ SEEY then lava_ter.t_slope_down else t

/-- The terrain layer after the two loops of `mapgen_hellmouth`. -/
def hellmouth_ground (dat : adjacency_factors) (p : point) : Option lava_ter :=
  if 0 ≤ p.x ∧ p.x < SEEX * 2 ∧ 0 ≤ p.y ∧ p.y < SEEY * 2 then
    some (hellmouth_cell dat p.x p.y)
  else none

/-- Altar design of `case 0` (lines 1993-2010): `for( int i = 7; i <= 16; i += 3 )`. -/
def altar_0 : List (point × lava_ter) :=
  (List.range' 7 4 3).flatMap fun (n : Nat) =>
    let i : Int := n
    [(⟨i, 6⟩, lava_ter.t_rock), (⟨i, 17⟩, lava_ter.t_rock), (⟨6, i⟩, lava_ter.t_rock),
      (⟨17, i⟩, lava_ter.t_rock)] ++
    (if i > 7 ∧ i < 16 then
      [(⟨i, 10⟩, lava_ter.t_rock), (⟨i, 13⟩, lava_ter.t_rock)]
    else
      [(⟨i - 1, 6⟩, lava_ter.t_rock), (⟨i - 1, 10⟩, lava_ter.t_rock),
        (⟨i - 1, 13⟩, lava_ter.t_rock), (⟨i - 1, 17⟩, lava_ter.t_rock)])

/-- Altar design of `case 1` (lines 2011-2036): `for( int i = 6; i < 11; i++ )`. -/
def altar_1 : List (point × lava_ter) :=
  (List.range' 6 5).flatMap fun (n : Nat) =>
    let i : Int := n
    [(⟨i, i⟩, lava_ter.t_lava), (⟨SEEX * 2 - 1 - i, i⟩, lava_ter.t_lava),
      (⟨i, SEEY * 2 - 1 - i⟩, lava_ter.t_lava),
      (⟨SEEX * 2 - 1 - i, SEEY * 2 - 1 - i⟩, lava_ter.t_lava)] ++
    (if i < 10 then
      [(⟨i + 1, i⟩, lava_ter.t_lava), (⟨SEEX * 2 - i, i⟩, lava_ter.t_lava),
        (⟨i + 1, SEEY * 2 - 1 - i⟩, lava_ter.t_lava),
        (⟨SEEX * 2 - i, SEEY * 2 - 1 - i⟩, lava_ter.t_lava),
        (⟨i, i + 1⟩, lava_ter.t_lava), (⟨SEEX * 2 - 1 - i, i + 1⟩, lava_ter.t_lava),
        (⟨i, SEEY * 2 - i⟩, lava_ter.t_lava), (⟨SEEX * 2 - 1 - i, SEEY * 2 - i⟩, lava_ter.t_lava)]
    else []) ++
    (if i < 9 then
      [(⟨i + 2, i⟩, lava_ter.t_rock), (⟨SEEX * 2 - i + 1, i⟩, lava_ter.t_rock),
        (⟨i + 2, SEEY * 2 - 1 - i⟩, lava_ter.t_rock),
        (⟨SEEX * 2 - i + 1, SEEY * 2 - 1 - i⟩, lava_ter.t_rock),
        (⟨i, i + 2⟩, lava_ter.t_rock), (⟨SEEX * 2 - 1 - i, i + 2⟩, lava_ter.t_rock),
        (⟨i, SEEY * 2 - i + 1⟩, lava_ter.t_rock),
        (⟨SEEX * 2 - 1 - i, SEEY * 2 - i + 1⟩, lava_ter.t_rock)]
    else [])

/-- Altar design of `case 2` (lines 2037-2058): `for( int i = 7; i < 17; i++ )`. -/
def altar_2 : List (point × lava_ter) :=
  (List.range' 7 10).flatMap fun (n : Nat) =>
    let i : Int := n
    [(⟨i, 6⟩, lava_ter.t_rock), (⟨6, i⟩, lava_ter.t_rock), (⟨i, 17⟩, lava_ter.t_rock),
      (⟨17, i⟩, lava_ter.t_rock)] ++
    (if i ≠ 7 ∧ i ≠ 16 ∧ i ≠ 11 ∧ i ≠ 12 then
      [(⟨i, 8⟩, lava_ter.t_rock), (⟨8, i⟩, lava_ter.t_rock), (⟨i, 15⟩, lava_ter.t_rock),
        (⟨15, i⟩, lava_ter.t_rock)]
    else []) ++
    (if i = 11 ∨ i = 12 then
      [(⟨i, 10⟩, lava_ter.t_rock), (⟨10, i⟩, lava_ter.t_rock), (⟨i, 13⟩, lava_ter.t_rock),
        (⟨13, i⟩, lava_ter.t_rock)]
    else [])

/-- Altar design of `case 3` (lines 2059-2068): two loops over 6..10. -/
def altar_3 : List (point × lava_ter) :=
  (List.range' 6 5).flatMap fun (n : Nat) =>
    (List.range' 6 5).flatMap fun (k : Nat) =>
      let i : Int := n
      let j : Int := k
      [(⟨i, j⟩, lava_ter.t_lava), (⟨SEEX * 2 - 1 - i, j⟩, lava_ter.t_lava),
        (⟨i, SEEY * 2 - 1 - j⟩, lava_ter.t_lava),
        (⟨SEEX * 2 - 1 - i, SEEY * 2 - 1 - j⟩, lava_ter.t_lava)]

/-- The `switch( rng( 0, 4 ) )` of `mapgen_hellmouth`: the calls of `ter_set` made
for the value `design` drawn; there is no case for 4 and no `default`. -/
def altar_writes (design : Int) : List (point × lava_ter) :=
  if design = 0 then altar_0
  else if design = 1 then altar_1
  else if design = 2 then altar_2
  else if design = 3 then altar_3
  else []

/-- The function `mapgen_hellmouth`: the terrain layer afterwards, for the
neighbours `nesw`, the factors `dat` on entry and the altar design drawn. -/
def mapgen_hellmouth (nesw : Nat → rift_side) (dat : adjacency_factors) (design : Int) :
    point → Option lava_ter :=
  write_all (altar_writes design) (hellmouth_ground (hellmouth_factors nesw dat))

/-- The four central cells of the tile. -/
def centre_cells : List point := [⟨11, 11⟩, ⟨12, 11⟩, ⟨11, 12⟩, ⟨12, 12⟩]

/-! ## Slot order of `mapgen_lake_shore` -/

/-- Neighbours of a tile (order N E S W NE SE SW NW) with a neighbour of class
`kind` on side `s` (0 north, 1 east, 2 south, 3 west), lakes at the two corners
next to that side and solid ground elsewhere. -/
def bank_on_side (kind : n_type) (s : Nat) : List n_type :=
  (List.range 8).map fun i =>
    if i = s then kind
    else if i = 4 + s % 4 ∨ i = 4 + (s + 3) % 4 then n_type.lake
    else n_type.solid

/-! ## `damage.cpp`: `damage_instance` (lines 59-152) -/

/-- The arithmetic on the `float` fields of a `damage_unit`, of which nothing is
assumed: `add` and `mul` are whatever `+=` and `*=` compute, and `le_zero m` is
the test `m <= 0.0`. -/
structure float_ops (F : Type) where
  add : F → F → F
  mul : F → F → F
  le_zero : F → Bool

/-- Modelled from the spec: `damage_unit` is declared in `damage.h`, which is not
among the sources; its five fields are those compared by `operator==` (lines
20-27), and its constructor `damage_unit( dt, amt, arpen, arpen_mult, dmg_mult )`
stores the arguments as `type`, `amount`, `res_pen`, `res_mult` and
`damage_multiplier`.  A `damage_type` is kept as its integer value. -/
structure damage_unit (F : Type) where
  type : Int
  amount : F
  res_pen : F
  res_mult : F
  damage_multiplier : F
deriving DecidableEq, Repr

/-- The class `damage_instance`: the vector `damage_units`. -/
structure damage_instance (F : Type) where
  damage_units : List (damage_unit F)
deriving DecidableEq, Repr

/-- The `else` branch of `damage_instance::add( const damage_unit & )` (lines
142-150): what the unit `du` already present becomes. -/
def combine_units {F : Type} (ops : float_ops F) (du new_du : damage_unit F) : damage_unit F :=
  { du with
    amount := ops.add du.amount new_du.amount
    res_pen := ops.add du.res_pen new_du.res_pen
    damage_multiplier := ops.mul du.damage_multiplier new_du.damage_multiplier
    res_mult := ops.mul du.res_mult new_du.res_mult }

/-- The search and update of `damage_instance::add( const damage_unit & )` on
the vector: `std::ranges::find_if` stops at the first unit of the type of
`new_du`, which is combined in place; without one, `emplace_back`. -/
def add_unit {F : Type} (ops : float_ops F) :
    List (damage_unit F) → damage_unit F → List (damage_unit F)
  | [], new_du => [new_du]
  | du :: rest, new_du =>
    if du.type = new_du.type then combine_units ops du new_du :: rest
    else du :: add_unit ops rest new_du

/-- The function `damage_instance::add( const damage_unit & )` (lines 134-152). -/
def damage_instance.add {F : Type} (ops : float_ops F) (d : damage_instance F)
    (new_du : damage_unit F) : damage_instance F :=
  ⟨add_unit ops d.damage_units new_du⟩

/-- The function `damage_instance::add( const damage_instance & )` (lines
127-132). -/
def damage_instance.add_instance {F : Type} (ops : float_ops F) (d : damage_instance F)
    (added_di : damage_instance F) : damage_instance F :=
  added_di.damage_units.foldl (fun d added_du => d.add ops added_du) d

/-- The function `damage_instance::add_damage` (lines 75-80). -/
def damage_instance.add_damage {F : Type} (ops : float_ops F) (d : damage_instance F)
    (dt : Int) (amt arpen arpen_mult dmg_mult : F) : damage_instance F :=
  d.add ops ⟨dt, amt, arpen, arpen_mult, dmg_mult⟩

/-- The function `damage_instance::clear` (lines 117-120). -/
def damage_instance.clear {F : Type} (_d : damage_instance F) : damage_instance F := ⟨[]⟩

/-- The function `damage_instance::mult_damage` (lines 82-97). -/
def damage_instance.mult_damage {F : Type} (ops : float_ops F) (d : damage_instance F)
    (multiplier : F) (pre_armor : Bool) : damage_instance F :=
  let d := if ops.le_zero multiplier then d.clear else d
  if pre_armor then
    ⟨d.damage_units.map fun elem => { elem with amount := ops.mul elem.amount multiplier }⟩
  else
    ⟨d.damage_units.map fun elem =>
      { elem with damage_multiplier := ops.mul elem.damage_multiplier multiplier }⟩

/-- One call of a member function that changes a `damage_instance`. -/
inductive damage_call (F : Type) where
  | add (new_du : damage_unit F)
  | add_instance (added_di : damage_instance F)
  | add_damage (dt : Int) (amt arpen arpen_mult dmg_mult : F)
  | mult_damage (multiplier : F) (pre_armor : Bool)
  | clear

/-- The instance after one call. -/
def apply_call {F : Type} (ops : float_ops F) (d : damage_instance F) :
    damage_call F → damage_instance F
  | damage_call.add new_du => d.add ops new_du
  | damage_call.add_instance added_di => d.add_instance ops added_di
  | damage_call.add_damage dt amt arpen arpen_mult dmg_mult =>
    d.add_damage ops dt amt arpen arpen_mult dmg_mult
  | damage_call.mult_damage multiplier pre_armor => d.mult_damage ops multiplier pre_armor
  | damage_call.clear => d.clear

/-- The instance that a sequence of calls leaves behind, starting from the
default-constructed (empty) `damage_instance`. -/
def run_calls {F : Type} (ops : float_ops F) (calls : List (damage_call F)) :
    damage_instance F :=
  calls.foldl (apply_call ops) ⟨[]⟩

/-- The types of the units of an instance, in order. -/
def unit_types {F : Type} (d : damage_instance F) : List Int :=
  d.damage_units.map fun du => du.type

/-- Integer arithmetic standing in for the `float` operations. -/
def int_ops : float_ops Int := ⟨fun a b => a + b, fun a b => a * b, fun m => decide (m ≤ 0)⟩

/-! ## `damage.cpp`: `dealt_damage_instance` (lines 224-249) -/

/-- Modelled from the spec: the enumeration `damage_type` is declared in
`damage.h`, which is not among the sources; the `switch` of
`damage_unit::get_name` (lines 31-57) lists its eleven values `DT_NULL` ..
`DT_BULLET` before `NUM_DT`. -/
def NUM_DT : Int := 11

/-- The class `dealt_damage_instance`: the `std::array<int, NUM_DT>` named
`dealt_dams`, with its fixed size.  The field `bp_hit` is not touched by the
functions modelled here. -/
structure dealt_damage_instance where
  dealt_dams : List Int
  size_eq : dealt_dams.length = 11

/-- The constructor `dealt_damage_instance()` (lines 224-227): `fill( 0 )`. -/
def dealt_damage_instance.fresh : dealt_damage_instance := ⟨List.replicate 11 0, rfl⟩

/-- The function `dealt_damage_instance::set_damage` (lines 229-237); the
`debugmsg` only logs. -/
def dealt_damage_instance.set_damage (d : dealt_damage_instance) (dt : Int) (amount : Int) :
    dealt_damage_instance :=
  if dt < 0 ∨ dt ≥ NUM_DT then d
  else ⟨d.dealt_dams.set dt.toNat amount, by rw [List.length_set]; exact d.size_eq⟩

/-- The conversion `static_cast<size_t>( dt )` of a (32-bit) `damage_type` on a
64-bit target. -/
def to_size_t (dt : Int) : Nat := (dt % 2 ^ 64).toNat

/-- The function `dealt_damage_instance::type_damage` (lines 238-245). -/
def dealt_damage_instance.type_damage (d : dealt_damage_instance) (dt : Int) : Int :=
  if to_size_t dt < d.dealt_dams.length then d.dealt_dams.getD (to_size_t dt) 0
  else 0

/-- The function `dealt_damage_instance::total_damage` (lines 246-249):
`std::accumulate` from 0.  The sum is taken in the integers; an overflow of
`int` is undefined in the source. -/
def dealt_damage_instance.total_damage (d : dealt_damage_instance) : Int :=
  d.dealt_dams.foldl (fun acc x => acc + x) 0

/-- A `damage_type` is a value of the 32-bit `int` underlying the enumeration. -/
def is_int32 (dt : Int) : Prop := -2 ^ 31 ≤ dt ∧ dt < 2 ^ 31

/-! ## `find_cycles`: what a cycle is, and the assertion -/

/-- The graph has the edge `a -> b`: `b` is listed in `edges[a]`. -/
def has_edge {T : Type} [DecidableEq T] (edges : List (T × List T)) (a b : T) : Bool :=
  decide (b ∈ (edges.lookup a).getD [])

/-- The list `c` is a closed walk of the graph: it is not empty, every vertex
has an edge to the next one and the last has an edge to the first. -/
def closed_walk {T : Type} [DecidableEq T] (edges : List (T × List T)) (c : List T) : Prop :=
  c ≠ [] ∧ c.Chain' (fun a b => has_edge edges a b = true) ∧
    ∀ a ∈ c.getLast?, ∀ b ∈ c.head?, has_edge edges a b = true

/-- The list `c` is a simple cycle: a closed walk without a repeated vertex. -/
def simple_cycle {T : Type} [DecidableEq T] (edges : List (T × List T)) (c : List T) : Prop :=
  closed_walk edges c ∧ c.Nodup

/-- The directed graph has a cycle (a self-loop counts). -/
def has_cycle {T : Type} [DecidableEq T] (edges : List (T × List T)) : Prop :=
  ∃ c, closed_walk edges c

/-- Two neighbouring entries `(child, parent)` of `on_current_branch`, the later
one first: the parent of the first is the key of the second, and the graph has
the edge from that key to the child. -/
def branch_link {T : Type} [DecidableEq T] (edges : List (T × List T)) (e1 e2 : T × T) :
    Prop :=
  e1.2 = e2.1 ∧ has_edge edges e2.1 e1.1 = true

/-- The shape of `on_current_branch` during the search: the entries, latest
first, are linked one to the next, and no key occurs twice. -/
def branch_ok {T : Type} [DecidableEq T] (edges : List (T × List T)) (br : List (T × T)) :
    Prop :=
  br.Chain' (branch_link edges) ∧ (br.map Prod.fst).Nodup

/-- The keys of the branch from the latest one down to `next_v`. -/
def path_to {T : Type} [DecidableEq T] (next_v : T) : List T → List T
  | [] => []
  | c :: cs => if c = next_v then [c] else c :: path_to next_v cs

/-- The set `B` of vertices is settled: every edge from a vertex of `B` ends in
`B`, and no vertex of `B` lies on a cycle. -/
def settled {T : Type} [DecidableEq T] (edges : List (T × List T)) (B : T → Prop) : Prop :=
  (∀ b w, B b → has_edge edges b w = true → B w) ∧
  ∀ b, B b → ¬ Relation.TransGen (fun x y => has_edge edges x y = true) b b

/-- The number of keys of `edges` that are not in `visited`. -/
def unvisited {T : Type} [DecidableEq T] (edges : List (T × List T)) (visited : List T) : Nat :=
  ((edges.map Prod.fst).toFinset \ visited.toFinset).card

/-- What one call `find_cycles_impl( edges, v, ... )` does to the state `st`,
the branch on entry being `(v, parent) :: rest`: the branch is back as it was,
nothing leaves `visited`, `v` is in it, the result holds simple cycles only and
does not shrink, and when it is still empty the visited vertices that are not
proper ancestors of `v` stay settled. -/
def impl_post {T : Type} [DecidableEq T] (edges : List (T × List T)) (v : T)
    (st st1 : cycle_state T) : Prop :=
  st1.on_current_branch = st.on_current_branch ∧
  st.visited ⊆ st1.visited ∧ v ∈ st1.visited ∧
  (∀ c ∈ st1.result, simple_cycle edges c) ∧
  (st1.result = [] → st.result = []) ∧
  (st1.result = [] →
    settled edges (fun x => x ∈ st.visited ∧ x ∉ st.on_current_branch.tail.map Prod.fst) →
    settled edges (fun x => x ∈ st1.visited ∧ x ∉ st.on_current_branch.tail.map Prod.fst))

/-- The state of the loop over the successors of `v` inside
`find_cycles_impl`, entered in the state `st`, when the successors `done` have
been dealt with: the branch is as on entry, `v` and what was visited stay
visited, the result holds simple cycles only, and when it is still empty the
visited vertices off the branch are settled and contain every successor dealt
with. -/
def succ_inv {T : Type} [DecidableEq T] (edges : List (T × List T)) (v : T)
    (st : cycle_state T) (done : List T) (st1 : cycle_state T) : Prop :=
  st1.on_current_branch = st.on_current_branch ∧
  (v :: st.visited) ⊆ st1.visited ∧
  (∀ c ∈ st1.result, simple_cycle edges c) ∧
  (st1.result = [] → st.result = []) ∧
  (st1.result = [] →
    settled edges (fun x => x ∈ st.visited ∧ x ∉ st.on_current_branch.tail.map Prod.fst) →
    settled edges (fun x => x ∈ st1.visited ∧ x ∉ st.on_current_branch.map Prod.fst) ∧
    ∀ w ∈ done, w ∈ st1.visited ∧ w ∉ st.on_current_branch.map Prod.fst)

/-- The state of `find_cycles` between two roots, `done` being the keys
explored so far: the branch is empty, every explored key is visited, the result
holds simple cycles only, and when it is empty the visited vertices are
settled. -/
def roots_inv {T : Type} [DecidableEq T] (edges : List (T × List T))
    (done : List (T × List T)) (st : cycle_state T) : Prop :=
  st.on_current_branch = [] ∧
  (∀ p ∈ done, p.1 ∈ st.visited) ∧
  (∀ c ∈ st.result, simple_cycle edges c) ∧
  (st.result = [] → settled edges (fun x => x ∈ st.visited))

/-- The body of the loop of `find_cycles` (lines 111-117) for the root `root`,
with its `assert( on_current_branch.empty() )`: `none` when the fuel of the
search runs out and when the assertion fails. -/
def find_cycles_root {T : Type} [DecidableEq T] (edges : List (T × List T))
    (st : cycle_state T) (root : T) : Option (cycle_state T) :=
  (find_cycles_impl edges (cycle_fuel edges) root
    { st with on_current_branch := (root, root) :: st.on_current_branch }).bind fun st1 =>
    if (st1.on_current_branch.filter fun e => decide (e.1 ≠ root)).isEmpty then
      some { st1 with on_current_branch :=
        st1.on_current_branch.filter fun e => decide (e.1 ≠ root) }
    else none

/-- The function `find_cycles` (lines 106-121) with the assertion checked after
every root. -/
def find_cycles_asserted {T : Type} [DecidableEq T] (edges : List (T × List T)) :
    Option (List (List T)) :=
  (edges.foldlM (fun (st : cycle_state T) (p : T × List T) => find_cycles_root edges st p.1)
    ⟨[], [], []⟩).map fun st => st.result

/-! # Theorems -/

/-! ## Array rotation -/

theorem while_dist_add {T : Type} (body : List T → Option (List T)) (d1 d2 : Nat)
    (a : List T) :
    while_dist body (d1 + d2) a = (while_dist body d1 a).bind (while_dist body d2) := by
  induction d1 generalizing a with
  | zero => simp [while_dist]
  | succ n ih =>
    rw [Nat.succ_add]
    simp only [while_dist]
    cases h : body a with
    | none => simp
    | some b => simp [ih]

theorem while_rotate4 {T : Type} (dist : Nat) (a0 a1 a2 a3 : T) :
    while_dist nesw_rotate4_body dist [a0, a1, a2, a3]
      = some ([a0, a1, a2, a3].rotate dist) := by
  induction dist generalizing a0 a1 a2 a3 with
  | zero => simp [while_dist]
  | succ n ih =>
    have hstep : nesw_rotate4_body [a0, a1, a2, a3] = some [a1, a2, a3, a0] := rfl
    simp only [while_dist, hstep, Option.some_bind, ih, List.rotate_cons_succ]
    rfl

theorem while_rotate8 {T : Type} (dist : Nat) (r0 r1 r2 r3 r4 r5 r6 r7 : T) :
    while_dist nesw_rotate8_body dist (from_compass [r0, r1, r2, r3, r4, r5, r6, r7])
      = some (from_compass ([r0, r1, r2, r3, r4, r5, r6, r7].rotate dist)) := by
  induction dist generalizing r0 r1 r2 r3 r4 r5 r6 r7 with
  | zero => simp [while_dist]
  | succ n ih =>
    have hstep : nesw_rotate8_body (from_compass [r0, r1, r2, r3, r4, r5, r6, r7])
        = some (from_compass [r1, r2, r3, r4, r5, r6, r7, r0]) := rfl
    simp only [while_dist, hstep, Option.some_bind, ih, List.rotate_cons_succ]
    rfl

theorem rotate4_eq {T : Type} (dist : Nat) (a0 a1 a2 a3 : T) :
    nesw_array_rotate [a0, a1, a2, a3] 4 dist = some ([a0, a1, a2, a3].rotate dist) := by
  simp [nesw_array_rotate, while_rotate4]

theorem rotate8_eq {T : Type} (dist : Nat) (a0 a1 a2 a3 a4 a5 a6 a7 : T) :
    nesw_array_rotate [a0, a1, a2, a3, a4, a5, a6, a7] 8 dist
      = some (from_compass ([a0, a4, a1, a5, a2, a6, a3, a7].rotate dist)) := by
  have h := while_rotate8 dist a0 a4 a1 a5 a2 a6 a3 a7
  simpa [nesw_array_rotate, from_compass] using h

theorem rotate8_elements {T : Type} (dist : Nat) (a0 a1 a2 a3 a4 a5 a6 a7 : T) (j : Fin 8) :
    (from_compass ([a0, a4, a1, a5, a2, a6, a3, a7].rotate dist))[compass_order.getD j.val 0]?
      = [a0, a1, a2, a3, a4, a5, a6, a7][compass_order.getD ((j.val + dist) % 8) 0]? := by
  have e : (j.val + dist) % 8 = (j.val + dist % 8) % 8 := by omega
  have hr : [a0, a4, a1, a5, a2, a6, a3, a7].rotate dist
      = [a0, a4, a1, a5, a2, a6, a3, a7].rotate (dist % 8) :=
    (List.rotate_mod [a0, a4, a1, a5, a2, a6, a3, a7] dist).symm
  rw [e, hr]
  have hm : dist % 8 < 8 := Nat.mod_lt _ (by decide)
  generalize dist % 8 = m at hm
  interval_cases m <;> fin_cases j <;> rfl

theorem rotate8_even {T : Type} (dist : Nat) (a0 a1 a2 a3 a4 a5 a6 a7 : T) (i : Fin 4) :
    (from_compass ([a0, a4, a1, a5, a2, a6, a3, a7].rotate (2 * dist)))[i.val]?
        = [a0, a1, a2, a3, a4, a5, a6, a7][(i.val + dist) % 4]? ∧
    (from_compass ([a0, a4, a1, a5, a2, a6, a3, a7].rotate (2 * dist)))[4 + i.val]?
        = [a0, a1, a2, a3, a4, a5, a6, a7][4 + (i.val + dist) % 4]? := by
  have e : (i.val + dist) % 4 = (i.val + dist % 4) % 4 := by omega
  have e2 : (2 * dist) % 8 = 2 * (dist % 4) := by omega
  have hr : [a0, a4, a1, a5, a2, a6, a3, a7].rotate (2 * dist)
      = [a0, a4, a1, a5, a2, a6, a3, a7].rotate ((2 * dist) % 8) :=
    (List.rotate_mod [a0, a4, a1, a5, a2, a6, a3, a7] (2 * dist)).symm
  rw [e, hr, e2]
  have hm : dist % 4 < 4 := Nat.mod_lt _ (by decide)
  generalize dist % 4 = m at hm
  interval_cases m <;> fin_cases i <;> exact ⟨rfl, rfl⟩

/-- C3: `nesw_array_rotate` is a cyclic left rotation.  For `len = 4` the result
holds `a[(i + dist) mod 4]` at index `i`; for `len = 8` the result read in
compass order (indices 0,4,1,5,2,6,3,7) is the input ring moved left by `dist`
places, so that after an even distance `2 * k` cardinals and diagonals have
both moved by `k` steps inside their own family. -/
theorem nesw_array_rotate_cyclic {T : Type} (dist : Nat) :
    (∀ a0 a1 a2 a3 : T, ∃ r, nesw_array_rotate [a0, a1, a2, a3] 4 dist = some r ∧
        r.length = 4 ∧
        ∀ i : Fin 4, r[i.val]? = [a0, a1, a2, a3][(i.val + dist) % 4]?) ∧
    (∀ a0 a1 a2 a3 a4 a5 a6 a7 : T, ∃ r,
        nesw_array_rotate [a0, a1, a2, a3, a4, a5, a6, a7] 8 dist = some r ∧
        r.length = 8 ∧
        ∀ j : Fin 8, r[compass_order.getD j.val 0]?
          = [a0, a1, a2, a3, a4, a5, a6, a7][compass_order.getD ((j.val + dist) % 8) 0]?) ∧
    (∀ a0 a1 a2 a3 a4 a5 a6 a7 : T, ∃ r,
        nesw_array_rotate [a0, a1, a2, a3, a4, a5, a6, a7] 8 (2 * dist) = some r ∧
        ∀ i : Fin 4,
          r[i.val]? = [a0, a1, a2, a3, a4, a5, a6, a7][(i.val + dist) % 4]? ∧
          r[4 + i.val]? = [a0, a1, a2, a3, a4, a5, a6, a7][4 + (i.val + dist) % 4]?) := by
  refine ⟨?_, ?_, ?_⟩
  · intro a0 a1 a2 a3
    refine ⟨_, rotate4_eq dist a0 a1 a2 a3, by simp, ?_⟩
    intro i
    have hi : i.val < [a0, a1, a2, a3].length := i.isLt
    rw [List.getElem?_rotate hi]
    rfl
  · intro a0 a1 a2 a3 a4 a5 a6 a7
    refine ⟨_, rotate8_eq dist a0 a1 a2 a3 a4 a5 a6 a7, ?_, ?_⟩
    · have hl : ([a0, a4, a1, a5, a2, a6, a3, a7].rotate dist).length = 8 := by simp
      generalize [a0, a4, a1, a5, a2, a6, a3, a7].rotate dist = l at hl
      match l, hl with
      | [_, _, _, _, _, _, _, _], _ => rfl
    · exact rotate8_elements dist a0 a1 a2 a3 a4 a5 a6 a7
  · intro a0 a1 a2 a3 a4 a5 a6 a7
    exact ⟨_, rotate8_eq (2 * dist) a0 a1 a2 a3 a4 a5 a6 a7,
      rotate8_even dist a0 a1 a2 a3 a4 a5 a6 a7⟩

theorem rotate4_once {T : Type} (a0 a1 a2 a3 : T) :
    nesw_array_rotate [a0, a1, a2, a3] 4 1 = some [a1, a2, a3, a0] := by
  rw [rotate4_eq]; rfl

theorem rotate8_once {T : Type} (a0 a1 a2 a3 a4 a5 a6 a7 : T) :
    nesw_array_rotate [a0, a1, a2, a3, a4, a5, a6, a7] 8 1
      = some [a4, a5, a6, a7, a1, a2, a3, a0] := by
  rw [rotate8_eq]; rfl

/-- C4: rotating a 4-element (8-element) array by 4 (by 8), or 4 (8) times by
one, gives the array back, and rotating by `d1` and then by `d2` is rotating
once by `d1 + d2`. -/
theorem nesw_array_rotate_period {T : Type} :
    (∀ a0 a1 a2 a3 : T,
        nesw_array_rotate [a0, a1, a2, a3] 4 4 = some [a0, a1, a2, a3] ∧
        ((((nesw_array_rotate [a0, a1, a2, a3] 4 1).bind
            (fun r => nesw_array_rotate r 4 1)).bind
            (fun r => nesw_array_rotate r 4 1)).bind
            (fun r => nesw_array_rotate r 4 1)) = some [a0, a1, a2, a3]) ∧
    (∀ a0 a1 a2 a3 a4 a5 a6 a7 : T,
        nesw_array_rotate [a0, a1, a2, a3, a4, a5, a6, a7] 8 8
          = some [a0, a1, a2, a3, a4, a5, a6, a7] ∧
        ((((((((nesw_array_rotate [a0, a1, a2, a3, a4, a5, a6, a7] 8 1).bind
            (fun r => nesw_array_rotate r 8 1)).bind
            (fun r => nesw_array_rotate r 8 1)).bind
            (fun r => nesw_array_rotate r 8 1)).bind
            (fun r => nesw_array_rotate r 8 1)).bind
            (fun r => nesw_array_rotate r 8 1)).bind
            (fun r => nesw_array_rotate r 8 1)).bind
            (fun r => nesw_array_rotate r 8 1))
          = some [a0, a1, a2, a3, a4, a5, a6, a7]) ∧
    (∀ (d1 d2 : Nat) (a0 a1 a2 a3 : T),
        (nesw_array_rotate [a0, a1, a2, a3] 4 d1).bind (fun r => nesw_array_rotate r 4 d2)
          = nesw_array_rotate [a0, a1, a2, a3] 4 (d1 + d2)) ∧
    (∀ (d1 d2 : Nat) (a0 a1 a2 a3 a4 a5 a6 a7 : T),
        (nesw_array_rotate [a0, a1, a2, a3, a4, a5, a6, a7] 8 d1).bind
            (fun r => nesw_array_rotate r 8 d2)
          = nesw_array_rotate [a0, a1, a2, a3, a4, a5, a6, a7] 8 (d1 + d2)) := by
  refine ⟨?_, ?_, ?_, ?_⟩
  · intro a0 a1 a2 a3
    refine ⟨by rw [rotate4_eq]; exact congrArg some (List.rotate_length [a0, a1, a2, a3]), ?_⟩
    simp only [rotate4_once, Option.some_bind]
  · intro a0 a1 a2 a3 a4 a5 a6 a7
    refine ⟨by
      rw [rotate8_eq]
      exact congrArg (fun l => some (from_compass l))
        (List.rotate_length [a0, a4, a1, a5, a2, a6, a3, a7]), ?_⟩
    simp only [rotate8_once, Option.some_bind]
  · intro d1 d2 a0 a1 a2 a3
    simp only [nesw_array_rotate, if_true, while_dist_add]
  · intro d1 d2 a0 a1 a2 a3 a4 a5 a6 a7
    have h8 : ¬ ((8 : Nat) = 4) := by decide
    simp only [nesw_array_rotate, h8, if_false, while_dist_add]

/-! ## `rotate_point` -/

theorem rotate_point_in {p : tripoint} (hp : in_buffer p) (a : Int) (ha : 0 ≤ a) :
    rotate_point p a =
      if a % 4 = 0 then p
      else if a % 4 = 1 then ⟨p.y, 23 - p.x, p.z⟩
      else if a % 4 = 2 then ⟨23 - p.x, 23 - p.y, p.z⟩
      else ⟨23 - p.y, p.x, p.z⟩ := by
  obtain ⟨h1, h2, h3, h4⟩ := hp
  have hm : Int.tmod a 4 = a % 4 := Int.tmod_eq_emod ha (by decide)
  have hc : ¬ (p.x < 0 ∨ p.x ≥ SEEX * 2 ∨ p.y < 0 ∨ p.y ≥ SEEY * 2) := by
    simp only [SEEX, SEEY] at *; omega
  have h03 : a % 4 = 0 ∨ a % 4 = 1 ∨ a % 4 = 2 ∨ a % 4 = 3 := by omega
  unfold rotate_point
  rw [if_neg hc]
  simp only [hm, SEEX, SEEY]
  rcases h03 with h | h | h | h <;> simp [h]

theorem rotate_point_stays {p : tripoint} (hp : in_buffer p) (a : Int) (ha : 0 ≤ a) :
    in_buffer (rotate_point p a) ∧ (rotate_point p a).z = p.z := by
  rw [rotate_point_in hp a ha]
  obtain ⟨h1, h2, h3, h4⟩ := hp
  simp only [SEEX, SEEY] at *
  have h03 : a % 4 = 0 ∨ a % 4 = 1 ∨ a % 4 = 2 ∨ a % 4 = 3 := by omega
  rcases h03 with h | h | h | h <;> simp [h, in_buffer, SEEX, SEEY] <;> omega

theorem rotate_point_add {p : tripoint} (hp : in_buffer p) (a b : Int) (ha : 0 ≤ a)
    (hb : 0 ≤ b) :
    rotate_point (rotate_point p a) b = rotate_point p ((a + b) % 4) := by
  have hq := (rotate_point_stays hp a ha).1
  have hab : 0 ≤ (a + b) % 4 := Int.emod_nonneg _ (by decide)
  rw [rotate_point_in hq b hb, rotate_point_in hp _ hab, rotate_point_in hp a ha]
  have ha3 : a % 4 = 0 ∨ a % 4 = 1 ∨ a % 4 = 2 ∨ a % 4 = 3 := by omega
  have hb3 : b % 4 = 0 ∨ b % 4 = 1 ∨ b % 4 = 2 ∨ b % 4 = 3 := by omega
  have hs : (a + b) % 4 % 4 = (a % 4 + b % 4) % 4 := by omega
  rw [hs]
  rcases ha3 with h | h | h | h <;> rcases hb3 with h' | h' | h' | h' <;>
    simp [h, h']

theorem rotate_point_undo {p : tripoint} (hp : in_buffer p) (a : Int) (ha : 0 ≤ a) :
    rotate_point (rotate_point p a) (4 - a % 4) = p := by
  have hb : 0 ≤ 4 - a % 4 := by omega
  rw [rotate_point_add hp a _ ha hb]
  have h0 : (a + (4 - a % 4)) % 4 = 0 := by omega
  rw [h0, rotate_point_in hp 0 (le_refl 0)]
  simp

theorem rotate_point_redo {p : tripoint} (hp : in_buffer p) (a : Int) (ha : 0 ≤ a) :
    rotate_point (rotate_point p (4 - a % 4)) a = p := by
  have hb : 0 ≤ 4 - a % 4 := by omega
  rw [rotate_point_add hp _ a hb ha]
  have h0 : (4 - a % 4 + a) % 4 = 0 := by omega
  rw [h0, rotate_point_in hp 0 (le_refl 0)]
  simp

/-- C5: inside the 24x24 buffer and for rotation counts `a, b >= 0`,
`rotate_point p a` stays inside the buffer and keeps `p.z`; turning by `a` and
then by `b` is turning by `(a + b) mod 4`; four quarter-turns give `p` back;
and turning by `a` is a bijection of the buffer (injective, and every point of
the buffer is reached from a point of the buffer). -/
theorem rotate_point_quarter_turns (p : tripoint) (a b : Int) (hp : in_buffer p)
    (ha : 0 ≤ a) (hb : 0 ≤ b) :
    in_buffer (rotate_point p a) ∧ (rotate_point p a).z = p.z ∧
    rotate_point (rotate_point p a) b = rotate_point p ((a + b) % 4) ∧
    rotate_point (rotate_point (rotate_point (rotate_point p 1) 1) 1) 1 = p ∧
    (∀ q : tripoint, in_buffer q → rotate_point p a = rotate_point q a → p = q) ∧
    (∃ q : tripoint, in_buffer q ∧ rotate_point q a = p) := by
  refine ⟨(rotate_point_stays hp a ha).1, (rotate_point_stays hp a ha).2,
    rotate_point_add hp a b ha hb, ?_, ?_, ?_⟩
  · have h1 := (rotate_point_stays hp 1 (by decide)).1
    have h2 := (rotate_point_stays h1 1 (by decide)).1
    rw [rotate_point_add hp 1 1 (by decide) (by decide),
      rotate_point_add hp _ 1 (by decide) (by decide),
      rotate_point_add hp _ 1 (by decide) (by decide),
      rotate_point_in hp _ (by decide)]
    simp
  · intro q hq h
    have e1 := rotate_point_undo hp a ha
    have e2 := rotate_point_undo hq a ha
    rw [h] at e1
    exact e1.symm.trans e2
  · have hb4 : 0 ≤ 4 - a % 4 := by omega
    exact ⟨rotate_point p (4 - a % 4), (rotate_point_stays hp _ hb4).1,
      rotate_point_redo hp a ha⟩

theorem rotate_point_quarter_turns_witness :
    in_buffer (rotate_point ⟨3, 5, 7⟩ 1) ∧ (rotate_point ⟨3, 5, 7⟩ 1).z = 7 ∧
    rotate_point (rotate_point ⟨3, 5, 7⟩ 1) 2 = rotate_point ⟨3, 5, 7⟩ ((1 + 2) % 4) ∧
    rotate_point (rotate_point (rotate_point (rotate_point ⟨3, 5, 7⟩ 1) 1) 1) 1 = ⟨3, 5, 7⟩ ∧
    (∀ q : tripoint, in_buffer q →
      rotate_point ⟨3, 5, 7⟩ 1 = rotate_point q 1 → (⟨3, 5, 7⟩ : tripoint) = q) ∧
    (∃ q : tripoint, in_buffer q ∧ rotate_point q 1 = ⟨3, 5, 7⟩) :=
  rotate_point_quarter_turns ⟨3, 5, 7⟩ 1 2 (by decide) (by decide) (by decide)

/-- C6: a point with `x` or `y` outside `[0, 24)` is not rotated: whatever
`rotations` is, `rotate_point` returns `(0, 0, p.z)`, a point of the buffer. -/
theorem rotate_point_out_of_range (p : tripoint) (rotations : Int)
    (h : p.x < 0 ∨ 24 ≤ p.x ∨ p.y < 0 ∨ 24 ≤ p.y) :
    rotate_point p rotations = ⟨0, 0, p.z⟩ ∧ in_buffer ⟨0, 0, p.z⟩ := by
  constructor
  · unfold rotate_point
    rw [if_pos]
    simp only [SEEX, SEEY]
    omega
  · simp [in_buffer, SEEX, SEEY]

theorem rotate_point_out_of_range_witness :
    rotate_point ⟨30, -2, 5⟩ 3 = ⟨0, 0, 5⟩ ∧ in_buffer ⟨0, 0, 5⟩ :=
  rotate_point_out_of_range ⟨30, -2, 5⟩ 3 (by decide)

/-! ## Orientation of road, subway and railroad tiles -/

theorem road_connectivity (hc : Nat → Bool) :
    terrain_type_to_nesw_array hc [false, false, false, false]
      = (count_dirs [hc 0, hc 1, hc 2, hc 3], [hc 0, hc 1, hc 2, hc 3]) := by
  simp only [terrain_type_to_nesw_array, List.foldl]
  generalize hc 0 = n, hc 1 = e, hc 2 = s, hc 3 = w
  revert n e s w
  decide

theorem subway_connectivity (hc sc : Nat → Bool) :
    subway_add_connections sc (terrain_type_to_nesw_array hc [false, false, false, false])
      = (count_dirs [hc 0 || sc 0, hc 1 || sc 1, hc 2 || sc 2, hc 3 || sc 3],
          [hc 0 || sc 0, hc 1 || sc 1, hc 2 || sc 2, hc 3 || sc 3]) := by
  rw [road_connectivity]
  simp only [subway_add_connections, List.foldl]
  generalize hc 0 = n, hc 1 = e, hc 2 = s, hc 3 = w, sc 0 = n', sc 1 = e', sc 2 = s',
    sc 3 = w'
  revert n e s w n' e' s' w'
  decide

theorem road_rot_eq_railroad (num_dirs : Int) (a : List Bool) (fourways : Nat → Bool)
    (h : num_dirs ≠ 4) :
    mapgen_road_rot num_dirs a fourways
      = ((mapgen_railroad_rot num_dirs a).1, (mapgen_railroad_rot num_dirs a).2, -1) := by
  unfold mapgen_road_rot mapgen_railroad_rot
  rw [if_neg h, if_neg h]
  repeat' split
  all_goals rfl

theorem subway_rot_eq_railroad (num_dirs : Int) (a : List Bool) :
    mapgen_subway_rot num_dirs a = mapgen_railroad_rot num_dirs a := rfl

theorem canonical_shapes : ∀ n e s w : Bool,
    1 ≤ count_dirs [n, e, s, w] → count_dirs [n, e, s, w] ≤ 3 →
      0 ≤ (mapgen_railroad_rot (count_dirs [n, e, s, w]) [n, e, s, w]).1 ∧
      (mapgen_railroad_rot (count_dirs [n, e, s, w]) [n, e, s, w]).1 ≤ 3 ∧
      (count_dirs [n, e, s, w] = 1 →
        [n, e, s, w].rotate (mapgen_railroad_rot (count_dirs [n, e, s, w]) [n, e, s, w]).1.toNat
          = [true, false, false, false]) ∧
      (count_dirs [n, e, s, w] = 2 → at_ [n, e, s, w] 0 = at_ [n, e, s, w] 2 →
        [n, e, s, w].rotate (mapgen_railroad_rot (count_dirs [n, e, s, w]) [n, e, s, w]).1.toNat
          = [true, false, true, false] ∧
        (mapgen_railroad_rot (count_dirs [n, e, s, w]) [n, e, s, w]).2 = false) ∧
      (count_dirs [n, e, s, w] = 2 → at_ [n, e, s, w] 0 ≠ at_ [n, e, s, w] 2 →
        [n, e, s, w].rotate (mapgen_railroad_rot (count_dirs [n, e, s, w]) [n, e, s, w]).1.toNat
          = [true, true, false, false] ∧
        (mapgen_railroad_rot (count_dirs [n, e, s, w]) [n, e, s, w]).2 = true) ∧
      (count_dirs [n, e, s, w] = 3 →
        [n, e, s, w].rotate (mapgen_railroad_rot (count_dirs [n, e, s, w]) [n, e, s, w]).1.toNat
          = [true, true, false, true]) := by
  decide

/-- C1: in `mapgen_road`, `mapgen_subway` and `mapgen_railroad`, for a connectivity
array `a` (N, E, S, W) with 1, 2 or 3 connections, `rot` lies in 0..3 and
`nesw_array_rotate( a, 4, rot )` is the canonical shape: only North for one
connection; North and South with `diag = false` for two opposite ones; North and
East with `diag = true` for two adjacent ones; all but South for three.  The
three generators agree on `num_dirs`, `rot`, `diag` and the rotated array.  The
array of `mapgen_subway` is the terrain's own connections `hc` joined with the
neighbours' `subway_connection` flags `sc`; with `sc` all false it is `hc`. -/
theorem orientation_canonical (hc sc fourways : Nat → Bool)
    (h1 : 1 ≤ count_dirs (joined_nesw hc sc)) (h3 : count_dirs (joined_nesw hc sc) ≤ 3) :
    ∃ (rot : Int) (diag : Bool) (rotated : List Bool),
      0 ≤ rot ∧ rot ≤ 3 ∧
      nesw_array_rotate (joined_nesw hc sc) 4 rot.toNat = some rotated ∧
      (count_dirs (joined_nesw hc sc) = 1 → rotated = [true, false, false, false]) ∧
      (count_dirs (joined_nesw hc sc) = 2 →
        at_ (joined_nesw hc sc) 0 = at_ (joined_nesw hc sc) 2 →
        rotated = [true, false, true, false] ∧ diag = false) ∧
      (count_dirs (joined_nesw hc sc) = 2 →
        at_ (joined_nesw hc sc) 0 ≠ at_ (joined_nesw hc sc) 2 →
        rotated = [true, true, false, false] ∧ diag = true) ∧
      (count_dirs (joined_nesw hc sc) = 3 → rotated = [true, true, false, true]) ∧
      mapgen_road_layout (fun d => at_ (joined_nesw hc sc) d) fourways
        = some ⟨count_dirs (joined_nesw hc sc), rot, diag, -1, rotated⟩ ∧
      mapgen_railroad_layout (fun d => at_ (joined_nesw hc sc) d)
        = some ⟨count_dirs (joined_nesw hc sc), rot, diag, -1, rotated⟩ ∧
      mapgen_subway_layout hc sc
        = some ⟨count_dirs (joined_nesw hc sc), rot, diag, -1, rotated⟩ := by
  have hs : subway_add_connections sc
      (terrain_type_to_nesw_array hc [false, false, false, false])
      = (count_dirs (joined_nesw hc sc), joined_nesw hc sc) := subway_connectivity hc sc
  have hr := road_connectivity (fun d => at_ (joined_nesw hc sc) d)
  have ha : [at_ (joined_nesw hc sc) 0, at_ (joined_nesw hc sc) 1, at_ (joined_nesw hc sc) 2,
      at_ (joined_nesw hc sc) 3] = joined_nesw hc sc := rfl
  rw [ha] at hr
  have hc4 : count_dirs (joined_nesw hc sc) ≠ 4 := by omega
  obtain ⟨c0, c3, c1, c2o, c2a, c3s⟩ :=
    canonical_shapes (hc 0 || sc 0) (hc 1 || sc 1) (hc 2 || sc 2) (hc 3 || sc 3) h1 h3
  refine ⟨(mapgen_railroad_rot (count_dirs (joined_nesw hc sc)) (joined_nesw hc sc)).1,
    (mapgen_railroad_rot (count_dirs (joined_nesw hc sc)) (joined_nesw hc sc)).2,
    (joined_nesw hc sc).rotate
      (mapgen_railroad_rot (count_dirs (joined_nesw hc sc)) (joined_nesw hc sc)).1.toNat,
    c0, c3, rotate4_eq _ _ _ _ _, c1, c2o, c2a, c3s, ?_, ?_, ?_⟩
  · simp only [mapgen_road_layout, hr, road_rot_eq_railroad _ _ fourways hc4]
    rw [show joined_nesw hc sc = [hc 0 || sc 0, hc 1 || sc 1, hc 2 || sc 2, hc 3 || sc 3]
      from rfl, rotate4_eq]
    rfl
  · simp only [mapgen_railroad_layout, hr]
    rw [show joined_nesw hc sc = [hc 0 || sc 0, hc 1 || sc 1, hc 2 || sc 2, hc 3 || sc 3]
      from rfl, rotate4_eq]
    rfl
  · simp only [mapgen_subway_layout, hs, subway_rot_eq_railroad]
    rw [show joined_nesw hc sc = [hc 0 || sc 0, hc 1 || sc 1, hc 2 || sc 2, hc 3 || sc 3]
      from rfl, rotate4_eq]
    rfl

/-! ## Road arms -/

theorem coord_rotate_cw_add (p : point) (a b : Nat) :
    coord_rotate_cw (coord_rotate_cw p a) b = coord_rotate_cw p (a + b) := by
  induction a generalizing p with
  | zero => simp [coord_rotate_cw]
  | succ n ih =>
    rw [Nat.succ_add]
    simp only [coord_rotate_cw]
    exact ih _

theorem coord_rotate_cw_four (p : point) : coord_rotate_cw p 4 = p := by
  simp only [coord_rotate_cw, SEEY]
  cases p
  simp

theorem coord_rotate_cw_mod (p : point) (k : Nat) :
    coord_rotate_cw p k = coord_rotate_cw p (k % 4) := by
  induction k using Nat.strong_induction_on with
  | _ k ih =>
    by_cases hk : k < 4
    · rw [Nat.mod_eq_of_lt hk]
    · have e : k = 4 + (k - 4) := by omega
      have e2 : k % 4 = (k - 4) % 4 := by omega
      rw [e2, ← ih (k - 4) (by omega)]
      conv_lhs => rw [e]
      rw [← coord_rotate_cw_add, coord_rotate_cw_four]

theorem arm_iff (e : Int) (he : 0 ≤ e) (d : Nat) (hd : d < 4) (q : point) :
    square_covers (road_arm_corners e d).1 (road_arm_corners e d).2 q = true ↔
      ∃ p, north_arm e p = true ∧ coord_rotate_cw p d = q := by
  obtain ⟨qx, qy⟩ := q
  interval_cases d
  · simp only [road_arm_corners, coord_rotate_cw, square_covers, north_arm, SEEX, SEEY,
      decide_eq_true_eq, min_def, max_def]
    constructor
    · intro h
      refine ⟨⟨qx, qy⟩, ?_, ?_⟩
      · dsimp only
        split_ifs at h <;> omega
      · simp
    · rintro ⟨⟨px, py⟩, h, h2⟩
      simp only [point.mk.injEq] at h2
      dsimp only at h
      split_ifs <;> omega
  · simp only [road_arm_corners, coord_rotate_cw, square_covers, north_arm, SEEX, SEEY,
      decide_eq_true_eq, min_def, max_def]
    constructor
    · intro h
      refine ⟨⟨qy, 23 - qx⟩, ?_, ?_⟩
      · dsimp only
        split_ifs at h <;> omega
      · simp
    · rintro ⟨⟨px, py⟩, h, h2⟩
      simp only [point.mk.injEq] at h2
      dsimp only at h
      split_ifs <;> omega
  · simp only [road_arm_corners, coord_rotate_cw, square_covers, north_arm, SEEX, SEEY,
      decide_eq_true_eq, min_def, max_def]
    constructor
    · intro h
      refine ⟨⟨23 - qx, 23 - qy⟩, ?_, ?_⟩
      · dsimp only
        split_ifs at h <;> omega
      · simp
    · rintro ⟨⟨px, py⟩, h, h2⟩
      simp only [point.mk.injEq] at h2
      dsimp only at h
      split_ifs <;> omega
  · simp only [road_arm_corners, coord_rotate_cw, square_covers, north_arm, SEEX, SEEY,
      decide_eq_true_eq, min_def, max_def]
    constructor
    · intro h
      refine ⟨⟨23 - qy, qx⟩, ?_, ?_⟩
      · dsimp only
        split_ifs at h <;> omega
      · simp
    · rintro ⟨⟨px, py⟩, h, h2⟩
      simp only [point.mk.injEq] at h2
      dsimp only at h
      split_ifs <;> omega

theorem railroad_rot_range (c : Int) (a : List Bool) :
    0 ≤ (mapgen_railroad_rot c a).1 ∧ (mapgen_railroad_rot c a).1 ≤ 3 := by
  unfold mapgen_railroad_rot
  repeat' split
  all_goals exact ⟨by decide, by decide⟩

theorem road_rot_range (c : Int) (a : List Bool) (fourways : Nat → Bool)
    (hp : (mapgen_road_rot c a fourways).2.2 = -1) :
    0 ≤ (mapgen_road_rot c a fourways).1 ∧ (mapgen_road_rot c a fourways).1 ≤ 3 := by
  by_cases h4 : c = 4
  · subst h4
    unfold mapgen_road_rot at hp ⊢
    rw [if_pos rfl] at hp ⊢
    dsimp only at hp ⊢
    generalize road_plaza_dir (List.map fourways (List.range 8)) = pd at hp ⊢
    by_cases hgt : pd > -1
    · rw [if_pos hgt] at hp
      simp only at hp
      omega
    · rw [if_neg hgt]
      exact ⟨le_refl 0, by show (0 : Int) ≤ 3; decide⟩
  · have h := road_rot_eq_railroad c a fourways h4
    rw [h]
    exact railroad_rot_range c a

theorem at_rotate (n e s w : Bool) (k dir : Nat) (hdir : dir < 4) :
    at_ ([n, e, s, w].rotate k) dir = at_ [n, e, s, w] ((dir + k) % 4) := by
  have hl : dir < [n, e, s, w].length := hdir
  have h := List.getElem?_rotate (n := k) hl
  simp only [at_, List.getD_eq_getElem?_getD, h]
  rfl

theorem at_hc (hc : Nat → Bool) (d : Nat) (hd : d < 4) :
    at_ [hc 0, hc 1, hc 2, hc 3] d = hc d := by
  interval_cases d <;> rfl

/-- C2: rotation commutes with drawing for the road arms.  Let `l` be the layout
of a non-diagonal, non-plaza road tile with at least one connection, and let
`rotated` be the pavement of the arm rectangles after the final
`m->rotate( rot )`, taken to move every cell `p` to `coord_rotate_cw p rot`.
Then a cell is paved exactly when it lies in the North arm rectangle (columns
4..19, rows 0..11 + dead-end extension) turned by `d` clockwise quarter-turns
for one of the originally connected directions `d`. -/
theorem road_rotation_commutes (hc fourways : Nat → Bool) (l : tile_layout)
    (hl : mapgen_road_layout hc fourways = some l)
    (hd : l.diag = false) (hp : l.plaza_dir = -1)
    (rotated : point → Bool)
    (hrot : ∀ p, rotated (coord_rotate_cw p l.rot.toNat) = road_arm_pavement l p)
    (q : point) :
    rotated q = true ↔
      ∃ d, d < 4 ∧ hc d = true ∧
        ∃ p, north_arm (dead_end_extension l.num_dirs) p = true ∧ coord_rotate_cw p d = q := by
  simp only [mapgen_road_layout, road_connectivity, rotate4_eq, Option.map_some',
    Option.some.injEq] at hl
  subst hl
  simp only at hp hrot ⊢
  obtain ⟨r0, r3⟩ := road_rot_range _ _ _ hp
  generalize (mapgen_road_rot (count_dirs [hc 0, hc 1, hc 2, hc 3]) [hc 0, hc 1, hc 2, hc 3]
    fourways).1 = rot at hrot r0 r3
  obtain ⟨k, rfl⟩ : ∃ k : Nat, rot = (k : Int) := ⟨rot.toNat, by omega⟩
  simp only [Int.toNat_ofNat] at hrot
  have hk : k ≤ 3 := by omega
  have he : 0 ≤ dead_end_extension (count_dirs [hc 0, hc 1, hc 2, hc 3]) := by
    unfold dead_end_extension; split <;> decide
  have hq : q = coord_rotate_cw (coord_rotate_cw q (4 - k)) k := by
    rw [coord_rotate_cw_add, show 4 - k + k = 4 by omega, coord_rotate_cw_four]
  rw [hq, hrot, ← hq]
  simp only [road_arm_pavement, List.any_eq_true, List.mem_range, Bool.and_eq_true]
  generalize dead_end_extension (count_dirs [hc 0, hc 1, hc 2, hc 3]) = ext at he ⊢
  constructor
  · rintro ⟨dir, hdir, hat, hsq⟩
    rw [at_rotate _ _ _ _ _ _ hdir, at_hc _ _ (Nat.mod_lt _ (by decide))] at hat
    obtain ⟨p, hp1, hp2⟩ := (arm_iff ext he dir hdir _).1 hsq
    refine ⟨(dir + k) % 4, Nat.mod_lt _ (by decide), hat, p, hp1, ?_⟩
    rw [← coord_rotate_cw_mod, ← coord_rotate_cw_add, hp2, ← hq]
  · rintro ⟨d, hd4, hcd, p, hp1, hp2⟩
    refine ⟨(d + (4 - k)) % 4, Nat.mod_lt _ (by decide), ?_, ?_⟩
    · rw [at_rotate _ _ _ _ _ _ (Nat.mod_lt _ (by decide)),
        at_hc _ _ (Nat.mod_lt _ (by decide))]
      have : ((d + (4 - k)) % 4 + k) % 4 = d := by omega
      rw [this]
      exact hcd
    · apply (arm_iff ext he _ (Nat.mod_lt _ (by decide)) _).2
      refine ⟨p, hp1, ?_⟩
      rw [← coord_rotate_cw_mod, ← coord_rotate_cw_add, hp2]

/-! ## Lake shore: slots, determinism, fill corners -/

theorem scan_some_of_reach (hit : Int → Bool) (i dir : Int) (fuel : Nat) (j : Int)
    (h : ∃ k, k < fuel ∧ (fun v => modulo (v + dir) 8)^[k] j = i) :
    ∃ r, scan_loop hit i dir fuel j = some r := by
  induction fuel generalizing j with
  | zero =>
    obtain ⟨k, hk, _⟩ := h
    omega
  | succ n ih =>
    obtain ⟨k, hk, hreach⟩ := h
    unfold scan_loop
    by_cases hji : j = i
    · exact ⟨i, by simp [hji]⟩
    · by_cases hh : hit j = true
      · exact ⟨j, by simp [hji, hh]⟩
      · simp only [hji, hh, if_false]
        apply ih
        cases k with
        | zero => exact absurd hreach hji
        | succ k' =>
          refine ⟨k', by omega, ?_⟩
          rw [Function.iterate_succ_apply] at hreach
          exact hreach

theorem scan_total (hit : Int → Bool) (i : Nat) (hi : i < 8) (dir : Int)
    (hdir : dir = 1 ∨ dir = -1) :
    ∃ r, scan_loop hit i dir 8 (modulo (i + dir) 8) = some r := by
  apply scan_some_of_reach
  refine ⟨7, by decide, ?_⟩
  rcases hdir with rfl | rfl <;> interval_cases i <;> decide

theorem closing_loop_once : ∀ b0 b1 b2 b3 b4 b5 b6 b7 : Bool,
    ∃ tr, closing_loop [b0, b1, b2, b3, b4, b5, b6, b7] = some tr ∧
      (∀ s : Fin 8, times_closed tr.2 s.val
          = if at_ [b0, b1, b2, b3, b4, b5, b6, b7] s.val then 1 else 0) ∧
      (∀ s : Fin 8, at_ tr.1 s.val = false) ∧
      tr.2.all (fun e => decide (0 ≤ e.1 ∧ e.1 < 8 ∧ 0 ≤ e.2 ∧ e.2 < 8) &&
        at_ [b0, b1, b2, b3, b4, b5, b6, b7] e.1.toNat &&
        at_ [b0, b1, b2, b3, b4, b5, b6, b7] e.2.toNat) = true := by
  decide

theorem getD_isSome (slots : List (Option point)) (n : Nat) :
    (slots.getD n none).isSome = at_ (slots.map Option.isSome) n := by
  induction slots generalizing n with
  | nil => simp [at_]
  | cons a l ih =>
    cases n with
    | zero => simp [at_]
    | succ m =>
      have := ih m
      simpa [at_] using this

theorem pairing_step_trace (slots : List (Option point)) (water : List Bool)
    (st : pairing_state) (i : Nat) (hi : i < 8) :
    (pairing_step slots water st i).map trace_of
      = closing_step (slots.map Option.isSome) (trace_of st) i := by
  unfold pairing_step closing_step
  by_cases ho : at_ st.open_ i = true
  · have hc : ∀ k : Int, slot_contains slots k
        = (decide (0 ≤ k) && at_ (slots.map Option.isSome) k.toNat) := by
      intro k
      simp only [slot_contains, getD_isSome]
    simp only [trace_of, ho, Bool.not_true, Bool.false_eq_true, if_false, hc]
    generalize hnext : (if i % 2 = 0 then (1 : Int) else -1) = next
    have hn : next = 1 ∨ next = -1 := by
      rw [← hnext]; split <;> simp
    generalize hdir : (if (decide (0 ≤ (i : Int) + next) &&
      at_ (List.map Option.isSome slots) ((i : Int) + next).toNat) = true
      then -next else next) = dir
    have hd : dir = 1 ∨ dir = -1 := by
      rw [← hdir]
      rcases hn with rfl | rfl <;> split <;> simp
    obtain ⟨pair, hpair⟩ := scan_total (fun j => at_ st.open_ j.toNat) i hi dir hd
    obtain ⟨fb, hfb⟩ := scan_total (fun j => !at_ water j.toNat) i hi dir hd
    simp only [hpair, hfb, Option.some_bind, Option.map_some']
    by_cases hpi : pair = (i : Int)
    · simp [hpi, trace_of]
    · by_cases hpn : pair = (i : Int) + next
      · rw [if_neg hpi, if_pos hpn]
        simp [trace_of]
      · rw [if_neg hpi, if_neg hpn]
        simp [trace_of]
  · simp only [Bool.not_eq_true] at ho
    simp [trace_of, ho]

theorem foldlM_trace (slots : List (Option point)) (water : List Bool) (l : List Nat)
    (hl : ∀ i ∈ l, i < 8) (st : pairing_state) :
    (l.foldlM (pairing_step slots water) st).map trace_of
      = l.foldlM (closing_step (slots.map Option.isSome)) (trace_of st) := by
  induction l generalizing st with
  | nil => simp
  | cons i l ih =>
    have hi : i < 8 := hl i (List.mem_cons_self _ _)
    have hl2 : ∀ j ∈ l, j < 8 := fun j hj => hl j (List.mem_cons_of_mem _ hj)
    have hstep := pairing_step_trace slots water st i hi
    simp only [List.foldlM_cons]
    cases h1 : pairing_step slots water st i with
    | none =>
      rw [h1] at hstep
      simp only [Option.map_none'] at hstep
      simp [← hstep]
    | some st1 =>
      rw [h1] at hstep
      simp only [Option.map_some'] at hstep
      rw [← hstep]
      simp only [Option.some_bind, Option.bind_eq_bind]
      exact ih hl2 st1

theorem list_eight {α : Type} (l : List α) (h : l.length = 8) :
    ∃ a0 a1 a2 a3 a4 a5 a6 a7, l = [a0, a1, a2, a3, a4, a5, a6, a7] := by
  match l, h with
  | [a0, a1, a2, a3, a4, a5, a6, a7], _ => exact ⟨a0, a1, a2, a3, a4, a5, a6, a7, rfl⟩

theorem open_pair (o0 o1 o2 o3 o4 o5 o6 o7 : Bool) (s0 s1 s2 s3 s4 s5 s6 s7 : Option point) :
    (∃ t0 t1, t0.isSome = s0.isSome ∧ t1.isSome = s1.isSome ∧
      open_slots_step (open_slots_step
          ([o0, o1, o2, o3, o4, o5, o6, o7], [s0, s1, s2, s3, s4, s5, s6, s7]) 0) 1
        = ([s0.isSome, s1.isSome, o2, o3, o4, o5, o6, o7], [t0, t1, s2, s3, s4, s5, s6, s7])) ∧
    (∃ t2 t3, t2.isSome = s2.isSome ∧ t3.isSome = s3.isSome ∧
      open_slots_step (open_slots_step
          ([o0, o1, o2, o3, o4, o5, o6, o7], [s0, s1, s2, s3, s4, s5, s6, s7]) 2) 3
        = ([o0, o1, s2.isSome, s3.isSome, o4, o5, o6, o7], [s0, s1, t2, t3, s4, s5, s6, s7])) ∧
    (∃ t4 t5, t4.isSome = s4.isSome ∧ t5.isSome = s5.isSome ∧
      open_slots_step (open_slots_step
          ([o0, o1, o2, o3, o4, o5, o6, o7], [s0, s1, s2, s3, s4, s5, s6, s7]) 4) 5
        = ([o0, o1, o2, o3, s4.isSome, s5.isSome, o6, o7], [s0, s1, s2, s3, t4, t5, s6, s7])) ∧
    (∃ t6 t7, t6.isSome = s6.isSome ∧ t7.isSome = s7.isSome ∧
      open_slots_step (open_slots_step
          ([o0, o1, o2, o3, o4, o5, o6, o7], [s0, s1, s2, s3, s4, s5, s6, s7]) 6) 7
        = ([o0, o1, o2, o3, o4, o5, s6.isSome, s7.isSome], [s0, s1, s2, s3, s4, s5, t6, t7])) := by
  refine ⟨?_, ?_, ?_, ?_⟩
  · rcases s0 with _ | v0 <;> rcases s1 with _ | v1
    · exact ⟨none, none, rfl, rfl, rfl⟩
    · exact ⟨none, some v1, rfl, rfl, rfl⟩
    · exact ⟨some v0, none, rfl, rfl, rfl⟩
    · exact ⟨some v1, some v0, rfl, rfl, rfl⟩
  · rcases s2 with _ | v0 <;> rcases s3 with _ | v1
    · exact ⟨none, none, rfl, rfl, rfl⟩
    · exact ⟨none, some v1, rfl, rfl, rfl⟩
    · exact ⟨some v0, none, rfl, rfl, rfl⟩
    · exact ⟨some v1, some v0, rfl, rfl, rfl⟩
  · rcases s4 with _ | v0 <;> rcases s5 with _ | v1
    · exact ⟨none, none, rfl, rfl, rfl⟩
    · exact ⟨none, some v1, rfl, rfl, rfl⟩
    · exact ⟨some v0, none, rfl, rfl, rfl⟩
    · exact ⟨some v1, some v0, rfl, rfl, rfl⟩
  · rcases s6 with _ | v0 <;> rcases s7 with _ | v1
    · exact ⟨none, none, rfl, rfl, rfl⟩
    · exact ⟨none, some v1, rfl, rfl, rfl⟩
    · exact ⟨some v0, none, rfl, rfl, rfl⟩
    · exact ⟨some v1, some v0, rfl, rfl, rfl⟩

theorem open_slots_pattern (slots : List (Option point)) (h : slots.length = 8) :
    (open_slots slots).1 = slots.map Option.isSome ∧
    (open_slots slots).2.map Option.isSome = slots.map Option.isSome := by
  obtain ⟨s0, s1, s2, s3, s4, s5, s6, s7, rfl⟩ := list_eight slots h
  have e : open_slots [s0, s1, s2, s3, s4, s5, s6, s7]
      = open_slots_step (open_slots_step (open_slots_step (open_slots_step
          (open_slots_step (open_slots_step (open_slots_step (open_slots_step
            ([false, false, false, false, false, false, false, false],
              [s0, s1, s2, s3, s4, s5, s6, s7]) 0) 1) 2) 3) 4) 5) 6) 7 := by
    have hr : List.range 8 = [0, 1, 2, 3, 4, 5, 6, 7] := by decide
    unfold open_slots
    rw [hr]
    simp only [List.foldl, List.replicate]
  rw [e]
  obtain ⟨t0, t1, h0, h1, e1⟩ := (open_pair false false false false false false false false
    s0 s1 s2 s3 s4 s5 s6 s7).1
  rw [e1]
  obtain ⟨t2, t3, h2, h3, e2⟩ := (open_pair s0.isSome s1.isSome false false false false false
    false t0 t1 s2 s3 s4 s5 s6 s7).2.1
  rw [e2]
  obtain ⟨t4, t5, h4, h5, e3⟩ := (open_pair s0.isSome s1.isSome s2.isSome s3.isSome false false
    false false t0 t1 t2 t3 s4 s5 s6 s7).2.2.1
  rw [e3]
  obtain ⟨t6, t7, h6, h7, e4⟩ := (open_pair s0.isSome s1.isSome s2.isSome s3.isSome s4.isSome
    s5.isSome false false t0 t1 t2 t3 t4 t5 s6 s7).2.2.2
  rw [e4]
  simp [h0, h1, h2, h3, h4, h5, h6, h7]

theorem slot_put_length (c : Bool) (k : Nat) (p : point) (slots : List (Option point)) :
    (slot_put c k p slots).length = slots.length := by
  unfold slot_put; split <;> simp

theorem lake_shore_slots_length (neighbours : List n_type) :
    (lake_shore_slots neighbours).length = 8 := by
  simp [lake_shore_slots, slot_put_length]

theorem pairing_idle (slots : List (Option point)) (water : List Bool) (l : List Nat)
    (st : pairing_state) (h : ∀ i, at_ st.open_ i = false) :
    l.foldlM (pairing_step slots water) st = some st := by
  induction l with
  | nil => rfl
  | cons i l ih =>
    have hs : pairing_step slots water st i = some st := by
      unfold pairing_step
      simp [h i]
    simp only [List.foldlM_cons, hs]
    exact ih

/-- The slot code returns a plan with the closing properties, for every list of
neighbour classes. -/
theorem lake_shore_plan_spec (c : List n_type) :
    ∃ r, lake_shore_plan c = some r ∧
      (∀ s : Fin 8, at_ r.opened s.val = slot_contains (lake_shore_slots c) s.val) ∧
      (∀ s : Fin 8, times_closed r.paired.closings s.val
          = if at_ r.opened s.val then 1 else 0) ∧
      (∀ e ∈ r.paired.closings, 0 ≤ e.1 ∧ e.1 < 8 ∧ 0 ≤ e.2 ∧ e.2 < 8 ∧
          at_ r.opened e.1.toNat = true ∧ at_ r.opened e.2.toNat = true) ∧
      (∀ s : Fin 8, at_ r.paired.open_ s.val = false) ∧
      r.line_segments ≠ [] ∧
      ((∀ s : Fin 8, at_ r.opened s.val = false) →
        r.line_segments = [[⟨15, 8⟩, ⟨8, 8⟩], [⟨8, 8⟩, ⟨8, 15⟩], [⟨8, 15⟩, ⟨15, 15⟩],
          [⟨15, 15⟩, ⟨15, 8⟩]]) := by
  have hlen := lake_shore_slots_length c
  obtain ⟨ho1, ho2⟩ := open_slots_pattern (lake_shore_slots c) hlen
  have hplen : ((lake_shore_slots c).map Option.isSome).length = 8 := by simp [hlen]
  obtain ⟨b0, b1, b2, b3, b4, b5, b6, b7, hpat⟩ := list_eight _ hplen
  obtain ⟨tr, htr, hcount, hclosed, hmem⟩ := closing_loop_once b0 b1 b2 b3 b4 b5 b6 b7
  have hsim := foldlM_trace (open_slots (lake_shore_slots c)).2 (water_sides c) (List.range 8)
    (fun i hi => List.mem_range.1 hi) ⟨(open_slots (lake_shore_slots c)).1, [], []⟩
  rw [ho2, hpat] at hsim
  simp only [trace_of, ho1, hpat] at hsim
  have htr2 : (List.range 8).foldlM (closing_step [b0, b1, b2, b3, b4, b5, b6, b7])
      ([b0, b1, b2, b3, b4, b5, b6, b7], []) = some tr := htr
  rw [htr2] at hsim
  cases hp : pairing_loop (open_slots (lake_shore_slots c)).2 (water_sides c)
      ⟨[b0, b1, b2, b3, b4, b5, b6, b7], [], []⟩ with
  | none =>
    unfold pairing_loop at hp
    rw [hp] at hsim
    simp at hsim
  | some st =>
    have hp2 := hp
    unfold pairing_loop at hp2
    rw [hp2] at hsim
    simp only [Option.map_some', Option.some.injEq] at hsim
    have hst1 : st.open_ = tr.1 := by rw [← hsim]; rfl
    have hst2 : st.closings = tr.2 := by rw [← hsim]; rfl
    refine ⟨⟨[b0, b1, b2, b3, b4, b5, b6, b7], st,
      if st.line_segments.isEmpty then reef_segments else st.line_segments⟩, ?_, ?_, ?_, ?_, ?_,
      ?_, ?_⟩
    · simp only [lake_shore_plan, ho1, hpat, hp, Option.map_some']
    · intro s
      simp only [slot_contains, getD_isSome, hpat]
      simp
    · intro s
      simp only [hst2]
      exact hcount s
    · intro e he
      rw [hst2] at he
      have := List.all_eq_true.1 hmem e he
      simp only [Bool.and_eq_true, decide_eq_true_eq] at this
      obtain ⟨⟨h1, h2⟩, h3⟩ := this
      exact ⟨h1.1, h1.2.1, h1.2.2.1, h1.2.2.2, h2, h3⟩
    · intro s
      simp only [hst1]
      exact hclosed s
    · simp only
      split
      · decide
      · rename_i hne
        intro h
        rw [h] at hne
        exact hne rfl
    · intro hno
      have hb : ∀ i, at_ [b0, b1, b2, b3, b4, b5, b6, b7] i = false := by
        have h0 := hno 0
        have h1 := hno 1
        have h2 := hno 2
        have h3 := hno 3
        have h4 := hno 4
        have h5 := hno 5
        have h6 := hno 6
        have h7 := hno 7
        simp only [at_] at h0 h1 h2 h3 h4 h5 h6 h7
        simp at h0 h1 h2 h3 h4 h5 h6 h7
        subst h0 h1 h2 h3 h4 h5 h6 h7
        intro i
        unfold at_
        match i with
        | 0 | 1 | 2 | 3 | 4 | 5 | 6 | 7 => rfl
        | n + 8 => rfl
      have hidle := pairing_idle (open_slots (lake_shore_slots c)).2 (water_sides c)
        (List.range 8) ⟨[b0, b1, b2, b3, b4, b5, b6, b7], [], []⟩ hb
      unfold pairing_loop at hp
      rw [hidle] at hp
      simp only [Option.some.injEq] at hp
      subst hp
      show reef_segments = _
      decide

theorem mapgen_lake_shore_plan {G A : Type} (env : lake_env G A) (seed : Nat)
    (dat : mapgendata) (ambient : A)
    (hl : count_lakes (classify_neighbours dat.t_nesw) ≠ 0) :
    ∃ res r, mapgen_lake_shore env seed dat ambient = some res ∧ res.plan = some r ∧
      lake_shore_plan (classify_neighbours dat.t_nesw) = some r := by
  obtain ⟨r, hr, _⟩ := lake_shore_plan_spec (classify_neighbours dat.t_nesw)
  unfold mapgen_lake_shore
  simp only [hl, if_false, hr, Option.map_some']
  exact ⟨_, r, rfl, rfl, rfl⟩

/-- C7: for every classification of the eight neighbours with at least one lake,
`mapgen_lake_shore` returns, and its slot code leaves a plan `r` in which
`opened` marks exactly the slots that exist; every opened slot takes part in
exactly one pairing step and a slot that was never opened in none; a pairing
step only involves opened slots (so the partner of a step, when it is not the
slot itself, was still open); after the loop no slot is open; the segment list
is not empty; and when no slot was opened it is the four reef segments. -/
theorem lake_shore_slots_close_once {G A : Type} (env : lake_env G A) (seed : Nat)
    (dat : mapgendata) (ambient : A)
    (hl : 1 ≤ count_lakes (classify_neighbours dat.t_nesw)) :
    ∃ res r, mapgen_lake_shore env seed dat ambient = some res ∧ res.plan = some r ∧
      (∀ s : Fin 8, at_ r.opened s.val
          = slot_contains (lake_shore_slots (classify_neighbours dat.t_nesw)) s.val) ∧
      (∀ s : Fin 8, times_closed r.paired.closings s.val
          = if at_ r.opened s.val then 1 else 0) ∧
      (∀ e ∈ r.paired.closings, 0 ≤ e.1 ∧ e.1 < 8 ∧ 0 ≤ e.2 ∧ e.2 < 8 ∧
          at_ r.opened e.1.toNat = true ∧ at_ r.opened e.2.toNat = true) ∧
      (∀ s : Fin 8, at_ r.paired.open_ s.val = false) ∧
      r.line_segments ≠ [] ∧
      ((∀ s : Fin 8, at_ r.opened s.val = false) →
        r.line_segments = [[⟨15, 8⟩, ⟨8, 8⟩], [⟨8, 8⟩, ⟨8, 15⟩], [⟨8, 15⟩, ⟨15, 15⟩],
          [⟨15, 15⟩, ⟨15, 8⟩]]) := by
  have hne : count_lakes (classify_neighbours dat.t_nesw) ≠ 0 := by omega
  obtain ⟨res, r, h1, h2, h3⟩ := mapgen_lake_shore_plan env seed dat ambient hne
  obtain ⟨r2, hr2, hprops⟩ := lake_shore_plan_spec (classify_neighbours dat.t_nesw)
  rw [h3] at hr2
  simp only [Option.some.injEq] at hr2
  subst hr2
  exact ⟨res, r, h1, h2, hprops⟩

theorem jitter_fold_independent {G A : Type} (env : lake_env G A) (segs : List (List point))
    (st1 st2 : jitter_state G) (hg : st1.prng = st2.prng)
    (hp : st1.polylines = st2.polylines) :
    (segs.foldl (jitter_step env) st1).prng = (segs.foldl (jitter_step env) st2).prng ∧
    (segs.foldl (jitter_step env) st1).polylines
      = (segs.foldl (jitter_step env) st2).polylines := by
  induction segs generalizing st1 st2 with
  | nil => exact ⟨hg, hp⟩
  | cons ls segs ih =>
    simp only [List.foldl_cons]
    apply ih
    · simp only [jitter_step, hg]
    · simp only [jitter_step, hg, hp]

theorem classify_neighbours_congr (t1 t2 : Nat → oter_t)
    (h : ∀ i : Fin 8, classify (t1 i.val) = classify (t2 i.val)) :
    classify_neighbours t1 = classify_neighbours t2 := by
  unfold classify_neighbours
  apply List.map_congr_left
  intro i hi
  exact h ⟨i, List.mem_range.1 hi⟩

/-- C8: the shoreline is a function of the tile's absolute x and y, the world
seed and the classes of the eight neighbours.  Two runs of `mapgen_lake_shore`
that agree on these return, with the same segment plan and the same polylines
(end points and the three jittered midpoints of every segment), whatever their
z-levels, lake depths, regions, buffers and ambient random states. -/
theorem shoreline_deterministic {G A : Type} (env : lake_env G A) (seed : Nat)
    (d1 d2 : mapgendata) (a1 a2 : A)
    (hx : d1.pos.x = d2.pos.x) (hy : d1.pos.y = d2.pos.y)
    (hc : ∀ i : Fin 8, classify (d1.t_nesw i.val) = classify (d2.t_nesw i.val)) :
    ∃ r1 r2, mapgen_lake_shore env seed d1 a1 = some r1 ∧
      mapgen_lake_shore env seed d2 a2 = some r2 ∧
      r1.plan = r2.plan ∧ r1.polylines = r2.polylines := by
  have hcl := classify_neighbours_congr d1.t_nesw d2.t_nesw hc
  obtain ⟨r, hr, _⟩ := lake_shore_plan_spec (classify_neighbours d2.t_nesw)
  unfold mapgen_lake_shore
  rw [hcl]
  by_cases h0 : count_lakes (classify_neighbours d2.t_nesw) = 0
  · simp only [h0, if_true]
    exact ⟨_, _, rfl, rfl, rfl, rfl⟩
  · simp only [h0, if_false, hr, Option.map_some']
    refine ⟨_, _, rfl, rfl, rfl, ?_⟩
    simp only [hx, hy]
    exact (jitter_fold_independent env r.line_segments
      ⟨_, (env.ground d1 a1).1, []⟩ ⟨_, (env.ground d2 a2).1, []⟩ rfl rfl).2

theorem mem_fill_corners (c : List n_type) :
    (nw_corner ∈ fill_corners c ↔
      (nb c 0 = n_type.lake ∨ nb c 7 = n_type.lake ∨ nb c 3 = n_type.lake)) ∧
    (sw_corner ∈ fill_corners c ↔
      (nb c 2 = n_type.lake ∨ nb c 6 = n_type.lake ∨ nb c 3 = n_type.lake)) ∧
    (ne_corner ∈ fill_corners c ↔
      (nb c 0 = n_type.lake ∨ nb c 4 = n_type.lake ∨ nb c 1 = n_type.lake)) ∧
    (se_corner ∈ fill_corners c ↔
      (nb c 2 = n_type.lake ∨ nb c 5 = n_type.lake ∨ nb c 1 = n_type.lake)) := by
  unfold fill_corners
  generalize nb c 0 = c0, nb c 1 = c1, nb c 2 = c2, nb c 3 = c3, nb c 4 = c4, nb c 5 = c5,
    nb c 6 = c6, nb c 7 = c7
  have hc : nw_corner ≠ sw_corner ∧ nw_corner ≠ ne_corner ∧ nw_corner ≠ se_corner ∧
      sw_corner ≠ ne_corner ∧ sw_corner ≠ se_corner ∧ ne_corner ≠ se_corner := by decide
  obtain ⟨h1, h2, h3, h4, h5, h6⟩ := hc
  simp only [beq_iff_eq, Bool.or_eq_true, List.mem_append, decide_eq_true_eq]
  refine ⟨?_, ?_, ?_, ?_⟩ <;>
    (by_cases e0 : c0 = n_type.lake <;> by_cases e1 : c1 = n_type.lake <;>
      by_cases e2 : c2 = n_type.lake <;> by_cases e3 : c3 = n_type.lake <;>
      by_cases e4 : c4 = n_type.lake <;> by_cases e5 : c5 = n_type.lake <;>
      by_cases e6 : c6 = n_type.lake <;> by_cases e7 : c7 = n_type.lake <;>
      simp [e0, e1, e2, e3, e4, e5, e6, e7, h1, h2, h3, h4, h5, h6, Ne.symm h1, Ne.symm h2,
        Ne.symm h3, Ne.symm h4, Ne.symm h5, Ne.symm h6])

theorem nb_classify (t : Nat → oter_t) (i : Fin 8) :
    nb (classify_neighbours t) i.val = classify (t i.val) := by
  fin_cases i <;> rfl

theorem no_lake_of_count (c : List n_type) (h : count_lakes c = 0) (t : n_type)
    (ht : t ∈ c) : t ≠ n_type.lake := by
  unfold count_lakes at h
  have h2 : (c.filter fun t => t == n_type.lake) = [] := by
    apply List.eq_nil_of_length_eq_zero
    omega
  rw [List.filter_eq_nil_iff] at h2
  intro e
  exact h2 t ht (by simp [e])

theorem classify_mem (t : Nat → oter_t) (i : Fin 8) :
    classify (t i.val) ∈ classify_neighbours t := by
  unfold classify_neighbours
  exact List.mem_map.2 ⟨i.val, List.mem_range.2 i.isLt, rfl⟩

theorem fill_starts_eq {G A : Type} (env : lake_env G A) (seed : Nat) (dat : mapgendata)
    (ambient : A) :
    ∃ res, mapgen_lake_shore env seed dat ambient = some res ∧
      res.fill_starts = fill_corners (classify_neighbours dat.t_nesw) := by
  by_cases h0 : count_lakes (classify_neighbours dat.t_nesw) = 0
  · refine ⟨_, by unfold mapgen_lake_shore; rw [if_pos h0], ?_⟩
    have hno : ∀ i : Fin 8, nb (classify_neighbours dat.t_nesw) i.val ≠ n_type.lake := by
      intro i
      rw [nb_classify]
      exact no_lake_of_count _ h0 _ (classify_mem dat.t_nesw i)
    have h0' := hno 0
    have h1' := hno 1
    have h2' := hno 2
    have h3' := hno 3
    have h4' := hno 4
    have h5' := hno 5
    have h6' := hno 6
    have h7' := hno 7
    simp only [Fin.val_zero, Fin.val_one, Fin.val_two] at h0' h1' h2'
    simp only [fill_corners]
    simp [h0', h1', h2', show nb (classify_neighbours dat.t_nesw) 3 ≠ n_type.lake from h3',
      show nb (classify_neighbours dat.t_nesw) 4 ≠ n_type.lake from h4',
      show nb (classify_neighbours dat.t_nesw) 5 ≠ n_type.lake from h5',
      show nb (classify_neighbours dat.t_nesw) 6 ≠ n_type.lake from h6',
      show nb (classify_neighbours dat.t_nesw) 7 ≠ n_type.lake from h7']
  · obtain ⟨res, r, h1, _, h3⟩ := mapgen_lake_shore_plan env seed dat ambient h0
    refine ⟨res, h1, ?_⟩
    unfold mapgen_lake_shore at h1
    simp only [h0, if_false, h3, Option.map_some', Option.some.injEq] at h1
    rw [← h1]

/-- C9: `mapgen_lake_shore` starts the deep-water flood fill from a corner of the
buffer exactly when one of the three neighbours touching that corner is lake:
NW iff N, NW or W; SW iff S, SW or W; NE iff N, NE or E; SE iff S, SE or E.  So
when S is lake both SW and SE are start points, and when S is the only lake
neighbour the start points are SW and SE and no others. -/
theorem deep_water_fill_corners {G A : Type} (env : lake_env G A) (seed : Nat)
    (dat : mapgendata) (ambient : A) :
    ∃ res, mapgen_lake_shore env seed dat ambient = some res ∧
      (nw_corner ∈ res.fill_starts ↔
        (classify (dat.t_nesw 0) = n_type.lake ∨ classify (dat.t_nesw 7) = n_type.lake ∨
          classify (dat.t_nesw 3) = n_type.lake)) ∧
      (sw_corner ∈ res.fill_starts ↔
        (classify (dat.t_nesw 2) = n_type.lake ∨ classify (dat.t_nesw 6) = n_type.lake ∨
          classify (dat.t_nesw 3) = n_type.lake)) ∧
      (ne_corner ∈ res.fill_starts ↔
        (classify (dat.t_nesw 0) = n_type.lake ∨ classify (dat.t_nesw 4) = n_type.lake ∨
          classify (dat.t_nesw 1) = n_type.lake)) ∧
      (se_corner ∈ res.fill_starts ↔
        (classify (dat.t_nesw 2) = n_type.lake ∨ classify (dat.t_nesw 5) = n_type.lake ∨
          classify (dat.t_nesw 1) = n_type.lake)) ∧
      (classify (dat.t_nesw 2) = n_type.lake →
        sw_corner ∈ res.fill_starts ∧ se_corner ∈ res.fill_starts) ∧
      (classify (dat.t_nesw 2) = n_type.lake →
        (∀ i : Fin 8, i.val ≠ 2 → classify (dat.t_nesw i.val) ≠ n_type.lake) →
        res.fill_starts = [sw_corner, se_corner]) := by
  obtain ⟨res, hres, hst⟩ := fill_starts_eq env seed dat ambient
  obtain ⟨m1, m2, m3, m4⟩ := mem_fill_corners (classify_neighbours dat.t_nesw)
  have e : ∀ i : Fin 8, nb (classify_neighbours dat.t_nesw) i.val = classify (dat.t_nesw i.val) :=
    nb_classify dat.t_nesw
  have e0 := e 0
  have e1 := e 1
  have e2 := e 2
  have e3 := e 3
  have e4 := e 4
  have e5 := e 5
  have e6 := e 6
  have e7 := e 7
  simp only [Fin.val_zero, Fin.val_one, Fin.val_two] at e0 e1 e2
  change nb (classify_neighbours dat.t_nesw) 3 = classify (dat.t_nesw 3) at e3
  change nb (classify_neighbours dat.t_nesw) 4 = classify (dat.t_nesw 4) at e4
  change nb (classify_neighbours dat.t_nesw) 5 = classify (dat.t_nesw 5) at e5
  change nb (classify_neighbours dat.t_nesw) 6 = classify (dat.t_nesw 6) at e6
  change nb (classify_neighbours dat.t_nesw) 7 = classify (dat.t_nesw 7) at e7
  rw [e0, e7, e3] at m1
  rw [e2, e6, e3] at m2
  rw [e0, e4, e1] at m3
  rw [e2, e5, e1] at m4
  refine ⟨res, hres, ?_, ?_, ?_, ?_, ?_, ?_⟩
  · rw [hst]; exact m1
  · rw [hst]; exact m2
  · rw [hst]; exact m3
  · rw [hst]; exact m4
  · intro hs
    rw [hst]
    exact ⟨m2.2 (Or.inl hs), m4.2 (Or.inl hs)⟩
  · intro hs hothers
    rw [hst]
    have h0 := hothers 0 (by decide)
    have h1 := hothers 1 (by decide)
    have h3 := hothers 3 (by decide)
    have h4 := hothers 4 (by decide)
    have h5 := hothers 5 (by decide)
    have h6 := hothers 6 (by decide)
    have h7 := hothers 7 (by decide)
    simp only [Fin.val_zero, Fin.val_one] at h0 h1
    change classify (dat.t_nesw 3) ≠ n_type.lake at h3
    change classify (dat.t_nesw 4) ≠ n_type.lake at h4
    change classify (dat.t_nesw 5) ≠ n_type.lake at h5
    change classify (dat.t_nesw 6) ≠ n_type.lake at h6
    change classify (dat.t_nesw 7) ≠ n_type.lake at h7
    simp only [fill_corners, e0, e1, e2, e3, e4, e5, e6, e7]
    simp [hs, h0, h1, h3, h4, h5, h6, h7]

/-! ## Lake shore: the line drawn and the flood fill -/

theorem pairing_step_fallback (slots : List (Option point)) (water : List Bool)
    (st st1 : pairing_state) (i : Nat)
    (h : pairing_step slots water st i = some st1)
    (hinv : fallback_recorded slots water st) : fallback_recorded slots water st1 := by
  unfold pairing_step at h
  by_cases ho : at_ st.open_ i = true
  · simp only [ho, Bool.not_true, Bool.false_eq_true, if_false] at h
    cases hp : scan_loop (fun j => at_ st.open_ j.toNat) (i : Int)
        (if slot_contains slots ((i : Int) + if i % 2 = 0 then 1 else -1) = true
          then -(if i % 2 = 0 then (1 : Int) else -1) else if i % 2 = 0 then 1 else -1) 8
        (modulo ((i : Int) + if slot_contains slots ((i : Int) + if i % 2 = 0 then 1 else -1)
          = true then -(if i % 2 = 0 then (1 : Int) else -1) else if i % 2 = 0 then 1 else -1)
          8) with
    | none =>
      rw [hp] at h
      simp at h
    | some pair =>
      rw [hp] at h
      simp only [Option.some_bind] at h
      by_cases hpi : pair = (i : Int)
      · simp only [hpi, if_true] at h
        cases hf : fallback_scan slots water i with
        | none =>
          unfold fallback_scan scan_dir at hf
          simp only [hf, Option.map_none'] at h
          simp at h
        | some fb =>
          have hf2 := hf
          unfold fallback_scan scan_dir at hf
          simp only [hf, Option.map_some', Option.some.injEq] at h
          subst h
          intro e he heq
          simp only [List.mem_append, List.mem_singleton] at he
          rcases he with he | he
          · obtain ⟨h0, fb1, hfb1, hs⟩ := hinv e he heq
            exact ⟨h0, fb1, hfb1, fun s hs1 => List.mem_append_left _ (hs s hs1)⟩
          · subst he
            refine ⟨Int.ofNat_nonneg i, fb, ?_, fun s hs1 => List.mem_append_right _ hs1⟩
            simpa using hf2
      · have hne : ∀ segs : List (List point), ∀ e : Int × Int,
            e ∈ st.closings ++ [((i : Int), pair)] → e.2 = e.1 →
            fallback_recorded slots water st → 0 ≤ e.1 ∧
            ∃ fb, fallback_scan slots water e.1.toNat = some fb ∧
              ∀ s ∈ fallback_segments slots e.1 fb, s ∈ st.line_segments ++ segs := by
          intro segs e he heq hi
          simp only [List.mem_append, List.mem_singleton] at he
          rcases he with he | he
          · obtain ⟨h0, fb1, hfb1, hs⟩ := hi e he heq
            exact ⟨h0, fb1, hfb1, fun s hs1 => List.mem_append_left _ (hs s hs1)⟩
          · subst he
            exact absurd heq hpi
        simp only [hpi, if_false] at h
        split_ifs at h <;>
          (simp only [Option.map_some', Option.some.injEq] at h
           subst h
           exact fun e he heq => hne _ e he heq hinv)
  · simp only [Bool.not_eq_true] at ho
    simp only [ho, Bool.not_false, if_true, Option.some.injEq] at h
    subst h
    exact hinv

theorem pairing_fold_fallback (slots : List (Option point)) (water : List Bool)
    (l : List Nat) (st st1 : pairing_state)
    (h : l.foldlM (pairing_step slots water) st = some st1)
    (hinv : fallback_recorded slots water st) : fallback_recorded slots water st1 := by
  induction l generalizing st with
  | nil =>
    simp only [List.foldlM_nil, Option.pure_def, Option.some.injEq] at h
    subst h
    exact hinv
  | cons i l ih =>
    simp only [List.foldlM_cons, Option.bind_eq_bind] at h
    cases h1 : pairing_step slots water st i with
    | none =>
      rw [h1] at h
      simp at h
    | some st2 =>
      rw [h1] at h
      simp only [Option.some_bind] at h
      exact ih st2 h (pairing_step_fallback slots water st st2 i h1 hinv)

theorem fallback_scan_cases : ∀ (i : Fin 8) (d n w s e : Bool),
    ((scan_loop (fun j => !at_ [n, n, w, w, s, s, e, e] j.toNat) (i.val : Int)
        (if d then 1 else -1) 8 (modulo ((i.val : Int) + (if d then 1 else -1)) 8)).any
      fun fb => decide (0 ≤ fb ∧ fb < 8 ∧
        ((at_ [n, n, w, w, s, s, e, e] fb.toNat = false ∧
            (if fallback_neighbour fb = 0 then n else if fallback_neighbour fb = 3 then w
              else if fallback_neighbour fb = 2 then s else e) = false) ∨
          (fb = (i.val : Int) ∧ n = true ∧ w = true ∧ s = true ∧ e = true)))) = true := by
  decide

theorem scan_dir_cases (slots : List (Option point)) (i : Nat) :
    ∃ d : Bool, scan_dir slots i = if d then 1 else -1 := by
  unfold scan_dir
  dsimp only
  split_ifs
  · exact ⟨false, by simp⟩
  · exact ⟨true, by simp⟩
  · exact ⟨true, by simp⟩
  · exact ⟨false, by simp⟩

/-- The fallback of an unpaired slot: a side with a solid neighbour when there is
one, the slot itself otherwise. -/
theorem fallback_scan_spec (slots : List (Option point)) (c : List n_type) (i : Nat)
    (hi : i < 8) :
    ∃ fb, fallback_scan slots (water_sides c) i = some fb ∧ 0 ≤ fb ∧ fb < 8 ∧
      ((∃ k : Fin 4, nb c k.val = n_type.solid) → nb c (fallback_neighbour fb) = n_type.solid) ∧
      ((∀ k : Fin 4, nb c k.val ≠ n_type.solid) → fb = (i : Int)) := by
  obtain ⟨d, hd⟩ := scan_dir_cases slots i
  have h := fallback_scan_cases ⟨i, hi⟩ d (nb c 0 != n_type.solid) (nb c 3 != n_type.solid)
    (nb c 2 != n_type.solid) (nb c 1 != n_type.solid)
  unfold fallback_scan
  rw [hd]
  have hw : water_sides c = [nb c 0 != n_type.solid, nb c 0 != n_type.solid,
      nb c 3 != n_type.solid, nb c 3 != n_type.solid, nb c 2 != n_type.solid,
      nb c 2 != n_type.solid, nb c 1 != n_type.solid, nb c 1 != n_type.solid] := rfl
  rw [hw]
  cases hs : scan_loop (fun j => !at_ [nb c 0 != n_type.solid, nb c 0 != n_type.solid,
      nb c 3 != n_type.solid, nb c 3 != n_type.solid, nb c 2 != n_type.solid,
      nb c 2 != n_type.solid, nb c 1 != n_type.solid, nb c 1 != n_type.solid] j.toNat)
      (i : Int) (if d = true then 1 else -1) 8
      (modulo ((i : Int) + (if d = true then 1 else -1)) 8) with
  | none =>
    simp only [hs, Option.any] at h
    exact absurd h (by decide)
  | some fb =>
    simp only [hs, Option.any, decide_eq_true_eq] at h
    obtain ⟨h0, h8, hcase⟩ := h
    refine ⟨fb, rfl, h0, h8, ?_, ?_⟩
    · rintro ⟨k, hk⟩
      rcases hcase with ⟨_, hside⟩ | ⟨_, hn, hw2, hs2, he⟩
      · have hr : fallback_neighbour fb = 0 ∨ fallback_neighbour fb = 3 ∨
            fallback_neighbour fb = 2 ∨ fallback_neighbour fb = 1 := by
          unfold fallback_neighbour
          split_ifs <;> simp
        rcases hr with hr | hr | hr | hr <;> rw [hr] at hside ⊢ <;> simpa using hside
      · exfalso
        fin_cases k
        · simp [hk] at hn
        · simp [hk] at he
        · simp [hk] at hs2
        · simp [hk] at hw2
    · intro hall
      rcases hcase with ⟨_, hside⟩ | ⟨hfb, _⟩
      · exfalso
        have hr : fallback_neighbour fb = 0 ∨ fallback_neighbour fb = 3 ∨
            fallback_neighbour fb = 2 ∨ fallback_neighbour fb = 1 := by
          unfold fallback_neighbour
          split_ifs <;> simp
        rcases hr with hr | hr | hr | hr <;> rw [hr] at hside
        · exact hall 0 (by simpa using hside)
        · exact hall 3 (by simpa using hside)
        · exact hall 2 (by simpa using hside)
        · exact hall 1 (by simpa using hside)
      · exact hfb

theorem fallback_segments_eq (slots : List (Option point)) (i fb : Int) (h8 : fb < 8) :
    fallback_segments slots i fb = [[slot_at slots i, fallback_midpoint fb]] := by
  unfold fallback_segments fallback_midpoint
  split_ifs <;> rfl

/-- C11 (amended): for every neighbour classification with at least one lake,
`mapgen_lake_shore` returns, and for every slot left unpaired the scan of the
fallback branch ends with an index `fb` in 0..7 and the segment from the slot to
the midpoint of side `fb` is among the line segments; the cardinal neighbour on
that side is solid whenever at least one of the four cardinal neighbours is
solid, and when none is solid `fb` is the slot itself, so the segment ends on
the slot's own side. -/
theorem fallback_side_solid {G A : Type} (env : lake_env G A) (seed : Nat)
    (dat : mapgendata) (ambient : A)
    (hl : 1 ≤ count_lakes (classify_neighbours dat.t_nesw)) :
    ∃ res r, mapgen_lake_shore env seed dat ambient = some res ∧ res.plan = some r ∧
      ∀ e ∈ r.paired.closings, e.2 = e.1 →
        ∃ fb, fallback_scan (open_slots (lake_shore_slots (classify_neighbours dat.t_nesw))).2
            (water_sides (classify_neighbours dat.t_nesw)) e.1.toNat = some fb ∧
          0 ≤ fb ∧ fb < 8 ∧
          [slot_at (open_slots (lake_shore_slots (classify_neighbours dat.t_nesw))).2 e.1,
            fallback_midpoint fb] ∈ r.line_segments ∧
          ((∃ k : Fin 4, nb (classify_neighbours dat.t_nesw) k.val = n_type.solid) →
            nb (classify_neighbours dat.t_nesw) (fallback_neighbour fb) = n_type.solid) ∧
          ((∀ k : Fin 4, nb (classify_neighbours dat.t_nesw) k.val ≠ n_type.solid) →
            fb = e.1) := by
  obtain ⟨res, r, hres, hplan, hlp⟩ := mapgen_lake_shore_plan env seed dat ambient (by omega)
  refine ⟨res, r, hres, hplan, ?_⟩
  generalize classify_neighbours dat.t_nesw = c at hlp
  obtain ⟨r1, hr1, _, _, hrange, _⟩ := lake_shore_plan_spec c
  rw [hlp] at hr1
  cases hr1
  unfold lake_shore_plan at hlp
  cases hst : pairing_loop (open_slots (lake_shore_slots c)).2 (water_sides c)
      ⟨(open_slots (lake_shore_slots c)).1, [], []⟩ with
  | none =>
    simp only [hst, Option.map_none'] at hlp
    exact absurd hlp (by simp)
  | some st =>
    simp only [hst, Option.map_some', Option.some.injEq] at hlp
    have hinv := pairing_fold_fallback _ _ (List.range 8) _ st hst
      (fun e he => absurd he (List.not_mem_nil e))
    subst hlp
    intro e he heq
    obtain ⟨h0, fb, hfb, hsegs⟩ := hinv e he heq
    obtain ⟨_, h8, _⟩ := hrange e he
    obtain ⟨fb1, hfb1, hf0, hf8, hsolid, hself⟩ :=
      fallback_scan_spec (open_slots (lake_shore_slots c)).2 c e.1.toNat (by omega)
    rw [hfb] at hfb1
    cases hfb1
    have hmem := hsegs _ (by rw [fallback_segments_eq _ _ _ hf8]; exact List.mem_singleton_self _)
    refine ⟨fb, hfb, hf0, hf8, ?_, hsolid, ?_⟩
    · have hne : st.line_segments.isEmpty = false := by
        cases hls : st.line_segments with
        | nil => rw [hls] at hmem; exact absurd hmem (List.not_mem_nil _)
        | cons a l => rfl
      simp only [hne, Bool.false_eq_true, if_false]
      exact hmem
    · intro hall
      have := hself hall
      rw [this, Int.toNat_of_nonneg h0]

/-- C11 (counterexample): on the sample tile with a lake to the North-West, lake
shore to the North, East, South and South-West and a river bank to the West,
slot 0 is the only slot and stays unpaired; none of the four cardinal
neighbours is solid, the fallback is the slot itself, and the one segment ends
at the midpoint (11, 0) of the northern side, whose neighbour is a lake
shore. -/
theorem cove_fallback_not_solid :
    1 ≤ count_lakes (classify_neighbours sample_dat_cove.t_nesw) ∧
    ∃ res r, mapgen_lake_shore sample_env 7 sample_dat_cove 1 = some res ∧
      res.plan = some r ∧
      r.paired.closings = [(0, 0)] ∧
      fallback_scan (open_slots (lake_shore_slots (classify_neighbours sample_dat_cove.t_nesw))).2
        (water_sides (classify_neighbours sample_dat_cove.t_nesw)) 0 = some 0 ∧
      r.line_segments = [[⟨7, 0⟩, fallback_midpoint 0]] ∧
      fallback_midpoint 0 = ⟨11, 0⟩ ∧
      nb (classify_neighbours sample_dat_cove.t_nesw) (fallback_neighbour 0) = n_type.shore := by
  refine ⟨by decide, ?_⟩
  obtain ⟨res, r, hres, hplan, hlp⟩ :=
    mapgen_lake_shore_plan sample_env 7 sample_dat_cove 1 (by decide)
  have hd : (lake_shore_plan (classify_neighbours sample_dat_cove.t_nesw)).map
      (fun r => (r.paired.closings, r.line_segments))
      = some ([(0, 0)], [[⟨7, 0⟩, fallback_midpoint 0]]) := by decide
  rw [hlp] at hd
  simp only [Option.map_some', Option.some.injEq, Prod.mk.injEq] at hd
  exact ⟨res, r, hres, hplan, hd.1, by decide, hd.2, by decide, by decide⟩

/-! ## Lake shore: classification and the early return -/

theorem count_lakes_zero (c : List n_type) :
    count_lakes c = 0 ↔ ∀ t ∈ c, t ≠ n_type.lake := by
  unfold count_lakes
  constructor
  · intro h t ht hl
    have h0 : (c.filter fun t => t == n_type.lake) = [] := by
      have : (c.filter fun t => t == n_type.lake).length = 0 := by exact_mod_cast h
      exact List.length_eq_zero.mp this
    have hm : t ∈ c.filter fun t => t == n_type.lake := by
      rw [List.mem_filter]
      exact ⟨ht, by simp [hl]⟩
    rw [h0] at hm
    exact absurd hm (List.not_mem_nil t)
  · intro h
    have h0 : (c.filter fun t => t == n_type.lake) = [] := by
      rw [List.filter_eq_nil_iff]
      intro t ht
      simpa using h t ht
    rw [h0]
    rfl

theorem classify_cases (n : oter_t) :
    (classify n = n_type.lake ↔ (n.is_river_center = true ∨ n.is_lake = true)) ∧
    (classify n = n_type.shore ↔
      (n.is_river_center = false ∧ n.is_lake = false ∧ n.is_lake_shore = true)) ∧
    (classify n = n_type.river ↔
      (n.is_river_center = false ∧ n.is_lake = false ∧ n.is_lake_shore = false ∧
        n.is_river = true)) ∧
    (classify n = n_type.solid ↔
      (n.is_river_center = false ∧ n.is_lake = false ∧ n.is_lake_shore = false ∧
        n.is_river = false)) := by
  obtain ⟨a, b, c, d⟩ := n
  cases a <;> cases b <;> cases c <;> cases d <;> simp [classify]

/-- C12: each neighbour is classified lake when it is `river_center` or
`is_lake`, otherwise shore when `is_lake_shore`, otherwise river when
`is_river`, otherwise solid; and when none of the eight neighbours is
classified lake the counter `lakes` is 0 and `mapgen_lake_shore` returns with
the buffer and the ambient random state exactly as the ground phase left them:
no plan of slots, no polyline drawn, no flood fill started, no cell filled. -/
theorem lake_shore_without_lake {G A : Type} (env : lake_env G A) (seed : Nat)
    (dat : mapgendata) (ambient : A)
    (h : ∀ i : Fin 8, classify (dat.t_nesw i.val) ≠ n_type.lake) :
    (∀ n : oter_t,
      (classify n = n_type.lake ↔ (n.is_river_center = true ∨ n.is_lake = true)) ∧
      (classify n = n_type.shore ↔
        (n.is_river_center = false ∧ n.is_lake = false ∧ n.is_lake_shore = true)) ∧
      (classify n = n_type.river ↔
        (n.is_river_center = false ∧ n.is_lake = false ∧ n.is_lake_shore = false ∧
          n.is_river = true)) ∧
      (classify n = n_type.solid ↔
        (n.is_river_center = false ∧ n.is_lake = false ∧ n.is_lake_shore = false ∧
          n.is_river = false))) ∧
    (∀ i : Fin 8, nb (classify_neighbours dat.t_nesw) i.val = classify (dat.t_nesw i.val)) ∧
    count_lakes (classify_neighbours dat.t_nesw) = 0 ∧
    ∃ res, mapgen_lake_shore env seed dat ambient = some res ∧
      res.m = (env.ground dat ambient).1 ∧
      res.ambient = (env.ground dat ambient).2 ∧
      res.plan = none ∧ res.polylines = [] ∧ res.fill_starts = [] ∧ res.filled = [] := by
  have hc : count_lakes (classify_neighbours dat.t_nesw) = 0 := by
    rw [count_lakes_zero]
    intro t ht
    unfold classify_neighbours at ht
    rw [List.mem_map] at ht
    obtain ⟨i, hi, rfl⟩ := ht
    rw [List.mem_range] at hi
    exact h ⟨i, hi⟩
  refine ⟨classify_cases, nb_classify dat.t_nesw, hc, ?_⟩
  unfold mapgen_lake_shore
  simp only [hc, if_true]
  exact ⟨_, rfl, rfl, rfl, rfl, rfl, rfl, rfl⟩

/-! ## Forest: the weights of the blended feature pool -/

theorem margins : margin_x = 8 ∧ margin_y = 8 ∧ SEEX * 2 - 8 = 16 ∧ SEEY * 2 - 8 = 16 := by
  decide

theorem weight_formulas (p : point) :
    west_weight p = max (8 - p.x) 0 ∧ east_weight p = max (p.x - 15) 0 ∧
    north_weight p = max (8 - p.y) 0 ∧ south_weight p = max (p.y - 15) 0 := by
  obtain ⟨mx8, my8, ex, ey⟩ := margins
  unfold west_weight east_weight north_weight south_weight
  rw [mx8, my8, ex, ey]
  refine ⟨rfl, ?_, rfl, ?_⟩ <;> congr 1 <;> omega

/-- The pool of every cell, section by section, with the margins evaluated. -/
theorem feature_pool_sections {F : Type} (M f : Int) (dat : adjacency_factors)
    (ft : blend_features F) (p : point) :
    feature_pool M f dat ft p =
      if p.x < 8 then
        if p.y < 8 then
          [(ft.no_ter_furn, 3 * M - (dat.n_fac + dat.w_fac + f * 2)), (ft.self_feature, 1),
            (ft.west_feature, west_weight p), (ft.north_feature, north_weight p)]
        else if p.y > 16 then
          [(ft.no_ter_furn, 3 * M - (dat.s_fac + dat.w_fac + f * 2)), (ft.self_feature, f),
            (ft.west_feature, west_weight p), (ft.south_feature, south_weight p)]
        else
          [(ft.no_ter_furn, 2 * M - (dat.w_fac + f * 2)), (ft.self_feature, f),
            (ft.west_feature, west_weight p)]
      else if p.x > 16 then
        if p.y < 8 then
          [(ft.no_ter_furn, 3 * M - (dat.n_fac + dat.e_fac + f * 2)), (ft.self_feature, f),
            (ft.east_feature, east_weight p), (ft.north_feature, north_weight p)]
        else if p.y > 16 then
          [(ft.no_ter_furn, 3 * M - (dat.s_fac + dat.e_fac + f * 2)), (ft.self_feature, f),
            (ft.east_feature, east_weight p), (ft.south_feature, south_weight p)]
        else
          [(ft.no_ter_furn, 2 * M - (dat.e_fac + f * 2)), (ft.self_feature, f),
            (ft.east_feature, east_weight p)]
      else
        if p.y < 8 then
          [(ft.no_ter_furn, 2 * M - (dat.n_fac + f * 2)), (ft.self_feature, f),
            (ft.north_feature, north_weight p)]
        else if p.y > 16 then
          [(ft.no_ter_furn, 2 * M - (dat.s_fac + f * 2)), (ft.self_feature, f),
            (ft.south_feature, south_weight p)]
        else
          [(ft.no_ter_furn, M - f * 2), (ft.self_feature, f)] := by
  obtain ⟨mx8, my8, ex, ey⟩ := margins
  unfold feature_pool
  rw [mx8, my8, ex, ey]

theorem weights_nonneg (p : point) :
    0 ≤ west_weight p ∧ 0 ≤ east_weight p ∧ 0 ≤ north_weight p ∧ 0 ≤ south_weight p := by
  unfold west_weight east_weight north_weight south_weight
  exact ⟨le_max_right _ _, le_max_right _ _, le_max_right _ _, le_max_right _ _⟩

theorem blended_neighbours_sections (p : point) :
    blended_neighbours p =
      (if p.x < 8 then [3] else if p.x > 16 then [1] else []) ++
      (if p.y < 8 then [0] else if p.y > 16 then [2] else []) := by
  obtain ⟨mx8, my8, ex, ey⟩ := margins
  unfold blended_neighbours
  rw [mx8, my8, ex, ey]

/-- C13 (amended): for every cell and every local factor that is not negative,
the placeholder is handed to the pool first, with the weight `(1 + k) *
max_factor - (2 * factor + sum of factor + neighbour factor over the k blended
neighbours)`; that weight is not negative exactly when the sum is at most
`(1 + k) * max_factor`; every weight handed to the pool after it (the self
feature and the neighbour features) is not negative. -/
theorem feature_pool_weights {F : Type} (max_factor factor : Int)
    (neighbour_factor : Nat → Int) (ft : blend_features F) (p : point)
    (hf : 0 ≤ factor) :
    (feature_pool max_factor factor (fill_adjacency_factor factor neighbour_factor) ft p).head?
      = some (ft.no_ter_furn, placeholder_weight max_factor factor neighbour_factor p) ∧
    (0 ≤ placeholder_weight max_factor factor neighbour_factor p ↔
      2 * factor + ((blended_neighbours p).map fun i => factor + neighbour_factor i).sum
        ≤ (1 + ((blended_neighbours p).length : Int)) * max_factor) ∧
    ∀ e ∈ (feature_pool max_factor factor (fill_adjacency_factor factor neighbour_factor)
      ft p).tail, 0 ≤ e.2 := by
  obtain ⟨hw, he, hn, hs⟩ := weights_nonneg p
  refine ⟨?_, ?_, ?_⟩
  · rw [feature_pool_sections]
    unfold placeholder_weight
    rw [blended_neighbours_sections]
    unfold fill_adjacency_factor
    split_ifs <;> simp <;> ring
  · unfold placeholder_weight
    omega
  · rw [feature_pool_sections]
    intro e he1
    split_ifs at he1 <;>
      simp only [List.tail_cons, List.mem_cons, List.mem_singleton, List.not_mem_nil,
        or_false] at he1 <;>
      (rcases he1 with rfl | rfl | rfl) <;>
      first | exact hf | exact hw | exact he | exact hn | exact hs | exact zero_le_one

/-- C13 (counterexample): at the centre cell (12, 12), with the local factor,
the largest factor and the four neighbour factors all equal to 1, the
placeholder is handed to the pool with weight -1. -/
theorem centre_placeholder_negative :
    (0 : Int) ≤ 1 ∧ (1 : Int) ≤ 1 ∧
    ((feature_name.none_, (-1 : Int)) ∈
      feature_pool 1 1 (fill_adjacency_factor 1 fun _ => 1) named_features ⟨12, 12⟩) ∧
    ¬ ∀ e ∈ feature_pool 1 1 (fill_adjacency_factor 1 fun _ => 1) named_features ⟨12, 12⟩,
      0 ≤ e.2 := by
  decide

/-- C14: for every cell of the central section (8 <= x <= 16 and 8 <= y <= 16,
both margins being 8) the pool gets exactly two entries, the placeholder with
weight `max_factor - 2 * factor` and the self feature with weight `factor`;
so for two runs that agree on `max_factor`, `factor`, the placeholder and the
self feature the pools and the features drawn are the same, whatever the
adjacency factors and the features of the neighbours. -/
theorem centre_pool_self_only {F : Type} (pick : List (F × Int) → Option F)
    (max_factor factor : Int) (dat1 dat2 : adjacency_factors) (ft1 ft2 : blend_features F)
    (p : point) (hx1 : 8 ≤ p.x) (hx2 : p.x ≤ 16) (hy1 : 8 ≤ p.y) (hy2 : p.y ≤ 16)
    (hn : ft1.no_ter_furn = ft2.no_ter_furn) (hs : ft1.self_feature = ft2.self_feature) :
    margin_x = 8 ∧ margin_y = 8 ∧
    feature_pool max_factor factor dat1 ft1 p
      = [(ft1.no_ter_furn, max_factor - 2 * factor), (ft1.self_feature, factor)] ∧
    feature_pool max_factor factor dat1 ft1 p = feature_pool max_factor factor dat2 ft2 p ∧
    get_blended_feature pick max_factor factor dat1 ft1 p
      = get_blended_feature pick max_factor factor dat2 ft2 p := by
  have hpool : ∀ (dat : adjacency_factors) (ft : blend_features F),
      feature_pool max_factor factor dat ft p
        = [(ft.no_ter_furn, max_factor - 2 * factor), (ft.self_feature, factor)] := by
    intro dat ft
    rw [feature_pool_sections]
    have h1 : ¬ p.x < 8 := by omega
    have h2 : ¬ p.x > 16 := by omega
    have h3 : ¬ p.y < 8 := by omega
    have h4 : ¬ p.y > 16 := by omega
    simp only [h1, h2, h3, h4, if_false, mul_comm]
  refine ⟨margins.1, margins.2.1, hpool dat1 ft1, ?_, ?_⟩
  · rw [hpool dat1 ft1, hpool dat2 ft2, hn, hs]
  · unfold get_blended_feature
    rw [hpool dat1 ft1, hpool dat2 ft2, hn, hs]

/-- The self feature is handed to the pool once, with weight 1 in the north-west
corner section and with the local factor in the eight other sections. -/
theorem self_weight_sections (max_factor factor : Int) (dat : adjacency_factors) (p : point) :
    weights_of (feature_pool max_factor factor dat named_features p) feature_name.self
      = [if p.x < 8 ∧ p.y < 8 then 1 else factor] := by
  rw [feature_pool_sections]
  unfold weights_of named_features
  split_ifs <;> first | rfl | omega

/-- C15 (what the code does): the self feature is handed to the pool
once in every section, with the local factor in eight of the nine sections but
with the constant weight 1 in the north-west corner section; at cell (0, 0)
with local factor 3 the weight is 1, not 3. -/
theorem self_weight_nw_corner :
    (∀ (max_factor factor : Int) (dat : adjacency_factors) (p : point),
      weights_of (feature_pool max_factor factor dat named_features p) feature_name.self
        = [if p.x < 8 ∧ p.y < 8 then 1 else factor]) ∧
    weights_of (feature_pool 5 3 (fill_adjacency_factor 3 fun _ => 2) named_features ⟨0, 0⟩)
      feature_name.self = [1] ∧
    ∀ q ∈ [(⟨0, 12⟩ : point), ⟨0, 23⟩, ⟨12, 0⟩, ⟨12, 12⟩, ⟨12, 23⟩, ⟨23, 0⟩, ⟨23, 12⟩, ⟨23, 23⟩],
      weights_of (feature_pool 5 3 (fill_adjacency_factor 3 fun _ => 2) named_features q)
        feature_name.self = [3] :=
  ⟨self_weight_sections, by decide, by decide⟩

/-- C16 (what the code does): the four weights are as the claim
gives them and the east weight of a column is the west weight of the mirrored
column; the west feature is handed to the pool exactly in the columns below 8,
where the west weight is positive, but the east feature only in the columns
above 16, so that at cell (16, 12) the east weight is 1 and the pool holds the
placeholder and the self feature only, while the mirrored cell (7, 12) blends
the west feature with weight 1; rows 16 and 7 behave the same way for south and
north. -/
theorem blend_regions_not_mirrored :
    (∀ p : point, west_weight p = max (8 - p.x) 0 ∧ east_weight p = max (p.x - 15) 0 ∧
      north_weight p = max (8 - p.y) 0 ∧ south_weight p = max (p.y - 15) 0) ∧
    (∀ x y : Int, east_weight ⟨23 - x, y⟩ = west_weight ⟨x, y⟩ ∧
      south_weight ⟨x, 23 - y⟩ = north_weight ⟨x, y⟩) ∧
    (∀ (M f : Int) (dat : adjacency_factors) (p : point),
      (weights_of (feature_pool M f dat named_features p) feature_name.west ≠ [] ↔ p.x < 8) ∧
      (weights_of (feature_pool M f dat named_features p) feature_name.east ≠ [] ↔ 16 < p.x) ∧
      (weights_of (feature_pool M f dat named_features p) feature_name.north ≠ [] ↔ p.y < 8) ∧
      (weights_of (feature_pool M f dat named_features p) feature_name.south ≠ [] ↔
        16 < p.y)) ∧
    east_weight ⟨16, 12⟩ = 1 ∧
    feature_pool 5 3 (fill_adjacency_factor 3 fun _ => 2) named_features ⟨16, 12⟩
      = [(feature_name.none_, -1), (feature_name.self, 3)] ∧
    feature_pool 5 3 (fill_adjacency_factor 3 fun _ => 2) named_features ⟨7, 12⟩
      = [(feature_name.none_, -1), (feature_name.self, 3), (feature_name.west, 1)] ∧
    south_weight ⟨12, 16⟩ = 1 ∧
    feature_pool 5 3 (fill_adjacency_factor 3 fun _ => 2) named_features ⟨12, 16⟩
      = [(feature_name.none_, -1), (feature_name.self, 3)] ∧
    feature_pool 5 3 (fill_adjacency_factor 3 fun _ => 2) named_features ⟨12, 7⟩
      = [(feature_name.none_, -1), (feature_name.self, 3), (feature_name.north, 1)] := by
  refine ⟨weight_formulas, ?_, ?_, by decide, by decide, by decide, by decide, by decide,
    by decide⟩
  · intro x y
    obtain ⟨_, he, _, hs⟩ := weight_formulas ⟨23 - x, y⟩
    obtain ⟨_, _, _, hs2⟩ := weight_formulas ⟨x, 23 - y⟩
    obtain ⟨hw, _, hn, _⟩ := weight_formulas ⟨x, y⟩
    rw [he, hs2, hw, hn]
    dsimp only
    constructor <;> congr 1 <;> omega
  · intro M f dat p
    rw [feature_pool_sections]
    unfold weights_of named_features
    split_ifs <;> simp <;> omega

/-! ## Road plazas -/

theorem road_plaza_dir_chain (a : List Bool) :
    road_plaza_dir a = first_match a plaza_patterns := rfl

theorem compare_neswx_eight (a : List Bool) (p0 p1 p2 p3 p4 p5 p6 p7 : Int) :
    compare_neswx a [p0, p1, p2, p3, p4, p5, p6, p7] = true ↔
      ∀ k : Fin 8, at_ a k.val = decide ([p0, p1, p2, p3, p4, p5, p6, p7].getD k.val 0 ≠ 0) := by
  unfold compare_neswx
  rw [List.all_eq_true]
  constructor
  · intro h k
    have hk := h k.val (List.mem_range.2 k.isLt)
    exact (beq_iff_eq.1 hk).symm
  · intro h k hk
    have hk2 := h ⟨k, List.mem_range.1 hk⟩
    exact beq_iff_eq.2 hk2.symm

theorem plaza_patterns_eight : ∀ t ∈ plaza_patterns, t.1.length = 8 := by
  decide

theorem compare_neswx_plaza (a : List Bool) (t : List Int × Int) (ht : t ∈ plaza_patterns) :
    compare_neswx a t.1 = true ↔
      ∀ k : Fin 8, at_ a k.val = decide (t.1.getD k.val 0 ≠ 0) := by
  obtain ⟨p0, p1, p2, p3, p4, p5, p6, p7, hp⟩ := list_eight t.1 (plaza_patterns_eight t ht)
  rw [hp]
  exact compare_neswx_eight a p0 p1 p2 p3 p4 p5 p6 p7

theorem plaza_patterns_distinct : ∀ t1 ∈ plaza_patterns, ∀ t2 ∈ plaza_patterns,
    (∀ k : Fin 8, decide (t1.1.getD k.val 0 ≠ 0) = decide (t2.1.getD k.val 0 ≠ 0)) →
    t1 = t2 := by
  decide

theorem plaza_match_unique (a : List Bool) (t1 t2 : List Int × Int)
    (h1 : t1 ∈ plaza_patterns) (h2 : t2 ∈ plaza_patterns)
    (m1 : compare_neswx a t1.1 = true) (m2 : compare_neswx a t2.1 = true) : t1 = t2 := by
  rw [compare_neswx_plaza a t1 h1] at m1
  rw [compare_neswx_plaza a t2 h2] at m2
  exact plaza_patterns_distinct t1 h1 t2 h2 (fun k => by rw [← m1 k, ← m2 k])

theorem first_match_of_mem (a : List Bool) (l : List (List Int × Int))
    (huniq : ∀ t1 ∈ l, ∀ t2 ∈ l, compare_neswx a t1.1 = true → compare_neswx a t2.1 = true →
      t1 = t2)
    (t : List Int × Int) (ht : t ∈ l) (hm : compare_neswx a t.1 = true) :
    first_match a l = t.2 := by
  induction l with
  | nil => exact absurd ht (List.not_mem_nil t)
  | cons u rest ih =>
    unfold first_match
    by_cases hu : compare_neswx a u.1 = true
    · rw [if_pos hu]
      rw [huniq u (List.mem_cons_self _ _) t ht hu hm]
    · rw [if_neg hu]
      have htr : t ∈ rest := by
        rcases List.mem_cons.1 ht with h | h
        · rw [h] at hm
          exact absurd hm hu
        · exact h
      exact ih (fun t1 h1 t2 h2 => huniq t1 (List.mem_cons_of_mem _ h1) t2
        (List.mem_cons_of_mem _ h2)) htr

theorem first_match_none (a : List Bool) (l : List (List Int × Int))
    (hno : ∀ t ∈ l, compare_neswx a t.1 ≠ true) : first_match a l = -1 := by
  induction l with
  | nil => rfl
  | cons u rest ih =>
    unfold first_match
    rw [if_neg (hno u (List.mem_cons_self _ _))]
    exact ih (fun t ht => hno t (List.mem_cons_of_mem _ ht))

theorem first_match_perm (a : List Bool) (l : List (List Int × Int))
    (hl : l.Perm plaza_patterns) : first_match a l = first_match a plaza_patterns := by
  by_cases hex : ∃ t ∈ plaza_patterns, compare_neswx a t.1 = true
  · obtain ⟨t, ht, hm⟩ := hex
    rw [first_match_of_mem a l (fun t1 h1 t2 h2 => plaza_match_unique a t1 t2
        (hl.mem_iff.1 h1) (hl.mem_iff.1 h2)) t (hl.mem_iff.2 ht) hm,
      first_match_of_mem a plaza_patterns (fun t1 h1 t2 h2 => plaza_match_unique a t1 t2 h1 h2)
        t ht hm]
  · have hno : ∀ t ∈ plaza_patterns, compare_neswx a t.1 ≠ true :=
      fun t ht hm => hex ⟨t, ht, hm⟩
    rw [first_match_none a l (fun t ht => hno t (hl.mem_iff.1 ht)),
      first_match_none a plaza_patterns hno]

/-- C17: the nine plaza patterns are nine different lists of eight entries;
`compare_neswx` accepts an array for a pattern exactly when the eight entries
agree with it; so an array is accepted by at most one pattern, the chain of
`mapgen_road` yields the `plaza_dir` of that pattern and -1 when there is none,
and trying the nine patterns in any other order yields the same `plaza_dir`. -/
theorem plaza_dir_order_independent :
    plaza_patterns.length = 9 ∧
    (plaza_patterns.map Prod.fst).Nodup ∧
    (∀ t ∈ plaza_patterns, t.1.length = 8) ∧
    (∀ (a : List Bool), ∀ t ∈ plaza_patterns,
      (compare_neswx a t.1 = true ↔
        ∀ k : Fin 8, at_ a k.val = decide (t.1.getD k.val 0 ≠ 0))) ∧
    (∀ (a : List Bool), ∀ t1 ∈ plaza_patterns, ∀ t2 ∈ plaza_patterns,
      compare_neswx a t1.1 = true → compare_neswx a t2.1 = true → t1 = t2) ∧
    (∀ (a : List Bool), ∀ t ∈ plaza_patterns,
      compare_neswx a t.1 = true → road_plaza_dir a = t.2) ∧
    (∀ a : List Bool, (∀ t ∈ plaza_patterns, compare_neswx a t.1 ≠ true) →
      road_plaza_dir a = -1) ∧
    (∀ (a : List Bool) (l : List (List Int × Int)), l.Perm plaza_patterns →
      first_match a l = road_plaza_dir a) := by
  refine ⟨rfl, by decide, plaza_patterns_eight, compare_neswx_plaza, ?_, ?_, ?_, ?_⟩
  · exact fun a t1 h1 t2 h2 => plaza_match_unique a t1 t2 h1 h2
  · intro a t ht hm
    rw [road_plaza_dir_chain]
    exact first_match_of_mem a plaza_patterns
      (fun t1 h1 t2 h2 => plaza_match_unique a t1 t2 h1 h2) t ht hm
  · intro a hno
    rw [road_plaza_dir_chain]
    exact first_match_none a plaza_patterns hno
  · intro a l hl
    rw [road_plaza_dir_chain]
    exact first_match_perm a l hl

/-- C18: for every pattern index `k` in 0..7 the pattern of `plaza_dir = k` is
matched by the chain with exactly that `plaza_dir`, a four-way tile whose
neighbours show it gets `rot = k mod 4`, and `nesw_array_rotate` with `len = 8`
and distance `2 * (k mod 4)` turns the pattern into pattern 0 (E, S, W, SE, SW
set) for the four sides `k < 4` and into pattern 4 (S, W, SW set) for the four
corners; the centre pattern, index 8, gets `rot = 0`. -/
theorem plaza_rotation_normalizes :
    plaza_shape 0 = [false, true, true, true, false, true, true, false] ∧
    plaza_shape 4 = [false, false, true, true, false, false, true, false] ∧
    plaza_shape 8 = [true, true, true, true, true, true, true, true] ∧
    (∀ k : Fin 8,
      road_plaza_dir (plaza_shape (k.val : Int)) = (k.val : Int) ∧
      (mapgen_road_layout (fun _ => true) (fun d => at_ (plaza_shape (k.val : Int)) d)).map
          (fun l => (l.num_dirs, l.plaza_dir, l.rot))
        = some (4, (k.val : Int), ((k.val % 4 : Nat) : Int)) ∧
      nesw_array_rotate (plaza_shape (k.val : Int)) 8 (2 * (k.val % 4))
        = some (plaza_shape (if k.val < 4 then 0 else 4))) ∧
    road_plaza_dir (plaza_shape 8) = 8 ∧
    (mapgen_road_layout (fun _ => true) (fun d => at_ (plaza_shape 8) d)).map
        (fun l => (l.num_dirs, l.plaza_dir, l.rot)) = some (4, 8, 0) := by
  decide

theorem plaza_dir_cases : ∀ b0 b1 b2 b3 b4 b5 b6 b7 : Bool,
    (road_plaza_dir [b0, b1, b2, b3, b4, b5, b6, b7] = -1 ∨
      (0 ≤ road_plaza_dir [b0, b1, b2, b3, b4, b5, b6, b7] ∧
        road_plaza_dir [b0, b1, b2, b3, b4, b5, b6, b7] ≤ 8)) ∧
    ((b0 = false ∧ b1 = false ∧ b2 = false ∧ b3 = false) →
      road_plaza_dir [b0, b1, b2, b3, b4, b5, b6, b7] = -1) := by
  decide

/-- C19: for a tile connected in all four directions `mapgen_road` counts
`num_dirs = 4`; its `plaza_dir` is -1 or one of 0..8; `rot` is `plaza_dir mod
4` when a pattern matched and 0 when none did; and when none of the four
cardinal neighbours is a four-way road no pattern matches, so `plaza_dir = -1`
and `rot = 0`. -/
theorem four_way_plaza_dir (hc fourways : Nat → Bool) (hall : ∀ d : Fin 4, hc d.val = true) :
    ∃ l, mapgen_road_layout hc fourways = some l ∧ l.num_dirs = 4 ∧
      l.plaza_dir = road_plaza_dir ((List.range 8).map fourways) ∧
      (l.plaza_dir = -1 ∨ (0 ≤ l.plaza_dir ∧ l.plaza_dir ≤ 8)) ∧
      (l.plaza_dir > -1 → l.rot = l.plaza_dir % 4) ∧
      (l.plaza_dir = -1 → l.rot = 0) ∧
      ((∀ d : Fin 4, fourways d.val = false) → l.plaza_dir = -1 ∧ l.rot = 0) := by
  have h0 := hall 0
  have h1 := hall 1
  have h2 := hall 2
  have h3 := hall 3
  simp only [Fin.val_zero, Fin.val_one, Fin.val_two] at h0 h1 h2
  have h3' : hc 3 = true := h3
  have hr : (List.range 8).map fourways = [fourways 0, fourways 1, fourways 2, fourways 3,
      fourways 4, fourways 5, fourways 6, fourways 7] := rfl
  obtain ⟨hrange, hnone⟩ := plaza_dir_cases (fourways 0) (fourways 1) (fourways 2)
    (fourways 3) (fourways 4) (fourways 5) (fourways 6) (fourways 7)
  rw [← hr] at hrange hnone
  unfold mapgen_road_layout
  rw [road_connectivity, h0, h1, h2, h3']
  have hcount : count_dirs [true, true, true, true] = 4 := by decide
  simp only [hcount]
  unfold mapgen_road_rot
  simp only [if_true]
  generalize road_plaza_dir ((List.range 8).map fourways) = pd at hrange hnone
  by_cases hgt : pd > -1
  · simp only [hgt, if_true]
    have hpd : 0 ≤ pd ∧ pd ≤ 8 := by omega
    have hrot : nesw_array_rotate [true, true, true, true] 4 (Int.tmod pd 4).toNat
        = some [true, true, true, true] := by
      obtain ⟨hp0, hp8⟩ := hpd
      interval_cases pd <;> decide
    rw [hrot]
    refine ⟨_, rfl, rfl, rfl, Or.inr hpd, ?_, ?_, ?_⟩
    · intro _
      show Int.tmod pd 4 = pd % 4
      exact Int.tmod_eq_emod hpd.1 (by decide)
    · intro h
      have h' : pd = -1 := h
      omega
    · intro hf
      have := hnone ⟨hf 0, hf 1, hf 2, hf 3⟩
      omega
  · simp only [hgt, if_false]
    have hpd : pd = -1 := by omega
    have hrot : nesw_array_rotate [true, true, true, true] 4 (0 : Int).toNat
        = some [true, true, true, true] := by decide
    rw [hrot]
    refine ⟨_, rfl, rfl, rfl, Or.inl hpd, ?_, ?_, ?_⟩
    · intro h
      exact absurd h hgt
    · intro _
      rfl
    · intro _
      exact ⟨hpd, rfl⟩

/-- C20: after the pass over the `subway_connection` flags `num_dirs` is the
number of true entries of `subway_nesw`, which lies between 0 and 4, and
`subway_nesw[dir]` is true exactly when the terrain connects in direction `dir`
or the neighbour there carries the flag; the layout of `mapgen_subway` carries
that same count. -/
theorem subway_num_dirs_counts (hc sc : Nat → Bool) :
    (subway_add_connections sc
        (terrain_type_to_nesw_array hc [false, false, false, false])).1
      = count_dirs (subway_add_connections sc
        (terrain_type_to_nesw_array hc [false, false, false, false])).2 ∧
    0 ≤ (subway_add_connections sc
        (terrain_type_to_nesw_array hc [false, false, false, false])).1 ∧
    (subway_add_connections sc
        (terrain_type_to_nesw_array hc [false, false, false, false])).1 ≤ 4 ∧
    (subway_add_connections sc
        (terrain_type_to_nesw_array hc [false, false, false, false])).2
      = [hc 0 || sc 0, hc 1 || sc 1, hc 2 || sc 2, hc 3 || sc 3] ∧
    (terrain_type_to_nesw_array hc [false, false, false, false]).1
      = count_dirs [hc 0, hc 1, hc 2, hc 3] ∧
    ∃ l, mapgen_subway_layout hc sc = some l ∧
      l.num_dirs = count_dirs [hc 0 || sc 0, hc 1 || sc 1, hc 2 || sc 2, hc 3 || sc 3] := by
  rw [subway_connectivity, road_connectivity]
  have hb : ∀ a b c d : Bool, 0 ≤ count_dirs [a, b, c, d] ∧ count_dirs [a, b, c, d] ≤ 4 := by
    decide
  obtain ⟨hlo, hhi⟩ := hb (hc 0 || sc 0) (hc 1 || sc 1) (hc 2 || sc 2) (hc 3 || sc 3)
  refine ⟨rfl, hlo, hhi, rfl, rfl, ?_⟩
  unfold mapgen_subway_layout
  rw [subway_connectivity]
  dsimp only
  obtain ⟨r, hr⟩ : ∃ r, nesw_array_rotate [hc 0 || sc 0, hc 1 || sc 1, hc 2 || sc 2,
      hc 3 || sc 3] 4 (mapgen_subway_rot (count_dirs [hc 0 || sc 0, hc 1 || sc 1,
        hc 2 || sc 2, hc 3 || sc 3]) [hc 0 || sc 0, hc 1 || sc 1, hc 2 || sc 2,
        hc 3 || sc 3]).1.toNat = some r := ⟨_, rotate4_eq _ _ _ _ _⟩
  rw [hr]
  exact ⟨_, rfl, rfl⟩

/-! ## Curve indicators -/

theorem curve_set_core (b1 b2 b3 : Bool) (dir : Nat) (hdir : dir < 4) (c0 c1 c2 c3 : Int) :
    (if b1 = true then
        if b3 = true then
          (if b2 = true then [c0, c1, c2, c3].set dir ([c0, c1, c2, c3].getD dir 0 - 1)
            else [c0, c1, c2, c3]).set dir
            ((if b2 = true then [c0, c1, c2, c3].set dir ([c0, c1, c2, c3].getD dir 0 - 1)
              else [c0, c1, c2, c3]).getD dir 0 + 1)
        else (if b2 = true then [c0, c1, c2, c3].set dir ([c0, c1, c2, c3].getD dir 0 - 1)
          else [c0, c1, c2, c3])
      else [c0, c1, c2, c3])
      = [c0, c1, c2, c3].set dir ([c0, c1, c2, c3].getD dir 0 +
          ((if (b1 && b2) = true then -1 else 0) + (if (b1 && b3) = true then 1 else 0))) := by
  interval_cases dir <;> cases b1 <;> cases b2 <;> cases b3 <;> simp <;> omega

theorem curve_from_neighbour_eq (n : Int × List Bool) (dir : Nat) (hdir : dir < 4)
    (c0 c1 c2 c3 : Int) :
    curve_from_neighbour n dir [c0, c1, c2, c3]
      = [c0, c1, c2, c3].set dir ([c0, c1, c2, c3].getD dir 0 + curve_delta n dir) := by
  unfold curve_from_neighbour curve_delta
  exact curve_set_core _ _ _ dir hdir c0 c1 c2 c3

theorem curve_fold (skip : Nat → Bool) (n : Nat → Int × List Bool) :
    [0, 1, 2, 3].foldl
        (fun (curvedir : List Int) (dir : Nat) =>
          if skip dir then curvedir else curve_from_neighbour (n dir) dir curvedir)
        [0, 0, 0, 0]
      = [if skip 0 then 0 else curve_delta (n 0) 0, if skip 1 then 0 else curve_delta (n 1) 1,
          if skip 2 then 0 else curve_delta (n 2) 2, if skip 3 then 0 else curve_delta (n 3) 3] := by
  simp only [List.foldl]
  cases skip 0 <;> cases skip 1 <;> cases skip 2 <;> cases skip 3 <;>
    simp [curve_from_neighbour_eq]

theorem curve_delta_cases : ∀ (dir : Fin 4) (n0 n1 n2 n3 : Bool),
    (curve_delta (count_dirs [n0, n1, n2, n3], [n0, n1, n2, n3]) dir.val = -1 ∨
      curve_delta (count_dirs [n0, n1, n2, n3], [n0, n1, n2, n3]) dir.val = 0 ∨
      curve_delta (count_dirs [n0, n1, n2, n3], [n0, n1, n2, n3]) dir.val = 1) ∧
    (curve_delta (count_dirs [n0, n1, n2, n3], [n0, n1, n2, n3]) dir.val ≠ 0 →
      count_dirs [n0, n1, n2, n3] = 2 ∧ at_ [n0, n1, n2, n3] ((dir.val + 2) % 4) = true) ∧
    (curve_delta (count_dirs [n0, n1, n2, n3], [n0, n1, n2, n3]) dir.val = -1 ↔
      (count_dirs [n0, n1, n2, n3] = 2 ∧ at_ [n0, n1, n2, n3] ((dir.val + 2) % 4) = true ∧
        at_ [n0, n1, n2, n3] ((dir.val + 3) % 4) = true)) ∧
    (curve_delta (count_dirs [n0, n1, n2, n3], [n0, n1, n2, n3]) dir.val = 1 ↔
      (count_dirs [n0, n1, n2, n3] = 2 ∧ at_ [n0, n1, n2, n3] ((dir.val + 2) % 4) = true ∧
        at_ [n0, n1, n2, n3] ((dir.val + 1) % 4) = true)) ∧
    ((count_dirs [n0, n1, n2, n3] = 2 ∧ at_ [n0, n1, n2, n3] ((dir.val + 2) % 4) = true ∧
        at_ [n0, n1, n2, n3] dir.val = true) →
      curve_delta (count_dirs [n0, n1, n2, n3], [n0, n1, n2, n3]) dir.val = 0) ∧
    ¬ (count_dirs [n0, n1, n2, n3] = 2 ∧ at_ [n0, n1, n2, n3] ((dir.val + 2) % 4) = true ∧
        at_ [n0, n1, n2, n3] ((dir.val + 3) % 4) = true ∧
        at_ [n0, n1, n2, n3] ((dir.val + 1) % 4) = true) := by
  decide

theorem road_curvedir_eq (roads_nesw : List Bool) (is_road : Nat → Bool)
    (n_has_connection : Nat → Nat → Bool) (dir : Fin 4) :
    (mapgen_road_curvedir roads_nesw is_road n_has_connection).length = 4 ∧
    (mapgen_road_curvedir roads_nesw is_road n_has_connection).getD dir.val 0
      = if (!at_ roads_nesw dir.val || !is_road dir.val) = true then 0
        else curve_delta (count_dirs [n_has_connection dir.val 0, n_has_connection dir.val 1,
            n_has_connection dir.val 2, n_has_connection dir.val 3],
          [n_has_connection dir.val 0, n_has_connection dir.val 1, n_has_connection dir.val 2,
            n_has_connection dir.val 3]) dir.val := by
  unfold mapgen_road_curvedir
  rw [curve_fold (fun d => !at_ roads_nesw d || !is_road d)
    (fun d => terrain_type_to_nesw_array (n_has_connection d) [false, false, false, false])]
  simp only [road_connectivity]
  refine ⟨rfl, ?_⟩
  fin_cases dir <;> rfl

theorem railroad_curvedir_eq (railroads_nesw : List Bool) (is_railroad : Nat → Bool)
    (n_has_connection : Nat → Nat → Bool) :
    mapgen_railroad_curvedir railroads_nesw is_railroad n_has_connection
      = mapgen_road_curvedir railroads_nesw is_railroad n_has_connection := rfl

/-- C21: in `mapgen_road`, and in `mapgen_railroad` whose loop is the same, the
array `curvedir_nesw` has four entries, each -1, 0 or +1; an entry is not 0
only if the tile is connected in that direction, the neighbour there is of the
same type and has exactly two connections, one of them in direction `(dir + 2)
mod 4`; it is -1 exactly when, on top of that, the neighbour is connected in
direction `(dir - 1) mod 4`, and +1 exactly when it is connected in direction
`(dir + 1) mod 4`; it is 0 for a straight neighbour; and the two adjustments
are never made together. -/
theorem curvedir_values (roads_nesw : List Bool) (same_type : Nat → Bool)
    (n_has_connection : Nat → Nat → Bool) (dir : Fin 4) :
    mapgen_railroad_curvedir roads_nesw same_type n_has_connection
      = mapgen_road_curvedir roads_nesw same_type n_has_connection ∧
    (mapgen_road_curvedir roads_nesw same_type n_has_connection).length = 4 ∧
    ((mapgen_road_curvedir roads_nesw same_type n_has_connection).getD dir.val 0 = -1 ∨
      (mapgen_road_curvedir roads_nesw same_type n_has_connection).getD dir.val 0 = 0 ∨
      (mapgen_road_curvedir roads_nesw same_type n_has_connection).getD dir.val 0 = 1) ∧
    ((mapgen_road_curvedir roads_nesw same_type n_has_connection).getD dir.val 0 ≠ 0 →
      at_ roads_nesw dir.val = true ∧ same_type dir.val = true ∧
      (terrain_type_to_nesw_array (n_has_connection dir.val) [false, false, false, false]).1 = 2 ∧
      n_has_connection dir.val ((dir.val + 2) % 4) = true) ∧
    ((mapgen_road_curvedir roads_nesw same_type n_has_connection).getD dir.val 0 = -1 ↔
      (at_ roads_nesw dir.val = true ∧ same_type dir.val = true ∧
        (terrain_type_to_nesw_array (n_has_connection dir.val) [false, false, false, false]).1
          = 2 ∧
        n_has_connection dir.val ((dir.val + 2) % 4) = true ∧
        n_has_connection dir.val ((dir.val + 3) % 4) = true)) ∧
    ((mapgen_road_curvedir roads_nesw same_type n_has_connection).getD dir.val 0 = 1 ↔
      (at_ roads_nesw dir.val = true ∧ same_type dir.val = true ∧
        (terrain_type_to_nesw_array (n_has_connection dir.val) [false, false, false, false]).1
          = 2 ∧
        n_has_connection dir.val ((dir.val + 2) % 4) = true ∧
        n_has_connection dir.val ((dir.val + 1) % 4) = true)) ∧
    ((n_has_connection dir.val dir.val = true ∧
        n_has_connection dir.val ((dir.val + 2) % 4) = true ∧
        (terrain_type_to_nesw_array (n_has_connection dir.val) [false, false, false, false]).1
          = 2) →
      (mapgen_road_curvedir roads_nesw same_type n_has_connection).getD dir.val 0 = 0) ∧
    ¬ ((terrain_type_to_nesw_array (n_has_connection dir.val) [false, false, false, false]).1
          = 2 ∧
        n_has_connection dir.val ((dir.val + 2) % 4) = true ∧
        n_has_connection dir.val ((dir.val + 3) % 4) = true ∧
        n_has_connection dir.val ((dir.val + 1) % 4) = true) := by
  obtain ⟨hlen, hval⟩ := road_curvedir_eq roads_nesw same_type n_has_connection dir
  obtain ⟨hrange, hnz, hccw, hcw, hstraight, hboth⟩ := curve_delta_cases dir
    (n_has_connection dir.val 0) (n_has_connection dir.val 1) (n_has_connection dir.val 2)
    (n_has_connection dir.val 3)
  have hat : ∀ k : Fin 4, at_ [n_has_connection dir.val 0, n_has_connection dir.val 1,
      n_has_connection dir.val 2, n_has_connection dir.val 3] k.val
        = n_has_connection dir.val k.val := by
    intro k
    fin_cases k <;> rfl
  have hm : ∀ j : Nat, at_ [n_has_connection dir.val 0, n_has_connection dir.val 1,
      n_has_connection dir.val 2, n_has_connection dir.val 3] (j % 4)
        = n_has_connection dir.val (j % 4) :=
    fun j => hat ⟨j % 4, Nat.mod_lt _ (by decide)⟩
  have hd : at_ [n_has_connection dir.val 0, n_has_connection dir.val 1,
      n_has_connection dir.val 2, n_has_connection dir.val 3] dir.val
        = n_has_connection dir.val dir.val := hat dir
  rw [hm, hd] at hstraight
  rw [hm] at hnz
  rw [hm, hm] at hccw hcw
  rw [hm, hm, hm] at hboth
  rw [road_connectivity]
  dsimp only
  refine ⟨railroad_curvedir_eq _ _ _, hlen, ?_⟩
  generalize curve_delta (count_dirs [n_has_connection dir.val 0, n_has_connection dir.val 1,
      n_has_connection dir.val 2, n_has_connection dir.val 3],
    [n_has_connection dir.val 0, n_has_connection dir.val 1, n_has_connection dir.val 2,
      n_has_connection dir.val 3]) dir.val = δ at hval hrange hnz hccw hcw hstraight
  generalize count_dirs [n_has_connection dir.val 0, n_has_connection dir.val 1,
      n_has_connection dir.val 2, n_has_connection dir.val 3] = cnt
    at hnz hccw hcw hstraight hboth ⊢
  generalize (mapgen_road_curvedir roads_nesw same_type n_has_connection).getD dir.val 0 = c
    at hval ⊢
  by_cases hskip : (!at_ roads_nesw dir.val || !same_type dir.val) = true
  · rw [if_pos hskip] at hval
    subst hval
    simp only [Bool.or_eq_true, Bool.not_eq_true'] at hskip
    refine ⟨Or.inr (Or.inl rfl), fun h => absurd rfl h, ?_, ?_, fun _ => rfl, hboth⟩
    · constructor
      · intro h
        exact absurd h (by decide)
      · rintro ⟨hr, hs, _⟩
        rcases hskip with h | h
        · rw [hr] at h
          exact absurd h (by decide)
        · rw [hs] at h
          exact absurd h (by decide)
    · constructor
      · intro h
        exact absurd h (by decide)
      · rintro ⟨hr, hs, _⟩
        rcases hskip with h | h
        · rw [hr] at h
          exact absurd h (by decide)
        · rw [hs] at h
          exact absurd h (by decide)
  · rw [if_neg hskip] at hval
    subst hval
    simp only [Bool.or_eq_true, Bool.not_eq_true', not_or, Bool.not_eq_false] at hskip
    obtain ⟨hr, hs⟩ := hskip
    refine ⟨hrange, fun h => ⟨hr, hs, hnz h⟩, ?_, ?_, ?_, hboth⟩
    · rw [hccw]
      exact ⟨fun h => ⟨hr, hs, h⟩, fun h => h.2.2⟩
    · rw [hcw]
      exact ⟨fun h => ⟨hr, hs, h⟩, fun h => h.2.2⟩
    · rintro ⟨h1, h2, h3⟩
      exact hstraight ⟨h3, h2, h1⟩

/-- C22 (what the code does): a tile connected to the North only, whose northern
neighbour is a subway connected to the South only.  With no
`subway_connection` flag around the tile `curvedir_nesw[0]` is 0; setting the
flag of the eastern neighbour alone, which is not the neighbour in direction 0,
makes the inner loop add an eastern connection to the northern neighbour's
array, and `curvedir_nesw[0]` becomes +1. -/
theorem subway_curve_reads_other_flags :
    (∀ d : Fin 4, d.val ≠ 1 → (fun (k : Nat) => k == 1) d.val = (fun (_ : Nat) => false) d.val) ∧
    mapgen_subway_curves (fun d => d == 0) (fun d => d == 0) (fun _ => false)
      (fun _ d => d == 2) = [0, 0, 0, 0] ∧
    mapgen_subway_curves (fun d => d == 0) (fun d => d == 0) (fun k => k == 1)
      (fun _ d => d == 2) = [1, 0, 0, 0] ∧
    subway_add_connections (fun k => k == 1)
      (terrain_type_to_nesw_array (fun d => d == 2) [false, false, false, false])
      = (2, [false, true, true, false]) := by
  decide

/-! ## Dead ends -/

/-- C23: `dead_end_extension` is 8 for `num_dirs = 1` and 0 otherwise; with
`SEEX = SEEY = 12` the pavement rectangle of the North arm has the corners (4,
0) and (19, SEEY - 1 + dead_end_extension), so it covers exactly the columns
4..19 of the rows 0..19 for a dead end and of the rows 0..11 for every other
shape. -/
theorem road_north_arm_rows (num_dirs : Int) (q : point) :
    SEEX = 12 ∧ SEEY = 12 ∧
    dead_end_extension num_dirs = (if num_dirs = 1 then 8 else 0) ∧
    road_arm_corners (dead_end_extension num_dirs) 0
      = (⟨4, 0⟩, ⟨19, SEEY - 1 + dead_end_extension num_dirs⟩) ∧
    (square_covers (road_arm_corners (dead_end_extension num_dirs) 0).1
        (road_arm_corners (dead_end_extension num_dirs) 0).2 q = true ↔
      (4 ≤ q.x ∧ q.x ≤ 19 ∧ 0 ≤ q.y ∧ q.y ≤ if num_dirs = 1 then 19 else 11)) := by
  refine ⟨rfl, rfl, rfl, rfl, ?_⟩
  simp only [road_arm_corners, coord_rotate_cw, square_covers, dead_end_extension, SEEX, SEEY,
    decide_eq_true_eq, min_def, max_def]
  split_ifs <;> omega

/-! ## Templates -/

theorem subway_template_listed (n : Int) (diag : Bool) (t : template)
    (h : mapgen_subway_template n diag = some t) : t ∈ all_templates := by
  unfold mapgen_subway_template at h
  split_ifs at h <;> cases h <;> simp [all_templates]

theorem railroad_template_listed (n : Int) (diag : Bool) (t : template)
    (h : mapgen_railroad_template n diag = some t) : t ∈ all_templates := by
  unfold mapgen_railroad_template at h
  split_ifs at h <;> cases h <;> simp [all_templates]

/-- C26: the templates of `mapgen_subway`, `mapgen_railroad` and
`mapgen_railroad_bridge` are the eleven of `all_templates`; each has 24 rows of
24 characters, each legend binds as many ids as it has keys, every character
of a row is a key of the terrain legend and of the furniture legend, and
stamping the template at (0, 0) succeeds and sets every cell of the 24x24
buffer once, row by row. -/
theorem templates_well_formed :
    (∀ (n : Int) (diag : Bool) (t : template),
      mapgen_subway_template n diag = some t → t ∈ all_templates) ∧
    (∀ (n : Int) (diag : Bool) (t : template),
      mapgen_railroad_template n diag = some t → t ∈ all_templates) ∧
    railroad_bridge ∈ all_templates ∧
    ∀ t ∈ all_templates,
      (text_rows t.text.toList).length = 24 ∧
      (∀ r ∈ text_rows t.text.toList, r.length = 24 ∧
        ∀ c ∈ r, ((legend_bind t.ter_keys t.ter_ids).lookup c).isSome = true ∧
          ((legend_bind t.furn_keys t.furn_ids).lookup c).isSome = true) ∧
      (legend_bind t.ter_keys t.ter_ids).length = t.ter_ids.length ∧
      (legend_bind t.furn_keys t.furn_ids).length = t.furn_ids.length ∧
      (formatted_set_simple ⟨0, 0⟩ t).map (fun cells => cells.map fun e => e.1)
        = some buffer_cells := by
  refine ⟨subway_template_listed, railroad_template_listed, by simp [all_templates], ?_⟩
  decide!

theorem subway_dead_end_stamp :
    (formatted_set_simple ⟨0, 0⟩ subway_dead_end).map
        (fun cells => ((cells.filter fun e => e.2.1 == ter_name.t_buffer_stop).map fun e => e.1,
          cells.map fun e => e.1))
      = some ([⟨4, 19⟩, ⟨8, 19⟩, ⟨15, 19⟩, ⟨19, 19⟩], buffer_cells) := by
  decide!

/-- C25: for a subway tile whose terrain connects only to the North and none of
whose four cardinal neighbours carries the `subway_connection` flag,
`mapgen_subway` computes `num_dirs = 1`, `rot = 0` and `diag = false` and stamps
the dead-end template; the stamp sets every cell of the buffer once, and the
cells it sets to the buffer stop are exactly (4, 19), (8, 19), (15, 19) and
(19, 19). -/
theorem subway_dead_end_north (hc sc : Nat → Bool) (hN : hc 0 = true) (hE : hc 1 = false)
    (hS : hc 2 = false) (hW : hc 3 = false) (hsc : ∀ d : Fin 4, sc d.val = false) :
    ∃ l cells, mapgen_subway_stamp hc sc = some (l, subway_dead_end, cells) ∧
      l.num_dirs = 1 ∧ l.rot = 0 ∧ l.diag = false ∧
      cells.map (fun e => e.1) = buffer_cells ∧
      (cells.filter fun e => e.2.1 == ter_name.t_buffer_stop).map (fun e => e.1)
        = [⟨4, 19⟩, ⟨8, 19⟩, ⟨15, 19⟩, ⟨19, 19⟩] := by
  have h0 : sc 0 = false := hsc 0
  have h1 : sc 1 = false := hsc 1
  have h2 : sc 2 = false := hsc 2
  have h3 : sc 3 = false := hsc 3
  have hl : mapgen_subway_layout hc sc
      = some ⟨1, 0, false, -1, [true, false, false, false]⟩ := by
    unfold mapgen_subway_layout
    rw [subway_connectivity, hN, hE, hS, hW, h0, h1, h2, h3]
    decide
  have hstamp := subway_dead_end_stamp
  cases hc1 : formatted_set_simple ⟨0, 0⟩ subway_dead_end with
  | none =>
    rw [hc1] at hstamp
    exact absurd hstamp (by simp)
  | some cells =>
    rw [hc1] at hstamp
    simp only [Option.map_some', Option.some.injEq, Prod.mk.injEq] at hstamp
    refine ⟨⟨1, 0, false, -1, [true, false, false, false]⟩, cells, ?_, rfl, rfl, rfl,
      hstamp.2, hstamp.1⟩
    unfold mapgen_subway_stamp
    rw [hl]
    simp only [Option.some_bind]
    have ht : mapgen_subway_template 1 false = some subway_dead_end := rfl
    rw [ht]
    simp only [Option.some_bind, hc1, Option.map_some']

/-- C24 (amended): the dead-end template of `mapgen_subway` runs its corridor of
track, tie, rubble and buffer-stop cells down to row 20, with the buffer stops
in row 19 = SEEY - 1 + 8; the dead-end template of `mapgen_railroad` ends its
corridor in row 13, with the buffer stops in row 12. -/
theorem dead_end_corridor_rows :
    SEEY - 1 + 8 = 19 ∧
    mapgen_subway_template 1 false = some subway_dead_end ∧
    mapgen_railroad_template 1 false = some railroad_dead_end ∧
    (∀ p ∈ cells_with is_corridor (formatted_set_simple ⟨0, 0⟩ subway_dead_end), p.y ≤ 20) ∧
    (∃ p ∈ cells_with is_corridor (formatted_set_simple ⟨0, 0⟩ subway_dead_end), p.y = 20) ∧
    cells_with (fun t => t == ter_name.t_buffer_stop)
        (formatted_set_simple ⟨0, 0⟩ subway_dead_end)
      = [⟨4, 19⟩, ⟨8, 19⟩, ⟨15, 19⟩, ⟨19, 19⟩] ∧
    (∀ p ∈ cells_with is_corridor (formatted_set_simple ⟨0, 0⟩ railroad_dead_end), p.y ≤ 13) ∧
    (∃ p ∈ cells_with is_corridor (formatted_set_simple ⟨0, 0⟩ railroad_dead_end), p.y = 13) ∧
    cells_with (fun t => t == ter_name.t_buffer_stop)
        (formatted_set_simple ⟨0, 0⟩ railroad_dead_end)
      = [⟨2, 12⟩, ⟨6, 12⟩, ⟨17, 12⟩, ⟨21, 12⟩] := by
  refine ⟨by decide, rfl, rfl, ?_⟩
  decide!

/-- C24 (counterexample): the dead-end template of `mapgen_railroad` has no
corridor cell in row 19 or below it; its last corridor row is row 13. -/
theorem railroad_dead_end_stops_short :
    mapgen_railroad_template 1 false = some railroad_dead_end ∧
    (formatted_set_simple ⟨0, 0⟩ railroad_dead_end).isSome = true ∧
    ¬ ∃ p ∈ cells_with is_corridor (formatted_set_simple ⟨0, 0⟩ railroad_dead_end),
      19 ≤ p.y := by
  refine ⟨rfl, ?_⟩
  decide!

/-! ## Sewers -/

theorem mapgen_sewer_eq (hc : Nat → Bool) (p : point) :
    mapgen_sewer hc p
      = if 0 ≤ p.x ∧ p.x < 24 ∧ 0 ≤ p.y ∧ p.y < 24 then
          some (if sewer_fill [hc 0, hc 1, hc 2, hc 3] p.x p.y then ter_name.t_rock
            else ter_name.t_sewage)
        else none := by
  unfold mapgen_sewer
  rw [road_connectivity]
  rfl

theorem sewer_fill_eq (n e s w : Bool) (i j : Int) :
    sewer_fill [n, e, s, w] i j
      = if 10 ≤ j ∧ j ≤ 13 then
          (if i ≤ 10 then !w else if 13 ≤ i then !e else false)
        else if 10 ≤ i ∧ i ≤ 13 then (if j ≤ 10 then !n else !s)
        else true := by
  unfold sewer_fill
  simp only [SEEX, SEEY, at_]
  have e1 : (12 : Int) - 2 = 10 := by decide
  have e2 : (12 : Int) + 1 = 13 := by decide
  rw [e1, e2]
  cases n <;> cases e <;> cases s <;> cases w <;> simp

theorem sewer_fill_false (n e s w : Bool) (i j : Int) :
    sewer_fill [n, e, s, w] i j = false ↔
      ((10 ≤ j ∧ j ≤ 13) ∧
        ((i ≤ 10 ∧ w = true) ∨ (13 ≤ i ∧ e = true) ∨ (11 ≤ i ∧ i ≤ 12))) ∨
      (¬ (10 ≤ j ∧ j ≤ 13) ∧ (10 ≤ i ∧ i ≤ 13) ∧
        ((j ≤ 10 ∧ n = true) ∨ (10 < j ∧ s = true))) := by
  rw [sewer_fill_eq]
  by_cases hj : 10 ≤ j ∧ j ≤ 13
  · rw [if_pos hj]
    by_cases hi1 : i ≤ 10
    · rw [if_pos hi1]
      cases w <;> simp [hj, hi1]
      omega
    · rw [if_neg hi1]
      by_cases hi2 : 13 ≤ i
      · rw [if_pos hi2]
        cases e <;> simp [hj, hi1, hi2]
        omega
      · rw [if_neg hi2]
        simp [hj, hi1, hi2]
        omega
  · rw [if_neg hj]
    by_cases hi : 10 ≤ i ∧ i ≤ 13
    · rw [if_pos hi]
      by_cases hj2 : j ≤ 10
      · rw [if_pos hj2]
        cases n <;> simp [hj, hi, hj2]
      · rw [if_neg hj2]
        cases s <;> simp [hj, hi, hj2]
        omega
    · rw [if_neg hi]
      simp [hj, hi]

theorem sewer_eq_of_fill (a b : List Bool) (x1 y1 x2 y2 : Int)
    (hbuf : (0 ≤ x1 ∧ x1 < 24 ∧ 0 ≤ y1 ∧ y1 < 24) ↔ (0 ≤ x2 ∧ x2 < 24 ∧ 0 ≤ y2 ∧ y2 < 24))
    (hfill : sewer_fill a x1 y1 = false ↔ sewer_fill b x2 y2 = false) :
    (if 0 ≤ x1 ∧ x1 < 24 ∧ 0 ≤ y1 ∧ y1 < 24 then
        some (if sewer_fill a x1 y1 then ter_name.t_rock else ter_name.t_sewage)
      else none)
    = (if 0 ≤ x2 ∧ x2 < 24 ∧ 0 ≤ y2 ∧ y2 < 24 then
        some (if sewer_fill b x2 y2 then ter_name.t_rock else ter_name.t_sewage)
      else none) := by
  have hf : sewer_fill a x1 y1 = sewer_fill b x2 y2 := by
    cases h1 : sewer_fill a x1 y1 <;> cases h2 : sewer_fill b x2 y2 <;> simp_all
  rw [hf]
  by_cases h : 0 ≤ x2 ∧ x2 < 24 ∧ 0 ≤ y2 ∧ y2 < 24
  · rw [if_pos h, if_pos (hbuf.2 h)]
  · rw [if_neg h, if_neg (fun h1 => h (hbuf.1 h1))]

/-- How far the drawing of `mapgen_sewer` follows a turn of the connections: the
half-turn on every cell, the clockwise quarter-turn (x, y) -> (23 - y, x) on
every cell outside the central block 10 <= x, y <= 13.  Inside that block the
tests `i <= SEEX - 2` and `i >= SEEX + 1` hand columns 10 and 13 to the western
and eastern arms, so only columns 11 and 12 are always sewage. -/
theorem sewer_turns (hc : Nat → Bool) (p : point) :
    mapgen_sewer (turn_connections (turn_connections hc)) ⟨23 - p.x, 23 - p.y⟩
      = mapgen_sewer hc p ∧
    (¬ (10 ≤ p.x ∧ p.x ≤ 13 ∧ 10 ≤ p.y ∧ p.y ≤ 13) →
      mapgen_sewer (turn_connections hc) (coord_rotate_cw p 1) = mapgen_sewer hc p) ∧
    ((10 ≤ p.x ∧ p.x ≤ 13 ∧ 10 ≤ p.y ∧ p.y ≤ 13) →
      (mapgen_sewer hc p = some ter_name.t_sewage ↔
        (p.x = 11 ∨ p.x = 12 ∨ (p.x = 10 ∧ hc 3 = true) ∨ (p.x = 13 ∧ hc 1 = true)))) := by
  obtain ⟨x, y⟩ := p
  simp only [mapgen_sewer_eq, turn_connections, coord_rotate_cw, SEEY]
  have e0 : (0 + 3) % 4 = 3 := rfl
  have e1 : (1 + 3) % 4 = 0 := rfl
  have e2 : (2 + 3) % 4 = 1 := rfl
  have e3 : (3 + 3) % 4 = 2 := rfl
  have e4 : ((12 : Int) * 2 - 1) - y = 23 - y := by omega
  simp only [e0, e1, e2, e3, e4]
  generalize hc 0 = n
  generalize hc 1 = e
  generalize hc 2 = s
  generalize hc 3 = w
  refine ⟨?_, ?_, ?_⟩
  · apply sewer_eq_of_fill
    · omega
    · rw [sewer_fill_false, sewer_fill_false]
      cases n <;> cases e <;> cases s <;> cases w <;>
        simp only [Bool.false_eq_true, and_false, and_true, or_false, false_or] <;> omega
  · intro hout
    apply sewer_eq_of_fill
    · omega
    · rw [sewer_fill_false, sewer_fill_false]
      cases n <;> cases e <;> cases s <;> cases w <;>
        simp only [Bool.false_eq_true, and_false, and_true, or_false, false_or] <;> omega
  · intro hin
    have hb : 0 ≤ x ∧ x < 24 ∧ 0 ≤ y ∧ y < 24 := by omega
    rw [if_pos hb]
    have hs : (some (if sewer_fill [n, e, s, w] x y = true then ter_name.t_rock
        else ter_name.t_sewage) = some ter_name.t_sewage) ↔
        sewer_fill [n, e, s, w] x y = false := by
      cases sewer_fill [n, e, s, w] x y <;> simp
    rw [hs, sewer_fill_false]
    cases e <;> cases w <;>
      simp only [Bool.false_eq_true, and_false, and_true, or_false, false_or] <;> omega

/-- C27 (what the code does): for a sewer connected North and South the cell
(10, 13) is rock; its image under the clockwise quarter-turn is (10, 10), and
for the connections turned by a quarter, East and West, that cell is sewage.
The North-South corridor is four cells wide (columns 10..13) in row 5 and two
cells wide (columns 11, 12) in row 11, where the East-West band takes the cell
first and its tests `i <= SEEX - 2`, `i >= SEEX + 1` leave only two columns to
the central area; the East-West corridor is four cells wide (rows 10..13) in
column 5 and in column 11 alike. -/
theorem sewer_not_rotation_invariant :
    (∀ d : Fin 4, turn_connections (fun k => k == 0 || k == 2) d.val
      = (d.val == 1 || d.val == 3)) ∧
    coord_rotate_cw ⟨10, 13⟩ 1 = ⟨10, 10⟩ ∧
    mapgen_sewer (fun k => k == 0 || k == 2) ⟨10, 13⟩ = some ter_name.t_rock ∧
    mapgen_sewer (turn_connections fun k => k == 0 || k == 2) ⟨10, 10⟩
      = some ter_name.t_sewage ∧
    (List.range 24).filter (fun (x : Nat) => decide
      (mapgen_sewer (fun k => k == 0 || k == 2) ⟨(x : Int), 5⟩ = some ter_name.t_sewage))
      = [10, 11, 12, 13] ∧
    (List.range 24).filter (fun (x : Nat) => decide
      (mapgen_sewer (fun k => k == 0 || k == 2) ⟨(x : Int), 11⟩ = some ter_name.t_sewage))
      = [11, 12] ∧
    (List.range 24).filter (fun (y : Nat) => decide
      (mapgen_sewer (fun k => k == 1 || k == 3) ⟨5, (y : Int)⟩ = some ter_name.t_sewage))
      = [10, 11, 12, 13] ∧
    (List.range 24).filter (fun (y : Nat) => decide
      (mapgen_sewer (fun k => k == 1 || k == 3) ⟨11, (y : Int)⟩ = some ter_name.t_sewage))
      = [10, 11, 12, 13] := by
  decide

/-! ## `cata_algo.h` -/

/-- C28 (what the code does): on the graph with the edges 0 -> 1, 0 -> 2, 1 -> 2,
2 -> 0, the key 0 being visited first, `find_cycles` returns the one cycle 0 ->
1 -> 2 and no rotation of the cycle 0 -> 2 -> 0: vertex 2 is already in
`visited` when the edge 0 -> 2 is tried.  With the key 1 or the key 2 visited
first both cycles are returned.  On the complete directed graph on three
vertices every order of the keys returns three of the five cycles. -/
theorem find_cycles_misses_cycle :
    find_cycles chord_graph = some [[0, 1, 2]] ∧
    is_cycle chord_graph [0, 2] = true ∧
    has_rotation [[0, 1, 2]] [0, 2] = false ∧
    find_cycles [(1, [2]), (2, [0]), (0, [1, 2])] = some [[1, 2, 0], [2, 0]] ∧
    find_cycles [(2, [0]), (0, [1, 2]), (1, [2])] = some [[2, 0, 1], [2, 0]] ∧
    ∀ order ∈ [[0, 1, 2], [0, 2, 1], [1, 0, 2], [1, 2, 0], [2, 0, 1], [2, 1, 0]],
      ((find_cycles (complete_graph order)).any fun found =>
        found.length == 3 &&
        ([[0, 1], [0, 2], [1, 2], [0, 1, 2], [0, 2, 1]].filter fun c =>
          is_cycle (complete_graph order) c && !has_rotation found c).length == 2) = true := by
  decide

theorem map_emplace_back_lookup {K α : Type} [DecidableEq K] (r : List (K × List α)) (key : K)
    (elem : α) (k : K) :
    (map_emplace_back r key elem).lookup k
      = if k = key then some ((r.lookup key).getD [] ++ [elem]) else r.lookup k := by
  induction r with
  | nil =>
    by_cases h : k = key
    · simp [map_emplace_back, List.lookup, h]
    · have hb : (k == key) = false := by simpa using h
      simp [map_emplace_back, List.lookup, h, hb]
  | cons p rest ih =>
    obtain ⟨k1, group⟩ := p
    unfold map_emplace_back
    by_cases h1 : k1 = key
    · subst h1
      rw [if_pos rfl]
      by_cases h : k = k1
      · subst h
        simp [List.lookup]
      · have hb : (k == k1) = false := by simpa using h
        simp [List.lookup, h, hb]
    · rw [if_neg h1]
      by_cases h : k = key
      · subst h
        have hb : (k == k1) = false := by
          simpa using fun h2 : k = k1 => h1 h2.symm
        simp only [List.lookup, hb, ih, if_true]
      · by_cases h2 : k = k1
        · subst h2
          simp [List.lookup, h]
        · have hb : (k == k1) = false := by simpa using h2
          simp only [List.lookup, hb, ih, if_neg h]

theorem map_emplace_back_keys {K α : Type} [DecidableEq K] (r : List (K × List α)) (key : K)
    (elem : α) :
    (map_emplace_back r key elem).map Prod.fst
      = if key ∈ r.map Prod.fst then r.map Prod.fst else r.map Prod.fst ++ [key] := by
  induction r with
  | nil => simp [map_emplace_back]
  | cons p rest ih =>
    obtain ⟨k1, group⟩ := p
    unfold map_emplace_back
    by_cases h1 : k1 = key
    · subst h1
      simp
    · rw [if_neg h1]
      have hne : ¬ key = k1 := fun h => h1 h.symm
      simp only [List.map_cons, ih, List.mem_cons, hne, false_or]
      split_ifs <;> simp

theorem map_emplace_back_sizes {K α : Type} [DecidableEq K] (r : List (K × List α)) (key : K)
    (elem : α) :
    ((map_emplace_back r key elem).map fun p => p.2.length).sum
      = (r.map fun p => p.2.length).sum + 1 := by
  induction r with
  | nil => simp [map_emplace_back]
  | cons p rest ih =>
    obtain ⟨k1, group⟩ := p
    unfold map_emplace_back
    by_cases h1 : k1 = key
    · subst h1
      simp
      omega
    · rw [if_neg h1]
      simp only [List.map_cons, List.sum_cons, ih]
      omega

theorem group_inv_step {K α : Type} [DecidableEq K] (selector : α → K) (done : List α)
    (r : List (K × List α)) (elem : α) (h : group_inv selector done r) :
    group_inv selector (done ++ [elem]) (map_emplace_back r (selector elem) elem) := by
  obtain ⟨hl, hn, hs⟩ := h
  refine ⟨?_, ?_, ?_⟩
  · intro k
    rw [map_emplace_back_lookup]
    by_cases hk : k = selector elem
    · subst hk
      rw [if_pos rfl, hl]
      rw [List.filter_append]
      have hf : ([elem].filter fun e => decide (selector e = selector elem)) = [elem] := by
        simp
      rw [hf]
      cases hd : done.filter fun e => decide (selector e = selector elem) with
      | nil => simp
      | cons a l => simp
    · rw [if_neg hk, hl, List.filter_append]
      have hf : ([elem].filter fun e => decide (selector e = k)) = [] := by
        simp
        exact fun h => hk h.symm
      rw [hf, List.append_nil]
  · rw [map_emplace_back_keys]
    split_ifs with hmem
    · exact hn
    · rw [List.nodup_append]
      refine ⟨hn, List.nodup_singleton _, ?_⟩
      intro a ha hb
      rw [List.mem_singleton] at hb
      subst hb
      exact hmem ha
  · rw [map_emplace_back_sizes, hs]
    simp

theorem group_by_fold {K α : Type} [DecidableEq K] (selector : α → K) (rest done : List α)
    (r : List (K × List α)) (h : group_inv selector done r) :
    group_inv selector (done ++ rest)
      (rest.foldl (fun result elem => map_emplace_back result (selector elem) elem) r) := by
  induction rest generalizing done r with
  | nil => simpa using h
  | cons elem rest ih =>
    simp only [List.foldl_cons]
    have := ih (done ++ [elem]) _ (group_inv_step selector done r elem h)
    simpa using this

theorem group_by_inv {K α : Type} [DecidableEq K] (c : List α) (selector : α → K) :
    group_inv selector c (group_by c selector) := by
  have h0 : group_inv selector [] ([] : List (K × List α)) := by
    refine ⟨fun k => by simp, by simp, by simp⟩
  have := group_by_fold selector c [] [] h0
  simpa [group_by] using this

theorem lookup_of_mem {K V : Type} [DecidableEq K] (r : List (K × V))
    (hn : (r.map Prod.fst).Nodup) (k : K) (v : V) (h : (k, v) ∈ r) : r.lookup k = some v := by
  induction r with
  | nil => exact absurd h (List.not_mem_nil _)
  | cons p rest ih =>
    obtain ⟨k1, v1⟩ := p
    rw [List.map_cons, List.nodup_cons] at hn
    rcases List.mem_cons.1 h with h1 | h1
    · cases h1
      simp [List.lookup]
    · have hne : ¬ k = k1 := by
        intro hk
        subst hk
        exact hn.1 (List.mem_map.2 ⟨(k, v), h1, rfl⟩)
      have hb : (k == k1) = false := by simpa using hne
      simp only [List.lookup, hb]
      exact ih hn.2 h1

theorem mem_keys_of_lookup {K V : Type} [DecidableEq K] (r : List (K × V)) (k : K) :
    k ∈ r.map Prod.fst ↔ ∃ v, r.lookup k = some v := by
  induction r with
  | nil => simp
  | cons p rest ih =>
    obtain ⟨k1, v1⟩ := p
    by_cases hk : k = k1
    · subst hk
      simp [List.lookup]
    · have hb : (k == k1) = false := by simpa using hk
      simp only [List.map_cons, List.mem_cons, hk, false_or, List.lookup, hb]
      exact ih

/-- C30: `group_by( c, selector )` returns a map with distinct keys, the keys
being exactly the selector values that occur in `c`; the group stored for a key
is the subsequence of `c`, in the original order, of the elements with that
selector value, and a key that does not occur has no group; no group is
empty; the group sizes add up to the size of `c`; and {1, 2, 3, 4, 5} grouped
by parity gives odd: {1, 3, 5} and even: {2, 4}. -/
theorem group_by_groups {K α : Type} [DecidableEq K] (c : List α) (selector : α → K) :
    ((group_by c selector).map Prod.fst).Nodup ∧
    (∀ k, k ∈ (group_by c selector).map Prod.fst ↔ ∃ e ∈ c, selector e = k) ∧
    (∀ k v, (k, v) ∈ group_by c selector →
      v = c.filter (fun e => decide (selector e = k)) ∧ v ≠ []) ∧
    (∀ k, (∃ e ∈ c, selector e = k) →
      (group_by c selector).lookup k = some (c.filter fun e => decide (selector e = k))) ∧
    (∀ k, (¬ ∃ e ∈ c, selector e = k) → (group_by c selector).lookup k = none) ∧
    ((group_by c selector).map fun p => p.2.length).sum = c.length ∧
    group_by [1, 2, 3, 4, 5] (fun i : Nat => if i % 2 = 0 then "even" else "odd")
      = [("odd", [1, 3, 5]), ("even", [2, 4])] := by
  obtain ⟨hl, hn, hs⟩ := group_by_inv c selector
  have hempty : ∀ k, (c.filter fun e => decide (selector e = k)).isEmpty = true ↔
      ¬ ∃ e ∈ c, selector e = k := by
    intro k
    rw [List.isEmpty_iff, List.filter_eq_nil_iff]
    constructor
    · rintro h ⟨e, he, hk⟩
      exact h e he (by simpa using hk)
    · intro h e he hk
      exact h ⟨e, he, by simpa using hk⟩
  refine ⟨hn, ?_, ?_, ?_, ?_, hs, by decide⟩
  · intro k
    rw [mem_keys_of_lookup, hl]
    by_cases hk : ∃ e ∈ c, selector e = k
    · have : ¬ (c.filter fun e => decide (selector e = k)).isEmpty = true :=
        fun h => (hempty k).1 h hk
      simp only [this, if_false]
      exact ⟨fun _ => hk, fun _ => ⟨_, rfl⟩⟩
    · have := (hempty k).2 hk
      simp only [this, if_true]
      exact ⟨fun ⟨v, hv⟩ => absurd hv (by simp), fun h => absurd h hk⟩
  · intro k v hmem
    have hlk := lookup_of_mem _ hn k v hmem
    rw [hl] at hlk
    split_ifs at hlk with he
    rw [Option.some.injEq] at hlk
    subst hlk
    refine ⟨rfl, ?_⟩
    intro hnil
    rw [hnil] at he
    exact he rfl
  · intro k hk
    rw [hl]
    have hne : ¬ (c.filter fun e => decide (selector e = k)).isEmpty = true :=
      fun h => (hempty k).1 h hk
    rw [if_neg hne]
  · intro k hk
    rw [hl]
    rw [if_pos ((hempty k).2 hk)]

theorem rate_entries_log {α R : Type} (rating : α → R) (elems log : List α) :
    rate_entries (fun e (l : List α) => (rating e, l ++ [e])) elems log
      = (elems.map fun e => (e, rating e), log ++ elems) := by
  induction elems generalizing log with
  | nil => simp [rate_entries]
  | cons e rest ih =>
    simp only [rate_entries, ih, List.map_cons, List.append_assoc, List.singleton_append]

theorem insertion_is_std_sort {β : Type} :
    is_std_sort (fun (lt : β → β → Bool) (l : List β) => insertion_sort lt l) := by
  intro lt l hirr htrans heq
  refine ⟨List.perm_insertionSort _ l, ?_⟩
  have hasym : ∀ a b, lt a b = true → lt b a = false := by
    intro a b hab
    cases hba : lt b a with
    | false => rfl
    | true =>
      have := htrans a b a hab hba
      rw [hirr a] at this
      exact absurd this (by decide)
  haveI : IsTotal β (fun a b => lt b a = false) := ⟨fun a b => by
    cases hba : lt b a with
    | false => exact Or.inl rfl
    | true => exact Or.inr (hasym b a hba)⟩
  haveI : IsTrans β (fun a b => lt b a = false) := ⟨fun a b c hab hbc => by
    show lt c a = false
    cases hca : lt c a with
    | false => rfl
    | true =>
      exfalso
      cases h1 : lt a b with
      | true =>
        have := htrans c a b hca h1
        rw [hbc] at this
        exact absurd this (by decide)
      | false =>
        cases h2 : lt b c with
        | true =>
          have := htrans b c a h2 hca
          rw [hab] at this
          exact absurd this (by decide)
        | false =>
          have := (heq a b c h1 hab h2 hbc).2
          rw [hca] at this
          exact absurd this (by decide)⟩
  exact List.sorted_insertionSort (fun a b => lt b a = false) l

/-- C29: with any sort that keeps the contract of `std::sort`, and ratings from a
linear order, `sort_by_rating` leaves a rearrangement of the original elements
in which the ratings never decrease from one element to the next; and a rating
functor that logs its calls has been called once for each element, in the
order of the sequence. -/
theorem sort_by_rating_sorted {α R : Type} [LinearOrder R]
    (sort : (α × R → α × R → Bool) → List (α × R) → List (α × R))
    (hsort : is_std_sort sort) (rating : α → R) (elems : List α) :
    (sort_by_rating sort (fun e (log : List α) => (rating e, log ++ [e])) elems []).1.Perm
      elems ∧
    (sort_by_rating sort (fun e (log : List α) => (rating e, log ++ [e])) elems []).1.Pairwise
      (fun a b => rating a ≤ rating b) ∧
    (sort_by_rating sort (fun e (log : List α) => (rating e, log ++ [e])) elems []).2
      = elems := by
  unfold sort_by_rating
  simp only [rate_entries_log, List.nil_append]
  obtain ⟨hperm, hsorted⟩ := hsort (fun lhs rhs => decide (lhs.2 < rhs.2))
    (elems.map fun e => (e, rating e))
    (fun a => by simp)
    (fun a b c hab hbc => by
      simp only [decide_eq_true_eq] at hab hbc ⊢
      exact lt_trans hab hbc)
    (fun a b c h1 h2 h3 h4 => by
      simp only [decide_eq_false_iff_not, not_lt] at h1 h2 h3 h4 ⊢
      exact ⟨le_trans h3 h1, le_trans h2 h4⟩)
  refine ⟨?_, ?_, trivial⟩
  · have h := hperm.map Prod.fst
    have he : (elems.map fun e => (e, rating e)).map Prod.fst = elems := by
      rw [List.map_map]
      exact List.map_id _
    rw [he] at h
    exact h
  · rw [List.pairwise_map]
    have hmem : ∀ x ∈ sort (fun lhs rhs => decide (lhs.2 < rhs.2))
        (elems.map fun e => (e, rating e)), x.2 = rating x.1 := by
      intro x hx
      have := hperm.mem_iff.1 hx
      rw [List.mem_map] at this
      obtain ⟨e, _, rfl⟩ := this
      rfl
    refine List.Pairwise.imp_of_mem (fun {a b} ha hb hab => ?_) hsorted
    simp only [decide_eq_false_iff_not, not_lt] at hab
    rw [← hmem a ha, ← hmem b hb]
    exact hab

/-! ## Corner pieces of the road arms -/

theorem road_corner_cells_eq (c : Int) (dir : Nat) :
    road_corner_cells c dir = (corner_triangle c).map fun p => coord_rotate_cw p dir := by
  unfold road_corner_cells corner_triangle
  have h3 : List.range' 1 3 = [1, 2, 3] := by decide
  have r1 : List.range 1 = [0] := by decide
  have r2 : List.range 2 = [0, 1] := by decide
  have r3 : List.range 3 = [0, 1, 2] := by decide
  rw [h3]
  simp only [List.flatMap_cons, List.flatMap_nil, r1, r2, r3, List.map, List.append_nil,
    List.cons_append, List.nil_append]
  by_cases hc : c = -1
  · simp [hc, SEEX]
  · simp [hc, SEEX]

/-- The triangle on the side picked by `b`: `true` for the indicator -1. -/
theorem corner_triangle_side (c : Int) :
    corner_triangle c = if c = -1 then corner_triangle (-1) else corner_triangle 1 := by
  by_cases h : c = -1
  · rw [if_pos h, h]
  · rw [if_neg h]
    unfold corner_triangle
    rw [if_neg h, if_neg (by decide)]

theorem corner_triangle_facts : ∀ b : Bool, ∀ d : Fin 4,
    (((if b then corner_triangle (-1) else corner_triangle 1).map
        fun p => coord_rotate_cw p d.val).Nodup) ∧
    (∀ q ∈ (if b then corner_triangle (-1) else corner_triangle 1).map
        (fun p => coord_rotate_cw p d.val), 0 ≤ q.x ∧ q.x < 24 ∧ 0 ≤ q.y ∧ q.y < 24) := by
  decide

theorem corner_triangle_rows : ∀ b : Bool,
    (if b then corner_triangle (-1) else corner_triangle 1).length = 6 ∧
    ((if b then corner_triangle (-1) else corner_triangle 1).filter
      (fun p => decide (p.y = 0))).length = 3 ∧
    ((if b then corner_triangle (-1) else corner_triangle 1).filter
      (fun p => decide (p.y = 1))).length = 2 ∧
    ((if b then corner_triangle (-1) else corner_triangle 1).filter
      (fun p => decide (p.y = 2))).length = 1 ∧
    (∀ p ∈ (if b then corner_triangle (-1) else corner_triangle 1),
      (b = true → 1 ≤ p.x ∧ p.x ≤ 3) ∧ (b = false → 20 ≤ p.x ∧ p.x ≤ 22)) := by
  decide

theorem corner_triangle_mem (b : Bool) (p : point) :
    p ∈ (if b then corner_triangle (-1) else corner_triangle 1) ↔
      ∃ x y : Int, 1 ≤ x ∧ x ≤ 3 ∧ 0 ≤ y ∧ y < x ∧ p = ⟨if b then x else 23 - x, y⟩ := by
  constructor
  · intro hp
    cases b
    · simp only [Bool.false_eq_true, if_false, corner_triangle, List.mem_cons,
        List.mem_singleton, List.mem_nil_iff, or_false,
        show ¬ ((1 : Int) = -1) by decide] at hp
      rcases hp with rfl | rfl | rfl | rfl | rfl | rfl
      · exact ⟨1, 0, by decide, by decide, by decide, by decide, rfl⟩
      · exact ⟨2, 0, by decide, by decide, by decide, by decide, rfl⟩
      · exact ⟨2, 1, by decide, by decide, by decide, by decide, rfl⟩
      · exact ⟨3, 0, by decide, by decide, by decide, by decide, rfl⟩
      · exact ⟨3, 1, by decide, by decide, by decide, by decide, rfl⟩
      · exact ⟨3, 2, by decide, by decide, by decide, by decide, rfl⟩
    · simp only [if_true, corner_triangle, List.mem_cons, List.mem_singleton,
        List.mem_nil_iff, or_false] at hp
      rcases hp with rfl | rfl | rfl | rfl | rfl | rfl
      · exact ⟨1, 0, by decide, by decide, by decide, by decide, rfl⟩
      · exact ⟨2, 0, by decide, by decide, by decide, by decide, rfl⟩
      · exact ⟨2, 1, by decide, by decide, by decide, by decide, rfl⟩
      · exact ⟨3, 0, by decide, by decide, by decide, by decide, rfl⟩
      · exact ⟨3, 1, by decide, by decide, by decide, by decide, rfl⟩
      · exact ⟨3, 2, by decide, by decide, by decide, by decide, rfl⟩
  · rintro ⟨x, y, h1, h2, h3, h4, rfl⟩
    have hx : x = 1 ∨ x = 2 ∨ x = 3 := by omega
    cases b
    · rcases hx with rfl | rfl | rfl
      · have hy : y = 0 := by omega
        subst hy; decide
      · have hy : y = 0 ∨ y = 1 := by omega
        rcases hy with rfl | rfl <;> decide
      · have hy : y = 0 ∨ y = 1 ∨ y = 2 := by omega
        rcases hy with rfl | rfl | rfl <;> decide
    · rcases hx with rfl | rfl | rfl
      · have hy : y = 0 := by omega
        subst hy; decide
      · have hy : y = 0 ∨ y = 1 := by omega
        rcases hy with rfl | rfl <;> decide
      · have hy : y = 0 ∨ y = 1 ∨ y = 2 := by omega
        rcases hy with rfl | rfl | rfl <;> decide

/-- C31: for an arm `dir` of the normal road drawing whose curve indicator is not
0, the corner fill writes the six cells of the triangle `(tx, y)`, `1 ≤ x ≤ 3`,
`0 ≤ y < x` (`tx = x` for the indicator -1, `tx = 23 - x` otherwise), each turned
`dir` times by `coord_rotate_cw`; the six cells are distinct and inside the
buffer, the triangle has 3, 2 and 1 cells in rows 0, 1 and 2, lies in columns
0..3 (indicator -1) or 20..23 (otherwise), and none of its cells belongs to the
16-wide North arm. -/
theorem road_corner_fill_triangle (roads_nesw : List Bool) (curvedir_nesw : List Int)
    (dir : Nat) (hdir : dir < 4) (harm : at_ roads_nesw dir = true)
    (hc : curvedir_nesw.getD dir 0 ≠ 0) :
    road_corner_fill roads_nesw curvedir_nesw dir
      = (corner_triangle (curvedir_nesw.getD dir 0)).map (fun p => coord_rotate_cw p dir) ∧
    (road_corner_fill roads_nesw curvedir_nesw dir).length = 6 ∧
    (road_corner_fill roads_nesw curvedir_nesw dir).Nodup ∧
    (∀ q ∈ road_corner_fill roads_nesw curvedir_nesw dir,
      0 ≤ q.x ∧ q.x < SEEX * 2 ∧ 0 ≤ q.y ∧ q.y < SEEY * 2) ∧
    (∀ p, p ∈ corner_triangle (curvedir_nesw.getD dir 0) ↔
      ∃ x y : Int, 1 ≤ x ∧ x ≤ 3 ∧ 0 ≤ y ∧ y < x ∧
        p = ⟨if curvedir_nesw.getD dir 0 = -1 then x else 23 - x, y⟩) ∧
    ((corner_triangle (curvedir_nesw.getD dir 0)).filter (fun p => decide (p.y = 0))).length = 3 ∧
    ((corner_triangle (curvedir_nesw.getD dir 0)).filter (fun p => decide (p.y = 1))).length = 2 ∧
    ((corner_triangle (curvedir_nesw.getD dir 0)).filter (fun p => decide (p.y = 2))).length = 1 ∧
    (∀ p ∈ corner_triangle (curvedir_nesw.getD dir 0),
      (curvedir_nesw.getD dir 0 = -1 → 0 ≤ p.x ∧ p.x ≤ 3) ∧
      (curvedir_nesw.getD dir 0 ≠ -1 → 20 ≤ p.x ∧ p.x ≤ 23) ∧
      ∀ e : Int, north_arm e p = false) := by
  have hfill : road_corner_fill roads_nesw curvedir_nesw dir
      = (corner_triangle (curvedir_nesw.getD dir 0)).map (fun p => coord_rotate_cw p dir) := by
    unfold road_corner_fill
    rw [if_pos harm, if_pos hc, road_corner_cells_eq]
  generalize curvedir_nesw.getD dir 0 = c at hc hfill
  have hside : ∃ b : Bool, (b = true ↔ c = -1) ∧
      corner_triangle c = if b then corner_triangle (-1) else corner_triangle 1 := by
    by_cases h : c = -1
    · exact ⟨true, by simp [h], by rw [corner_triangle_side, if_pos h]; rfl⟩
    · exact ⟨false, by simp [h], by rw [corner_triangle_side, if_neg h]; rfl⟩
  obtain ⟨b, hb, hT⟩ := hside
  have hf := corner_triangle_facts b ⟨dir, hdir⟩
  obtain ⟨r0, r1, r2, r3, r4⟩ := corner_triangle_rows b
  have h24 : SEEX * 2 = 24 ∧ SEEY * 2 = 24 := by decide
  rw [hfill, hT, h24.1, h24.2]
  refine ⟨rfl, ?_, hf.1, hf.2, ?_, r1, r2, r3, ?_⟩
  · rw [List.length_map]; exact r0
  · intro p
    rw [corner_triangle_mem b p]
    have hi : ∀ x : Int, (if c = -1 then x else 23 - x) = (if b = true then x else 23 - x) := by
      intro x
      by_cases h : c = -1
      · rw [if_pos h, if_pos (hb.2 h)]
      · rw [if_neg h, if_neg (fun hh => h (hb.1 hh))]
    simp only [hi]
  · intro p hp
    have hcols := r4 p hp
    have hbf : c ≠ -1 → b = false := by
      intro h
      cases b
      · rfl
      · exact absurd (hb.1 rfl) h
    refine ⟨fun h => ?_, fun h => ?_, fun e => ?_⟩
    · have := hcols.1 (hb.2 h); omega
    · have := hcols.2 (hbf h); omega
    · unfold north_arm
      rw [decide_eq_false_iff_not]
      by_cases h : c = -1
      · have := hcols.1 (hb.2 h); omega
      · have := hcols.2 (hbf h); omega

/-! ## `coord_rotate_cw` against `rotate_point` -/

theorem coord_rotate_cw_iterate (p : point) (r : Nat) :
    coord_rotate_cw p r = Nat.iterate quarter_turn r p := by
  induction r generalizing p with
  | zero => rfl
  | succ n ih =>
    rw [Function.iterate_succ_apply]
    show coord_rotate_cw ⟨(SEEY * 2 - 1) - p.y, p.x⟩ n = _
    rw [ih]
    rfl

theorem coord_rotate_cw_in_tile (p : point) (hp : in_tile p) (r : Nat) :
    in_tile (coord_rotate_cw p r) := by
  induction r generalizing p with
  | zero => exact hp
  | succ n ih =>
    show in_tile (coord_rotate_cw ⟨(SEEY * 2 - 1) - p.y, p.x⟩ n)
    apply ih
    unfold in_tile at hp ⊢
    have : SEEY * 2 - 1 = 23 := by decide
    dsimp only
    rw [this]
    omega

theorem coord_rotate_cw_small (p : point) :
    coord_rotate_cw p 0 = p ∧ coord_rotate_cw p 1 = ⟨23 - p.y, p.x⟩ ∧
    coord_rotate_cw p 2 = ⟨23 - p.x, 23 - p.y⟩ ∧ coord_rotate_cw p 3 = ⟨p.y, 23 - p.x⟩ := by
  have h : SEEY * 2 - 1 = 23 := by decide
  refine ⟨rfl, ?_, ?_, ?_⟩
  · simp only [coord_rotate_cw, h]
  · simp only [coord_rotate_cw, h]
  · simp only [coord_rotate_cw, h]
    congr 1
    omega

theorem rotate_point_small (x y z : Int) (h : 0 ≤ x ∧ x < 24 ∧ 0 ≤ y ∧ y < 24) :
    rotate_point ⟨x, y, z⟩ (0 : Nat) = ⟨x, y, z⟩ ∧
    rotate_point ⟨x, y, z⟩ (1 : Nat) = ⟨y, 23 - x, z⟩ ∧
    rotate_point ⟨x, y, z⟩ (2 : Nat) = ⟨23 - x, 23 - y, z⟩ ∧
    rotate_point ⟨x, y, z⟩ (3 : Nat) = ⟨23 - y, x, z⟩ := by
  have h24 : SEEX * 2 = 24 ∧ SEEY * 2 = 24 := by decide
  have hin : ¬ (x < 0 ∨ x ≥ 24 ∨ y < 0 ∨ y ≥ 24) := by omega
  have t0 : Int.tmod ((0 : Nat) : Int) 4 = 0 := by decide
  have t1 : Int.tmod ((1 : Nat) : Int) 4 = 1 := by decide
  have t2 : Int.tmod ((2 : Nat) : Int) 4 = 2 := by decide
  have t3 : Int.tmod ((3 : Nat) : Int) 4 = 3 := by decide
  have n10 : ¬ ((1 : Int) = 0) := by decide
  have n20 : ¬ ((2 : Int) = 0) := by decide
  have n21 : ¬ ((2 : Int) = 1) := by decide
  have n30 : ¬ ((3 : Int) = 0) := by decide
  have n31 : ¬ ((3 : Int) = 1) := by decide
  have n32 : ¬ ((3 : Int) = 2) := by decide
  refine ⟨?_, ?_, ?_, ?_⟩
  · unfold rotate_point
    rw [h24.1, h24.2]
    dsimp only
    rw [if_neg hin, t0, if_pos rfl]
  · unfold rotate_point
    rw [h24.1, h24.2]
    dsimp only
    rw [if_neg hin, t1, if_neg n10, if_pos rfl]
    rfl
  · unfold rotate_point
    rw [h24.1, h24.2]
    dsimp only
    rw [if_neg hin, t2, if_neg n20, if_neg n21, if_pos rfl]
    rfl
  · unfold rotate_point
    rw [h24.1, h24.2]
    dsimp only
    rw [if_neg hin, t3, if_neg n30, if_neg n31, if_neg n32, if_pos rfl]
    rfl

/-- C36: for `r ≥ 0`, `coord_rotate_cw` applies `r` times the step
`(x, y) -> (23 - y, x)`, keeps a point of the buffer inside the buffer and is the
identity for `r = 4`; it turns against `rotate_point`: for a point of the buffer
and `r` in 0..3, `rotate_point` with `r` takes the result of `coord_rotate_cw`
with `r` back to the point, and one step of `coord_rotate_cw` is `rotate_point`
with 3 rotations. -/
theorem coord_rotate_cw_against_rotate_point (p : tripoint) (r : Nat) (hp : in_buffer p) :
    coord_rotate_cw p.xy r = Nat.iterate quarter_turn r p.xy ∧
    in_tile (coord_rotate_cw p.xy r) ∧
    coord_rotate_cw p.xy 4 = p.xy ∧
    (r < 4 → rotate_point ⟨(coord_rotate_cw p.xy r).x, (coord_rotate_cw p.xy r).y, p.z⟩ r = p) ∧
    rotate_point p 3 = ⟨(coord_rotate_cw p.xy 1).x, (coord_rotate_cw p.xy 1).y, p.z⟩ := by
  have h24 : SEEX * 2 = 24 ∧ SEEY * 2 = 24 := by decide
  have hp' : 0 ≤ p.x ∧ p.x < 24 ∧ 0 ≤ p.y ∧ p.y < 24 := by
    unfold in_buffer at hp
    rw [h24.1, h24.2] at hp
    exact hp
  have ht : in_tile p.xy := hp'
  obtain ⟨s0, s1, s2, s3⟩ := coord_rotate_cw_small p.xy
  refine ⟨coord_rotate_cw_iterate _ _, coord_rotate_cw_in_tile _ ht _, coord_rotate_cw_four _,
    ?_, ?_⟩
  · intro hr
    have hr4 : r = 0 ∨ r = 1 ∨ r = 2 ∨ r = 3 := by omega
    obtain ⟨x, y, z⟩ := p
    simp only [tripoint.xy] at s0 s1 s2 s3 hp' ⊢
    rcases hr4 with rfl | rfl | rfl | rfl
    · rw [s0]
      exact (rotate_point_small x y z hp').1
    · rw [s1]
      rw [(rotate_point_small (23 - y) x z (by omega)).2.1]
      simp only [tripoint.mk.injEq, and_true, true_and]
      omega
    · rw [s2]
      rw [(rotate_point_small (23 - x) (23 - y) z (by omega)).2.2.1]
      simp only [tripoint.mk.injEq, and_true]
      omega
    · rw [s3]
      rw [(rotate_point_small y (23 - x) z (by omega)).2.2.2]
      simp only [tripoint.mk.injEq, and_true, true_and]
      omega
  · obtain ⟨x, y, z⟩ := p
    simp only [tripoint.xy] at s1 hp' ⊢
    rw [s1]
    exact (rotate_point_small x y z hp').2.2.2

/-! ## `rotate_point` for negative rotations -/

theorem tmod_neg_cases (r : Int) (hneg : r < 0) (hmul : ¬ (4 ∣ r)) :
    Int.tmod r 4 = -1 ∨ Int.tmod r 4 = -2 ∨ Int.tmod r 4 = -3 := by
  match r, hneg, hmul with
  | Int.negSucc n, _, hmul =>
    have e : Int.tmod (Int.negSucc n) 4 = -(((n + 1) % 4 : Nat) : Int) := rfl
    rw [e]
    have hn : ¬ (4 ∣ n + 1) := by
      intro hd
      apply hmul
      rw [Int.negSucc_eq]
      omega
    omega

/-- C37: for a point of the buffer and a negative `rotations` that is not a
multiple of 4, `rotate_point` returns the point unchanged; so `rotate_point` is
not periodic modulo 4 there: with -1 it returns `p`, with 3 it returns another
point (the quarter-turn has no fixed point among the cells). -/
theorem rotate_point_negative (p : tripoint) (rotations : Int) (hp : in_buffer p)
    (hneg : rotations < 0) (hmul : ¬ (4 ∣ rotations)) :
    rotate_point p rotations = p ∧
    rotate_point p (-1) = p ∧
    rotate_point p 3 = ⟨SEEY * 2 - 1 - p.y, p.x, p.z⟩ ∧
    rotate_point p 3 ≠ rotate_point p (-1) := by
  have h24 : SEEX * 2 = 24 ∧ SEEY * 2 = 24 := by decide
  have hp' : 0 ≤ p.x ∧ p.x < 24 ∧ 0 ≤ p.y ∧ p.y < 24 := by
    unfold in_buffer at hp
    rw [h24.1, h24.2] at hp
    exact hp
  have hin : ¬ (p.x < 0 ∨ p.x ≥ SEEX * 2 ∨ p.y < 0 ∨ p.y ≥ SEEY * 2) := by
    rw [h24.1, h24.2]; omega
  have key : ∀ r : Int, r < 0 → ¬ (4 ∣ r) → rotate_point p r = p := by
    intro r hr hm
    unfold rotate_point
    rw [if_neg hin]
    dsimp only
    rcases tmod_neg_cases r hr hm with h | h | h <;> rw [h] <;> simp
  have h3 : rotate_point p 3 = ⟨SEEY * 2 - 1 - p.y, p.x, p.z⟩ := by
    unfold rotate_point
    rw [if_neg hin]
    have t3 : Int.tmod 3 4 = 3 := by decide
    dsimp only
    rw [t3]
    simp
  have hm1 : rotate_point p (-1) = p := key (-1) (by decide) (by decide)
  refine ⟨key rotations hneg hmul, hm1, h3, ?_⟩
  rw [h3, hm1]
  intro h
  have hx : SEEY * 2 - 1 - p.y = p.x := congrArg tripoint.x h
  have hy : p.x = p.y := congrArg tripoint.y h
  rw [h24.2] at hx
  omega

/-! ## `mapgen_rift` -/

theorem rift_factors_one_side (s : Nat) (hs : s < 4) (connects : Bool) (k : Int) :
    rift_factors (one_open_side s connects) (fun _ _ _ => k) ⟨0, 0, 0, 0⟩
      = ⟨if s = 0 then k else 0, if s = 1 then k else 0, if s = 2 then k else 0,
          if s = 3 then k else 0⟩ := by
  have h4 : s = 0 ∨ s = 1 ∨ s = 2 ∨ s = 3 := by omega
  rcases h4 with rfl | rfl | rfl | rfl <;> cases connects <;> rfl

/-- C32: evaluation of `mapgen_rift` for a tile with rifts on three sides and a
connecting neighbour on the fourth, for which `rng( -6, -2 )` returns `-k`
(`2 ≤ k ≤ 6`).  With the neighbour to the North the `k` rows at the northern
edge are rock floor, with the neighbour to the West the `k` western columns; with
the neighbour to the South or to the East every cell of the tile is lava, the
`k` rows or columns at that edge included.  For a neighbour that does not
connect (`rng( 2, 6 )` returns `k`) the band of `k` rows or columns at its edge is
solid rock on all four sides. -/
theorem rift_connection_band (k : Int) (hk : 2 ≤ k ∧ k ≤ 6) (p : point) (hp : in_tile p) :
    mapgen_rift (one_open_side 0 true) (fun _ _ _ => -k) ⟨0, 0, 0, 0⟩ p
      = some (if p.y < k then lava_ter.t_rock_floor else lava_ter.t_lava) ∧
    mapgen_rift (one_open_side 3 true) (fun _ _ _ => -k) ⟨0, 0, 0, 0⟩ p
      = some (if p.x < k then lava_ter.t_rock_floor else lava_ter.t_lava) ∧
    mapgen_rift (one_open_side 2 true) (fun _ _ _ => -k) ⟨0, 0, 0, 0⟩ p
      = some lava_ter.t_lava ∧
    mapgen_rift (one_open_side 1 true) (fun _ _ _ => -k) ⟨0, 0, 0, 0⟩ p
      = some lava_ter.t_lava ∧
    mapgen_rift (one_open_side 0 false) (fun _ _ _ => k) ⟨0, 0, 0, 0⟩ p
      = some (if p.y < k then lava_ter.t_rock else lava_ter.t_lava) ∧
    mapgen_rift (one_open_side 3 false) (fun _ _ _ => k) ⟨0, 0, 0, 0⟩ p
      = some (if p.x < k then lava_ter.t_rock else lava_ter.t_lava) ∧
    mapgen_rift (one_open_side 2 false) (fun _ _ _ => k) ⟨0, 0, 0, 0⟩ p
      = some (if p.y ≥ 24 - k then lava_ter.t_rock else lava_ter.t_lava) ∧
    mapgen_rift (one_open_side 1 false) (fun _ _ _ => k) ⟨0, 0, 0, 0⟩ p
      = some (if p.x ≥ 24 - k then lava_ter.t_rock else lava_ter.t_lava) := by
  have h24 : SEEX * 2 = 24 ∧ SEEY * 2 = 24 := by decide
  obtain ⟨x, y⟩ := p
  unfold in_tile at hp
  dsimp only at hp
  have hin : 0 ≤ x ∧ x < 24 ∧ 0 ≤ y ∧ y < 24 := hp
  unfold mapgen_rift
  simp only [rift_factors_one_side _ (by decide : (0 : Nat) < 4),
    rift_factors_one_side _ (by decide : (1 : Nat) < 4),
    rift_factors_one_side _ (by decide : (2 : Nat) < 4),
    rift_factors_one_side _ (by decide : (3 : Nat) < 4)]
  rw [h24.1, h24.2]
  simp only [if_pos hin]
  unfold rift_cell
  rw [h24.1, h24.2]
  simp only [if_true, if_false, OfNat.ofNat_ne_zero, OfNat.zero_ne_ofNat, OfNat.ofNat_ne_one,
    OfNat.one_ne_ofNat, one_ne_zero, zero_ne_one, Nat.succ_ne_self, reduceCtorEq]
  refine ⟨?_, ?_, ?_, ?_, ?_, ?_, ?_, ?_⟩
  all_goals (split_ifs <;> first | rfl | (exfalso; omega))

/-! ## `mapgen_hellmouth` -/

theorem write_all_frame (ws : List (point × lava_ter)) (m : point → Option lava_ter) (q : point)
    (h : q ∉ ws.map Prod.fst) : write_all ws m q = m q := by
  unfold write_all
  induction ws generalizing m with
  | nil => rfl
  | cons w ws ih =>
    rw [List.foldl_cons, ih]
    · rw [if_neg]
      intro hq
      apply h
      rw [hq]
      exact List.mem_cons_self _ _
    · intro hq
      apply h
      exact List.mem_cons_of_mem _ hq

theorem altar_0_clear : ∀ c ∈ centre_cells, c ∉ altar_0.map Prod.fst := by decide
theorem altar_1_clear : ∀ c ∈ centre_cells, c ∉ altar_1.map Prod.fst := by decide
theorem altar_2_clear : ∀ c ∈ centre_cells, c ∉ altar_2.map Prod.fst := by decide
theorem altar_3_clear : ∀ c ∈ centre_cells, c ∉ altar_3.map Prod.fst := by decide

theorem altar_clear (design : Int) (c : point) (hc : c ∈ centre_cells) :
    c ∉ (altar_writes design).map Prod.fst := by
  unfold altar_writes
  split_ifs
  · exact altar_0_clear c hc
  · exact altar_1_clear c hc
  · exact altar_2_clear c hc
  · exact altar_3_clear c hc
  · simp

theorem hellmouth_ground_centre (dat : adjacency_factors) (c : point) (hc : c ∈ centre_cells) :
    hellmouth_ground dat c = some lava_ter.t_slope_down := by
  have h24 : SEEX * 2 = 24 ∧ SEEY * 2 = 24 ∧ SEEX = 12 ∧ SEEY = 12 := by decide
  simp only [centre_cells, List.mem_cons, List.mem_singleton, List.mem_nil_iff, or_false] at hc
  unfold hellmouth_ground hellmouth_cell
  rw [h24.1, h24.2.1, h24.2.2.1, h24.2.2.2]
  rcases hc with rfl | rfl | rfl | rfl <;> simp

/-- C38: for all neighbours, all four side factors and every value of the altar
design (0..3 draw an altar, any other value such as 4 draws none), the four
central cells (11,11), (12,11), (11,12), (12,12) are the downward slope after
`mapgen_hellmouth`, and no call of `ter_set` of the design names one of them. -/
theorem hellmouth_centre_slope (nesw : Nat → rift_side) (dat : adjacency_factors)
    (design : Int) (c : point) (hc : c ∈ centre_cells) :
    mapgen_hellmouth nesw dat design c = some lava_ter.t_slope_down ∧
    c ∉ (altar_writes design).map Prod.fst := by
  refine ⟨?_, altar_clear design c hc⟩
  unfold mapgen_hellmouth
  rw [write_all_frame _ _ _ (altar_clear design c hc)]
  exact hellmouth_ground_centre _ c hc

/-! ## Lake shore: the order of the two slots of a side -/

/-- C33: evaluation of the slot code of `mapgen_lake_shore` (the sixteen slot
assignments and the swap loop) for a tile with one shore or river-bank neighbour
and lakes at the two corners next to it, so that both slots of that side are
open.  Shore: after the swap slot 1 = (7,0) is west of slot 0 = (16,0), slot 2 =
(0,7) north of slot 3 = (0,16), slot 4 = (7,23) west of slot 5 = (16,23), slot 7 =
(23,7) north of slot 6 = (23,16), as in the diagram.  River bank: the slots are
assigned in that order and the swap reverses it: slot 1 = (19,0) ends east of
slot 0 = (4,0), slot 2 = (0,19) south of slot 3 = (0,4), slot 4 = (19,23) east of
slot 5 = (4,23), slot 7 = (23,19) south of slot 6 = (23,4). -/
theorem river_bank_slots_reversed :
    (List.range 4).map (fun s => (open_slots (lake_shore_slots (bank_on_side n_type.shore s))).2)
      = [[some ⟨16, 0⟩, some ⟨7, 0⟩, none, none, none, none, none, none],
          [none, none, none, none, none, none, some ⟨23, 16⟩, some ⟨23, 7⟩],
          [none, none, none, none, some ⟨7, 23⟩, some ⟨16, 23⟩, none, none],
          [none, none, some ⟨0, 7⟩, some ⟨0, 16⟩, none, none, none, none]] ∧
    (List.range 4).map (fun s => lake_shore_slots (bank_on_side n_type.river s))
      = [[some ⟨19, 0⟩, some ⟨4, 0⟩, none, none, none, none, none, none],
          [none, none, none, none, none, none, some ⟨23, 19⟩, some ⟨23, 4⟩],
          [none, none, none, none, some ⟨4, 23⟩, some ⟨19, 23⟩, none, none],
          [none, none, some ⟨0, 4⟩, some ⟨0, 19⟩, none, none, none, none]] ∧
    (List.range 4).map (fun s => (open_slots (lake_shore_slots (bank_on_side n_type.river s))).2)
      = [[some ⟨4, 0⟩, some ⟨19, 0⟩, none, none, none, none, none, none],
          [none, none, none, none, none, none, some ⟨23, 4⟩, some ⟨23, 19⟩],
          [none, none, none, none, some ⟨19, 23⟩, some ⟨4, 23⟩, none, none],
          [none, none, some ⟨0, 19⟩, some ⟨0, 4⟩, none, none, none, none]] ∧
    (List.range 4).map (fun s => count_lakes (bank_on_side n_type.river s)) = [2, 2, 2, 2] := by
  decide

/-! ## `damage_instance` -/

theorem add_unit_types {F : Type} (ops : float_ops F) (l : List (damage_unit F))
    (new_du : damage_unit F) :
    (add_unit ops l new_du).map (fun du => du.type)
      = if new_du.type ∈ l.map (fun du => du.type) then l.map (fun du => du.type)
        else l.map (fun du => du.type) ++ [new_du.type] := by
  induction l with
  | nil => simp [add_unit]
  | cons du rest ih =>
    unfold add_unit
    by_cases h : du.type = new_du.type
    · rw [if_pos h]
      have hm : new_du.type ∈ (du :: rest).map (fun du => du.type) := by
        rw [List.map_cons, ← h]
        exact List.mem_cons_self _ _
      rw [if_pos hm]
      rfl
    · rw [if_neg h, List.map_cons, ih]
      by_cases hm : new_du.type ∈ rest.map (fun du => du.type)
      · rw [if_pos hm, if_pos (by rw [List.map_cons]; exact List.mem_cons_of_mem _ hm)]
        rfl
      · have hm2 : new_du.type ∉ (du :: rest).map (fun du => du.type) := by
          rw [List.map_cons, List.mem_cons]
          rintro (h1 | h1)
          · exact h h1.symm
          · exact hm h1
        rw [if_neg hm, if_neg hm2]
        rfl

theorem add_unit_nodup {F : Type} (ops : float_ops F) (l : List (damage_unit F))
    (new_du : damage_unit F) (h : (l.map fun du => du.type).Nodup) :
    ((add_unit ops l new_du).map fun du => du.type).Nodup := by
  rw [add_unit_types]
  split_ifs with hm
  · exact h
  · rw [List.nodup_append]
    refine ⟨h, List.nodup_singleton _, ?_⟩
    intro a ha hb
    rw [List.mem_singleton] at hb
    exact hm (hb ▸ ha)

theorem add_unit_present {F : Type} (ops : float_ops F) (l : List (damage_unit F))
    (new_du : damage_unit F) (hm : new_du.type ∈ l.map fun du => du.type) :
    ∃ pre du post, l = pre ++ du :: post ∧ du.type = new_du.type ∧
      (∀ e ∈ pre, e.type ≠ new_du.type) ∧
      add_unit ops l new_du = pre ++ combine_units ops du new_du :: post := by
  induction l with
  | nil => simp at hm
  | cons du rest ih =>
    unfold add_unit
    by_cases h : du.type = new_du.type
    · rw [if_pos h]
      exact ⟨[], du, rest, rfl, h, by simp, rfl⟩
    · rw [if_neg h]
      have hm2 : new_du.type ∈ rest.map fun du => du.type := by
        rw [List.map_cons, List.mem_cons] at hm
        rcases hm with h1 | h1
        · exact absurd h1.symm h
        · exact h1
      obtain ⟨pre, d0, post, e1, e2, e3, e4⟩ := ih hm2
      refine ⟨du :: pre, d0, post, by rw [e1]; rfl, e2, ?_, by rw [e4]; rfl⟩
      intro e he
      rw [List.mem_cons] at he
      rcases he with rfl | he
      · exact h
      · exact e3 e he

theorem add_unit_absent {F : Type} (ops : float_ops F) (l : List (damage_unit F))
    (new_du : damage_unit F) (hm : new_du.type ∉ l.map fun du => du.type) :
    add_unit ops l new_du = l ++ [new_du] := by
  induction l with
  | nil => rfl
  | cons du rest ih =>
    unfold add_unit
    rw [List.map_cons, List.mem_cons, not_or] at hm
    rw [if_neg (fun h => hm.1 h.symm), ih hm.2]
    rfl

theorem add_instance_nodup {F : Type} (ops : float_ops F) (added : List (damage_unit F))
    (d : damage_instance F) (h : (unit_types d).Nodup) :
    (unit_types (added.foldl (fun d added_du => d.add ops added_du) d)).Nodup := by
  induction added generalizing d with
  | nil => exact h
  | cons a rest ih =>
    rw [List.foldl_cons]
    exact ih _ (add_unit_nodup ops _ _ h)

theorem mult_damage_types {F : Type} (ops : float_ops F) (d : damage_instance F)
    (m : F) (pre_armor : Bool) :
    unit_types (d.mult_damage ops m pre_armor)
      = if ops.le_zero m then [] else unit_types d := by
  unfold damage_instance.mult_damage unit_types damage_instance.clear
  cases pre_armor <;> cases ops.le_zero m <;> simp [Function.comp_def]

theorem apply_call_nodup {F : Type} (ops : float_ops F) (d : damage_instance F)
    (c : damage_call F) (h : (unit_types d).Nodup) : (unit_types (apply_call ops d c)).Nodup := by
  cases c with
  | add new_du => exact add_unit_nodup ops _ _ h
  | add_instance added_di => exact add_instance_nodup ops _ d h
  | add_damage dt amt arpen arpen_mult dmg_mult => exact add_unit_nodup ops _ _ h
  | mult_damage m pre_armor =>
    show (unit_types (d.mult_damage ops m pre_armor)).Nodup
    rw [mult_damage_types]
    split_ifs
    · exact List.nodup_nil
    · exact h
  | clear => exact List.nodup_nil

theorem run_calls_nodup {F : Type} (ops : float_ops F) (calls : List (damage_call F))
    (d : damage_instance F) (h : (unit_types d).Nodup) :
    (unit_types (calls.foldl (apply_call ops) d)).Nodup := by
  induction calls generalizing d with
  | nil => exact h
  | cons c rest ih => exact ih _ (apply_call_nodup ops d c h)

/-- C39: after any sequence of calls of `add` (of a unit or of an instance),
`add_damage`, `mult_damage` and `clear` on an empty `damage_instance`, no two
units have the same damage type.  Adding a unit whose type is present changes
only the one unit of that type, which gets the sum of the two `amount`s and of
the two `res_pen`s and the product of the two `res_mult`s and of the two
`damage_multiplier`s, and leaves the number of units as it was; adding a unit of
a new type appends it unchanged; `mult_damage` with a multiplier `<= 0` leaves
no unit.  This holds whatever the floating-point operations compute; the last
line runs four calls with integer arithmetic. -/
theorem damage_units_one_per_type {F : Type} (ops : float_ops F)
    (calls : List (damage_call F)) :
    (unit_types (run_calls ops calls)).Nodup ∧
    (∀ new_du : damage_unit F, new_du.type ∈ unit_types (run_calls ops calls) →
      ∃ pre du post, (run_calls ops calls).damage_units = pre ++ du :: post ∧
        du.type = new_du.type ∧
        ((run_calls ops calls).add ops new_du).damage_units
          = pre ++ ⟨du.type, ops.add du.amount new_du.amount, ops.add du.res_pen new_du.res_pen,
              ops.mul du.res_mult new_du.res_mult,
              ops.mul du.damage_multiplier new_du.damage_multiplier⟩ :: post ∧
        ((run_calls ops calls).add ops new_du).damage_units.length
          = (run_calls ops calls).damage_units.length) ∧
    (∀ new_du : damage_unit F, new_du.type ∉ unit_types (run_calls ops calls) →
      ((run_calls ops calls).add ops new_du).damage_units
        = (run_calls ops calls).damage_units ++ [new_du]) ∧
    (∀ (multiplier : F) (pre_armor : Bool), ops.le_zero multiplier = true →
      ((run_calls ops calls).mult_damage ops multiplier pre_armor).damage_units = []) ∧
    (run_calls int_ops [damage_call.add ⟨3, 5, 1, 2, 3⟩, damage_call.add_damage 4 1 0 1 1,
        damage_call.add ⟨3, 2, 2, 2, 2⟩, damage_call.mult_damage 2 true]).damage_units
      = [⟨3, 14, 3, 4, 6⟩, ⟨4, 2, 0, 1, 1⟩] := by
  refine ⟨run_calls_nodup ops calls ⟨[]⟩ List.nodup_nil, ?_, ?_, ?_, by decide⟩
  · intro new_du hm
    obtain ⟨pre, du, post, e1, e2, _, e4⟩ := add_unit_present ops _ new_du hm
    refine ⟨pre, du, post, e1, e2, e4, ?_⟩
    show (add_unit ops _ new_du).length = _
    rw [e4, e1]
    simp
  · intro new_du hm
    exact add_unit_absent ops _ new_du hm
  · intro m pre_armor hle
    have h := mult_damage_types ops (run_calls ops calls) m pre_armor
    rw [hle, if_pos rfl] at h
    unfold unit_types at h
    exact List.map_eq_nil_iff.1 h

/-! ## `dealt_damage_instance` -/

theorem foldl_add_sum (l : List Int) (a : Int) :
    l.foldl (fun acc x => acc + x) a = a + l.sum := by
  induction l generalizing a with
  | nil => simp
  | cons x rest ih => rw [List.foldl_cons, ih, List.sum_cons]; omega

theorem sum_set (l : List Int) (n : Nat) (h : n < l.length) (a : Int) :
    (l.set n a).sum = l.sum + (a - l.getD n 0) := by
  induction l generalizing n with
  | nil => simp at h
  | cons x rest ih =>
    cases n with
    | zero => simp; omega
    | succ k =>
      have hk : k < rest.length := by simpa using h
      rw [List.set_cons_succ, List.sum_cons, ih k hk, List.sum_cons]
      simp only [List.getD_cons_succ]
      omega

theorem to_size_t_valid (dt : Int) (h0 : 0 ≤ dt) (h1 : dt < 11) : to_size_t dt = dt.toNat := by
  unfold to_size_t
  rw [Int.emod_eq_of_lt h0 (by omega)]

theorem to_size_t_invalid (dt : Int) (hr : is_int32 dt) (h : ¬ (0 ≤ dt ∧ dt < 11)) :
    ¬ (to_size_t dt < 11) := by
  unfold to_size_t
  unfold is_int32 at hr
  have h64 : (2 : Int) ^ 64 = 18446744073709551616 := by norm_num
  have h31 : (2 : Int) ^ 31 = 2147483648 := by norm_num
  rw [h64]
  rw [h31] at hr
  omega

theorem to_size_t_inj (a b : Int) (ha : is_int32 a) (hb : is_int32 b)
    (h : to_size_t a = to_size_t b) : a = b := by
  unfold to_size_t at h
  unfold is_int32 at ha hb
  have h64 : (2 : Int) ^ 64 = 18446744073709551616 := by norm_num
  have h31 : (2 : Int) ^ 31 = 2147483648 := by norm_num
  rw [h64] at h
  rw [h31] at ha hb
  omega

/-- C40: for a valid damage type `dt` (`0 ≤ dt < NUM_DT`), `set_damage( dt, a )`
makes `type_damage( dt )` equal to `a`, leaves `type_damage` of every other
damage type as it was and changes `total_damage` by `a` minus the old value; for
an invalid `dt` it leaves the instance unchanged, and `type_damage( dt )` is 0;
a freshly constructed instance has `type_damage` 0 for every type and
`total_damage` 0. -/
theorem set_damage_frame (d : dealt_damage_instance) (dt a : Int) (hdt : is_int32 dt) :
    (0 ≤ dt ∧ dt < NUM_DT →
      (d.set_damage dt a).type_damage dt = a ∧
      (∀ dt2, is_int32 dt2 → dt2 ≠ dt →
        (d.set_damage dt a).type_damage dt2 = d.type_damage dt2) ∧
      (d.set_damage dt a).total_damage = d.total_damage + (a - d.type_damage dt)) ∧
    (¬ (0 ≤ dt ∧ dt < NUM_DT) →
      (d.set_damage dt a).dealt_dams = d.dealt_dams ∧ d.set_damage dt a = d ∧
      d.type_damage dt = 0) ∧
    (∀ dt2, dealt_damage_instance.fresh.type_damage dt2 = 0) ∧
    dealt_damage_instance.fresh.total_damage = 0 := by
  have hN : NUM_DT = 11 := rfl
  have hlen := d.size_eq
  refine ⟨?_, ?_, ?_, ?_⟩
  · rintro ⟨h0, h1⟩
    rw [hN] at h1
    have hv : ¬ (dt < 0 ∨ dt ≥ NUM_DT) := by rw [hN]; omega
    have hset : (d.set_damage dt a).dealt_dams = d.dealt_dams.set dt.toNat a := by
      unfold dealt_damage_instance.set_damage
      rw [if_neg hv]
    have hlt : dt.toNat < d.dealt_dams.length := by rw [hlen]; omega
    refine ⟨?_, ?_, ?_⟩
    · unfold dealt_damage_instance.type_damage
      rw [hset, List.length_set, to_size_t_valid dt h0 h1, if_pos hlt]
      rw [List.getD_eq_getElem?_getD, List.getElem?_set_self hlt]
      rfl
    · intro dt2 h2 hne
      unfold dealt_damage_instance.type_damage
      rw [hset, List.length_set]
      have hne2 : dt.toNat ≠ to_size_t dt2 := by
        rw [← to_size_t_valid dt h0 h1]
        intro he
        exact hne (to_size_t_inj _ _ h2 hdt he.symm)
      rw [List.getD_eq_getElem?_getD, List.getD_eq_getElem?_getD, List.getElem?_set_ne hne2]
    · unfold dealt_damage_instance.total_damage dealt_damage_instance.type_damage
      rw [hset, foldl_add_sum, foldl_add_sum, sum_set _ _ hlt, to_size_t_valid dt h0 h1,
        if_pos hlt]
      omega
  · intro hinv
    have hv : dt < 0 ∨ dt ≥ NUM_DT := by rw [hN] at hinv ⊢; omega
    have hset : d.set_damage dt a = d := by
      unfold dealt_damage_instance.set_damage
      rw [if_pos hv]
    refine ⟨by rw [hset], hset, ?_⟩
    unfold dealt_damage_instance.type_damage
    rw [hN] at hinv
    rw [hlen, if_neg (to_size_t_invalid dt hdt hinv)]
  · intro dt2
    unfold dealt_damage_instance.type_damage dealt_damage_instance.fresh
    dsimp only
    split_ifs with h
    · rw [List.getD_eq_getElem?_getD, List.getElem?_replicate]
      split_ifs <;> rfl
    · rfl
  · decide

/-! ## `find_cycles`: the search finds a cycle exactly when there is one -/

theorem lookup_mem_keys {K V : Type} [DecidableEq K] (l : List (K × V)) (a : K) (b : V)
    (h : l.lookup a = some b) : (a, b) ∈ l := by
  induction l with
  | nil => simp [List.lookup] at h
  | cons e rest ih =>
    obtain ⟨k, x⟩ := e
    by_cases hk : a = k
    · subst hk
      simp [List.lookup] at h
      rw [h]
      exact List.mem_cons_self _ _
    · have hb : (a == k) = false := by simpa using hk
      simp only [List.lookup, hb] at h
      exact List.mem_cons_of_mem _ (ih h)

theorem lookup_none_keys {K V : Type} [DecidableEq K] (l : List (K × V)) (a : K)
    (h : l.lookup a = none) : a ∉ l.map Prod.fst := by
  induction l with
  | nil => simp
  | cons e rest ih =>
    obtain ⟨k, x⟩ := e
    by_cases hk : a = k
    · subst hk
      simp [List.lookup] at h
    · have hb : (a == k) = false := by simpa using hk
      simp only [List.lookup, hb] at h
      rw [List.map_cons, List.mem_cons, not_or]
      exact ⟨hk, ih h⟩

theorem lookup_of_nodup {K V : Type} [DecidableEq K] (l : List (K × V)) (a : K) (b : V)
    (hn : (l.map Prod.fst).Nodup) (hm : (a, b) ∈ l) : l.lookup a = some b := by
  induction l with
  | nil => simp at hm
  | cons e rest ih =>
    obtain ⟨k, x⟩ := e
    rw [List.map_cons, List.nodup_cons] at hn
    rw [List.mem_cons] at hm
    rcases hm with h | h
    · have h1 : a = k := congrArg Prod.fst h
      have h2 : b = x := congrArg Prod.snd h
      subst h1 h2
      simp [List.lookup]
    · have hk : a ≠ k := by
        rintro rfl
        exact hn.1 (List.mem_map.2 ⟨_, h, rfl⟩)
      have hb : (a == k) = false := by simpa using hk
      simp only [List.lookup, hb]
      exact ih hn.2 h

theorem has_edge_iff {T : Type} [DecidableEq T] (edges : List (T × List T)) (a b : T) :
    has_edge edges a b = true ↔ ∃ s, edges.lookup a = some s ∧ b ∈ s := by
  unfold has_edge
  rw [decide_eq_true_iff]
  cases h : edges.lookup a with
  | none => simp
  | some s => simp

theorem filter_branch {T : Type} [DecidableEq T] (br : List (T × T)) (w : T)
    (h : w ∉ br.map Prod.fst) : br.filter (fun e => decide (e.1 ≠ w)) = br := by
  rw [List.filter_eq_self]
  intro e he
  rw [decide_eq_true_iff]
  rintro rfl
  exact h (List.mem_map_of_mem Prod.fst he)

/-! ### The walk back along the branch -/

theorem path_to_initial {T : Type} [DecidableEq T] (next_v : T) (l : List T) :
    path_to next_v l <+: l := by
  induction l with
  | nil => exact List.prefix_refl _
  | cons c cs ih =>
    unfold path_to
    split_ifs with h
    · exact ⟨cs, rfl⟩
    · exact (List.prefix_cons_inj c).2 ih

theorem path_to_head {T : Type} [DecidableEq T] (next_v c : T) (cs : List T) :
    (path_to next_v (c :: cs)).head? = some c := by
  unfold path_to
  split_ifs <;> rfl

theorem path_to_last {T : Type} [DecidableEq T] (next_v : T) (l : List T) (h : next_v ∈ l) :
    (path_to next_v l).getLast? = some next_v := by
  induction l with
  | nil => simp at h
  | cons c cs ih =>
    unfold path_to
    split_ifs with hc
    · rw [hc]; rfl
    · rw [List.mem_cons] at h
      rcases h with h | h
      · exact absurd h.symm hc
      · have hl := ih h
        cases hp : path_to next_v cs with
        | nil => rw [hp] at hl; simp at hl
        | cons d ds => rw [List.getLast?_cons_cons, ← hp]; exact hl

theorem loop_back_spec {T : Type} [DecidableEq T] (edges : List (T × List T))
    (branch : List (T × T)) (next_v : T) (hn : (branch.map Prod.fst).Nodup) :
    ∀ (tl pre : List (T × T)) (c p : T) (fuel : Nat) (acc : List T),
      branch = pre ++ (c, p) :: tl → ((c, p) :: tl).Chain' (branch_link edges) →
      next_v ∈ ((c, p) :: tl).map Prod.fst → ((c, p) :: tl).length ≤ fuel →
      loop_back branch next_v fuel c acc
        = some (acc ++ path_to next_v (((c, p) :: tl).map Prod.fst)) := by
  intro tl
  induction tl with
  | nil =>
    intro pre c p fuel acc _ _ hmem hfuel
    have hc : c = next_v := by
      simp only [List.map_cons, List.map_nil, List.mem_singleton] at hmem
      exact hmem.symm
    cases fuel with
    | zero => simp at hfuel
    | succ f =>
      unfold loop_back
      rw [if_pos hc]
      simp [path_to, hc]
  | cons e tl ih =>
    intro pre c p fuel acc hbr hch hmem hfuel
    obtain ⟨c1, p1⟩ := e
    cases fuel with
    | zero => simp at hfuel
    | succ f =>
      unfold loop_back
      by_cases hc : c = next_v
      · rw [if_pos hc]
        simp [path_to, hc]
      · rw [if_neg hc]
        have hl : branch.lookup c = some p := by
          apply lookup_of_nodup _ _ _ hn
          rw [hbr]
          simp
        rw [hl]
        dsimp only
        rw [List.chain'_cons] at hch
        have hp : p = c1 := hch.1.1
        subst hp
        have hmem2 : next_v ∈ ((p, p1) :: tl).map Prod.fst := by
          rw [List.map_cons, List.mem_cons] at hmem
          rcases hmem with h | h
          · exact absurd h.symm hc
          · exact h
        have hfuel2 : ((p, p1) :: tl).length ≤ f := by
          simp only [List.length_cons] at hfuel ⊢
          omega
        rw [ih (pre ++ [(c, p)]) p p1 f (acc ++ [c]) (by rw [hbr]; simp) hch.2 hmem2 hfuel2]
        simp [path_to, hc]

theorem loop_cycle {T : Type} [DecidableEq T] (edges : List (T × List T))
    (branch : List (T × T)) (v p : T) (rest : List (T × T)) (next_v : T)
    (hbr : branch = (v, p) :: rest) (hok : branch_ok edges branch)
    (hmem : next_v ∈ branch.map Prod.fst) (hedge : has_edge edges v next_v = true) :
    ∃ loop, loop_back branch next_v (branch.length + 1) v [] = some loop ∧
      simple_cycle edges loop.reverse := by
  subst hbr
  refine ⟨path_to next_v (((v, p) :: rest).map Prod.fst), ?_, ?_⟩
  · have h := loop_back_spec edges ((v, p) :: rest) next_v hok.2 rest [] v p
      (((v, p) :: rest).length + 1) [] rfl hok.1 hmem (Nat.le_succ _)
    rw [h, List.nil_append]
  · have hpre := path_to_initial next_v (((v, p) :: rest).map Prod.fst)
    have hkeys : (((v, p) :: rest).map Prod.fst).Chain'
        (flip fun a b => has_edge edges a b = true) := by
      rw [List.chain'_map]
      exact hok.1.imp fun {a b} h => h.2
    have hhead : (path_to next_v (((v, p) :: rest).map Prod.fst)).head? = some v := by
      rw [List.map_cons]
      exact path_to_head next_v v _
    have hlast := path_to_last next_v _ hmem
    refine ⟨⟨?_, ?_, ?_⟩, ?_⟩
    · intro h
      rw [List.reverse_eq_nil_iff] at h
      rw [h] at hhead
      simp at hhead
    · rw [List.chain'_reverse]
      exact hkeys.infix hpre.isInfix
    · intro a ha b hb
      rw [List.getLast?_reverse, hhead] at ha
      rw [List.head?_reverse, hlast] at hb
      cases ha
      cases hb
      exact hedge
    · rw [List.nodup_reverse]
      exact hok.2.sublist hpre.sublist

/-! ### Settled sets and the fuel -/

theorem settled_congr {T : Type} [DecidableEq T] (edges : List (T × List T)) (B C : T → Prop)
    (h : ∀ x, B x ↔ C x) (hB : settled edges B) : settled edges C := by
  have e : B = C := funext fun x => propext (h x)
  rw [← e]
  exact hB

theorem settled_reach {T : Type} [DecidableEq T] (edges : List (T × List T)) (B : T → Prop)
    (hB : settled edges B) (a b : T) (ha : B a)
    (h : Relation.ReflTransGen (fun x y => has_edge edges x y = true) a b) : B b := by
  induction h with
  | refl => exact ha
  | tail _ hstep ih => exact hB.1 _ _ ih hstep

theorem settled_extend {T : Type} [DecidableEq T] (edges : List (T × List T)) (B : T → Prop)
    (v : T) (hB : settled edges B) (hv : ¬ B v)
    (hsucc : ∀ w, has_edge edges v w = true → B w) :
    settled edges (fun x => B x ∨ x = v) := by
  refine ⟨?_, ?_⟩
  · intro b w hb hbw
    rcases hb with hb | hb
    · exact Or.inl (hB.1 b w hb hbw)
    · subst hb
      exact Or.inl (hsucc w hbw)
  · intro b hb hcyc
    rcases hb with hb | hb
    · exact hB.2 b hb hcyc
    · subst hb
      obtain ⟨w, hbw, hwb⟩ := Relation.TransGen.head'_iff.1 hcyc
      exact hv (settled_reach edges B hB w b (hsucc w hbw) hwb)

theorem unvisited_mono {T : Type} [DecidableEq T] (edges : List (T × List T))
    (v1 v2 : List T) (h : v1 ⊆ v2) : unvisited edges v2 ≤ unvisited edges v1 := by
  unfold unvisited
  apply Finset.card_le_card
  apply Finset.sdiff_subset_sdiff (Finset.Subset.refl _)
  intro x hx
  rw [List.mem_toFinset] at hx ⊢
  exact h hx

theorem unvisited_lt {T : Type} [DecidableEq T] (edges : List (T × List T))
    (visited : List T) (v : T) (hk : v ∈ edges.map Prod.fst) (hv : v ∉ visited) :
    unvisited edges (v :: visited) < unvisited edges visited := by
  unfold unvisited
  apply Finset.card_lt_card
  rw [Finset.ssubset_iff_of_subset]
  · refine ⟨v, ?_, ?_⟩
    · rw [Finset.mem_sdiff, List.mem_toFinset, List.mem_toFinset]
      exact ⟨hk, hv⟩
    · rw [Finset.mem_sdiff, List.mem_toFinset, List.mem_toFinset]
      intro h
      exact h.2 (List.mem_cons_self _ _)
  · apply Finset.sdiff_subset_sdiff (Finset.Subset.refl _)
    intro x hx
    rw [List.mem_toFinset] at hx ⊢
    exact List.mem_cons_of_mem _ hx

theorem unvisited_le {T : Type} [DecidableEq T] (edges : List (T × List T))
    (visited : List T) : unvisited edges visited < cycle_fuel edges := by
  unfold unvisited cycle_fuel
  have h1 : ((edges.map Prod.fst).toFinset \ visited.toFinset).card
      ≤ (edges.map Prod.fst).toFinset.card := Finset.card_le_card Finset.sdiff_subset
  have h2 : (edges.map Prod.fst).toFinset.card ≤ (edges.map Prod.fst).length :=
    List.toFinset_card_le _
  rw [List.length_map] at h2
  omega

theorem foldlM_post {σ α : Type} (f : σ → α → Option σ) (I : List α → σ → Prop) (l : List α)
    (Q : σ → Prop)
    (hstep : ∀ done s x, x ∈ l → I done s → ∃ s1, f s x = some s1 ∧ I (done ++ [x]) s1) :
    ∀ (done : List α) (s : σ), I done s → (∀ s1, I (done ++ l) s1 → Q s1) →
      ∃ s1, l.foldlM f s = some s1 ∧ Q s1 := by
  induction l with
  | nil =>
    intro done s h hq
    exact ⟨s, rfl, hq s (by rw [List.append_nil]; exact h)⟩
  | cons x rest ih =>
    intro done s h hq
    obtain ⟨s1, e1, h1⟩ := hstep done s x (List.mem_cons_self _ _) h
    obtain ⟨s2, e2, h2⟩ := ih (fun d s y hy => hstep d s y (List.mem_cons_of_mem _ hy))
      (done ++ [x]) s1 h1 (fun s2 h2 => hq s2 (by rw [List.append_assoc] at h2; exact h2))
    refine ⟨s2, ?_, h2⟩
    rw [List.foldlM_cons, e1]
    exact e2

theorem impl_spec {T : Type} [DecidableEq T] (edges : List (T × List T)) :
    ∀ (fuel : Nat) (v : T) (st : cycle_state T) (p : T) (rest : List (T × T)),
      st.on_current_branch = (v, p) :: rest →
      branch_ok edges st.on_current_branch →
      unvisited edges st.visited < fuel →
      (∀ c ∈ st.result, simple_cycle edges c) →
      ∃ st1, find_cycles_impl edges fuel v st = some st1 ∧ impl_post edges v st st1 := by
  intro fuel
  induction fuel with
  | zero =>
    intro v st p rest _ _ hfuel _
    exact absurd hfuel (Nat.not_lt_zero _)
  | succ f ih =>
    intro v st p rest hbr hok hfuel hres
    rw [find_cycles_impl]
    by_cases hv : v ∈ st.visited
    · rw [if_pos hv]
      exact ⟨st, rfl, rfl, List.Subset.refl _, hv, hres, id, fun _ h => h⟩
    · rw [if_neg hv]
      dsimp only
      have hkeys : st.on_current_branch.map Prod.fst
          = v :: st.on_current_branch.tail.map Prod.fst := by rw [hbr]; rfl
      have hvA : v ∉ st.on_current_branch.tail.map Prod.fst := by
        have h := hok.2
        rw [hkeys, List.nodup_cons] at h
        exact h.1
      cases hl : edges.lookup v with
      | none =>
        dsimp only
        refine ⟨_, rfl, rfl, List.subset_cons_self _ _, List.mem_cons_self _ _, hres, id, ?_⟩
        intro _ hS
        have hext := settled_extend edges _ v hS (fun h => hv h.1) (fun w hw => by
          rw [has_edge_iff] at hw
          obtain ⟨s, hs, _⟩ := hw
          rw [hl] at hs
          cases hs)
        refine settled_congr edges _ _ ?_ hext
        intro x
        constructor
        · rintro (⟨h1, h2⟩ | h)
          · exact ⟨List.mem_cons_of_mem _ h1, h2⟩
          · rw [h]
            exact ⟨List.mem_cons_self _ _, hvA⟩
        · rintro ⟨h1, h2⟩
          rw [List.mem_cons] at h1
          rcases h1 with h1 | h1
          · exact Or.inr h1
          · exact Or.inl ⟨h1, h2⟩
      | some next =>
        dsimp only
        have hedge : ∀ w, w ∈ next → has_edge edges v w = true := by
          intro w hw
          rw [has_edge_iff]
          exact ⟨next, hl, hw⟩
        have hedge2 : ∀ w, has_edge edges v w = true → w ∈ next := by
          intro w hw
          rw [has_edge_iff] at hw
          obtain ⟨s, hs, hws⟩ := hw
          rw [hl] at hs
          cases hs
          exact hws
        have hkey : v ∈ edges.map Prod.fst := List.mem_map.2 ⟨_, lookup_mem_keys _ _ _ hl, rfl⟩
        refine foldlM_post _ (succ_inv edges v st) next _ ?_ [] _ ?_ ?_
        · intro done s w hw hI
          obtain ⟨i1, i2, i3, i4, i5⟩ := hI
          by_cases hwv : w = v
          · rw [if_pos hwv]
            refine ⟨_, rfl, i1, i2, ?_, ?_, ?_⟩
            · intro c hc
              rw [List.mem_append, List.mem_singleton] at hc
              rcases hc with hc | hc
              · exact i3 c hc
              · rw [hc]
                refine ⟨⟨by simp, List.chain'_singleton _, ?_⟩, List.nodup_singleton _⟩
                intro a ha b hb
                simp only [List.getLast?_singleton, Option.mem_def, Option.some.injEq] at ha
                simp only [List.head?_cons, Option.mem_def, Option.some.injEq] at hb
                rw [← ha, ← hb]
                have := hedge w hw
                rw [hwv] at this
                exact this
            · intro h
              exact absurd h (by simp)
            · intro h
              exact absurd h (by simp)
          · rw [if_neg hwv]
            cases hb : s.on_current_branch.lookup w with
            | some q =>
              dsimp only
              have hmem : w ∈ s.on_current_branch.map Prod.fst :=
                List.mem_map.2 ⟨_, lookup_mem_keys _ _ _ hb, rfl⟩
              obtain ⟨loop, e, hsc⟩ := loop_cycle edges s.on_current_branch v p rest w
                (i1.trans hbr) (by rw [i1]; exact hok) hmem (hedge w hw)
              rw [e]
              refine ⟨_, rfl, i1, i2, ?_, ?_, ?_⟩
              · intro c hc
                rw [List.mem_append, List.mem_singleton] at hc
                rcases hc with hc | hc
                · exact i3 c hc
                · rw [hc]
                  exact hsc
              · intro h
                exact absurd h (by simp)
              · intro h
                exact absurd h (by simp)
            | none =>
              dsimp only
              have hnot : w ∉ s.on_current_branch.map Prod.fst := lookup_none_keys _ _ hb
              have hok2 : branch_ok edges ((w, v) :: s.on_current_branch) := by
                refine ⟨?_, ?_⟩
                · rw [i1, hbr, List.chain'_cons]
                  refine ⟨⟨rfl, hedge w hw⟩, ?_⟩
                  rw [← hbr]
                  exact hok.1
                · rw [List.map_cons, List.nodup_cons]
                  refine ⟨hnot, ?_⟩
                  rw [i1]
                  exact hok.2
              have hfuel2 : unvisited edges s.visited < f := by
                have h1 := unvisited_mono edges _ _ i2
                have h2 := unvisited_lt edges st.visited v hkey hv
                omega
              obtain ⟨st2, e2, hp1, hp2, hp3, hp4, hp5, hp6⟩ :=
                ih w { s with on_current_branch := (w, v) :: s.on_current_branch } v
                  s.on_current_branch rfl hok2 hfuel2 i3
              dsimp only at hp1 hp2 hp3 hp4 hp5 hp6
              rw [e2]
              refine ⟨_, rfl, ?_, ?_, hp4, fun h => i4 (hp5 h), ?_⟩
              · show List.filter (fun e => decide (e.1 ≠ w)) st2.on_current_branch
                  = st.on_current_branch
                rw [hp1, List.filter_cons]
                simp only [ne_eq, not_true_eq_false, decide_False, Bool.false_eq_true, if_false]
                rw [filter_branch _ _ hnot, i1]
              · exact fun x hx => hp2 (i2 hx)
              · intro hr hS
                obtain ⟨hS1, hall⟩ := i5 (hp5 hr) hS
                rw [List.tail_cons, i1] at hp6
                refine ⟨hp6 hr hS1, ?_⟩
                intro x hx
                rw [List.mem_append, List.mem_singleton] at hx
                rcases hx with hx | hx
                · exact ⟨hp2 (hall x hx).1, (hall x hx).2⟩
                · rw [hx]
                  refine ⟨hp3, ?_⟩
                  rw [← i1]
                  exact hnot
        · refine ⟨rfl, List.Subset.refl _, hres, id, ?_⟩
          intro _ hS
          refine ⟨?_, by simp⟩
          refine settled_congr edges _ _ ?_ hS
          intro x
          rw [hkeys, List.mem_cons, List.mem_cons]
          constructor
          · rintro ⟨h1, h2⟩
            have hx : x ≠ v := by
              rintro rfl
              exact hv h1
            exact ⟨Or.inr h1, fun h => h.elim hx h2⟩
          · rintro ⟨h1, h2⟩
            rw [not_or] at h2
            exact ⟨h1.resolve_left h2.1, h2.2⟩
        · intro s1 hI
          rw [List.nil_append] at hI
          obtain ⟨i1, i2, i3, i4, i5⟩ := hI
          refine ⟨i1, fun x hx => i2 (List.mem_cons_of_mem _ hx), i2 (List.mem_cons_self _ _),
            i3, i4, ?_⟩
          intro hr hS
          obtain ⟨hS1, hall⟩ := i5 hr hS
          have hext := settled_extend edges _ v hS1
            (fun h => h.2 (by rw [hkeys]; exact List.mem_cons_self _ _))
            (fun w hw => hall w (hedge2 w hw))
          refine settled_congr edges _ _ ?_ hext
          intro x
          rw [hkeys, List.mem_cons]
          constructor
          · rintro (⟨h1, h2⟩ | h)
            · rw [not_or] at h2
              exact ⟨h1, h2.2⟩
            · rw [h]
              exact ⟨i2 (List.mem_cons_self _ _), hvA⟩
          · rintro ⟨h1, h2⟩
            by_cases hx : x = v
            · exact Or.inr hx
            · exact Or.inl ⟨h1, fun h => h.elim hx h2⟩

/-! ### The loop over the roots -/

theorem foldlM_pair {σ α : Type} (f g : σ → α → Option σ) (I : List α → σ → Prop)
    (l : List α)
    (hstep : ∀ done s x, x ∈ l → I done s →
      ∃ s1, f s x = some s1 ∧ g s x = some s1 ∧ I (done ++ [x]) s1) :
    ∀ (done : List α) (s : σ), I done s →
      ∃ s1, l.foldlM f s = some s1 ∧ l.foldlM g s = some s1 ∧ I (done ++ l) s1 := by
  induction l with
  | nil =>
    intro done s h
    exact ⟨s, rfl, rfl, by rw [List.append_nil]; exact h⟩
  | cons x rest ih =>
    intro done s h
    obtain ⟨s1, e1, e1g, h1⟩ := hstep done s x (List.mem_cons_self _ _) h
    obtain ⟨s2, e2, e2g, h2⟩ := ih (fun d s y hy => hstep d s y (List.mem_cons_of_mem _ hy))
      (done ++ [x]) s1 h1
    refine ⟨s2, ?_, ?_, ?_⟩
    · rw [List.foldlM_cons, e1]
      exact e2
    · rw [List.foldlM_cons, e1g]
      exact e2g
    · rw [List.append_assoc] at h2
      exact h2

theorem root_step {T : Type} [DecidableEq T] (edges : List (T × List T))
    (done : List (T × List T)) (st : cycle_state T) (p : T × List T)
    (hI : roots_inv edges done st) :
    ∃ st1, find_cycles_root edges st p.1 = some st1 ∧
      (find_cycles_impl edges (cycle_fuel edges) p.1
        { st with on_current_branch := (p.1, p.1) :: st.on_current_branch }).map
        (fun st1 => { st1 with on_current_branch :=
          st1.on_current_branch.filter fun e => decide (e.1 ≠ p.1) }) = some st1 ∧
      roots_inv edges (done ++ [p]) st1 := by
  obtain ⟨i1, i2, i3, i4⟩ := hI
  have hok : branch_ok edges ((p.1, p.1) :: st.on_current_branch) := by
    rw [i1]
    exact ⟨List.chain'_singleton _, List.nodup_singleton _⟩
  obtain ⟨st2, e2, hp1, hp2, hp3, hp4, hp5, hp6⟩ :=
    impl_spec edges (cycle_fuel edges) p.1
      { st with on_current_branch := (p.1, p.1) :: st.on_current_branch } p.1
      st.on_current_branch rfl hok (unvisited_le edges _) i3
  dsimp only at hp1 hp2 hp3 hp4 hp5 hp6
  have hfil : st2.on_current_branch.filter (fun e => decide (e.1 ≠ p.1)) = [] := by
    rw [hp1, i1, List.filter_cons]
    simp
  unfold find_cycles_root
  rw [e2]
  refine ⟨{ st2 with on_current_branch :=
      st2.on_current_branch.filter fun e => decide (e.1 ≠ p.1) }, ?_, rfl, ?_⟩
  · rw [Option.some_bind, if_pos (by rw [hfil]; rfl)]
  · refine ⟨hfil, ?_, hp4, ?_⟩
    · intro q hq
      rw [List.mem_append, List.mem_singleton] at hq
      rcases hq with hq | hq
      · exact hp2 (i2 q hq)
      · rw [hq]
        exact hp3
    · intro hr
      rw [List.tail_cons, i1] at hp6
      have h0 := i4 (hp5 hr)
      have h1 := hp6 hr (settled_congr edges _ _ (fun x => by simp) h0)
      exact settled_congr edges _ _ (fun x => by simp) h1

theorem find_cycles_run {T : Type} [DecidableEq T] (edges : List (T × List T)) :
    ∃ st, find_cycles_asserted edges = some st.result ∧ find_cycles edges = some st.result ∧
      roots_inv edges edges st := by
  obtain ⟨st, e1, e2, hI⟩ := foldlM_pair
    (fun (st : cycle_state T) (p : T × List T) => find_cycles_root edges st p.1)
    (fun (st : cycle_state T) (p : T × List T) =>
      (find_cycles_impl edges (cycle_fuel edges) p.1
        { st with on_current_branch := (p.1, p.1) :: st.on_current_branch }).map
        fun st1 => { st1 with on_current_branch :=
          st1.on_current_branch.filter fun e => decide (e.1 ≠ p.1) })
    (roots_inv edges) edges
    (fun done s x _ h => root_step edges done s x h) [] ⟨[], [], []⟩
    ⟨rfl, by simp, by simp, fun _ => ⟨by simp, by simp⟩⟩
  rw [List.nil_append] at hI
  refine ⟨st, ?_, ?_, hI⟩
  · unfold find_cycles_asserted
    rw [e1]
    rfl
  · unfold find_cycles
    rw [e2]
    rfl

theorem closed_walk_trans {T : Type} [DecidableEq T] (edges : List (T × List T)) (c : List T)
    (h : closed_walk edges c) :
    ∃ a, Relation.TransGen (fun x y => has_edge edges x y = true) a a := by
  obtain ⟨hne, hch, hclose⟩ := h
  cases c with
  | nil => exact absurd rfl hne
  | cons a l =>
    refine ⟨a, ?_⟩
    have hreach := List.relationReflTransGen_of_exists_chain l hch rfl
    exact Relation.TransGen.tail' hreach
      (hclose _ (List.getLast?_eq_getLast _ (List.cons_ne_nil _ _)) a rfl)

theorem visited_of_source {T : Type} [DecidableEq T] (edges : List (T × List T))
    (st : cycle_state T) (hI : roots_inv edges edges st) (a w : T)
    (h : has_edge edges a w = true) : a ∈ st.visited := by
  rw [has_edge_iff] at h
  obtain ⟨s, hs, _⟩ := h
  exact hI.2.1 _ (lookup_mem_keys _ _ _ hs)

/-- C34: for every edge map (a list of keys with their successor lists, read in
the order of the list, which is the order in which the roots are visited; a
vertex without out-edges need not be a key), `find_cycles` returns, and the list
returned is empty if and only if the directed graph has no cycle, a self-loop
being a cycle.  Two runs follow: a graph without a cycle, and a three-cycle with
a chord. -/
theorem find_cycles_detects {T : Type} [DecidableEq T] (edges : List (T × List T)) :
    (∃ r, find_cycles edges = some r ∧ (r = [] ↔ ¬ has_cycle edges)) ∧
    find_cycles [(0, [1, 2]), (1, [2])] = some [] ∧
    find_cycles [(1, [2]), (0, [1, 2]), (2, [0])] = some [[1, 2, 0], [2, 0]] := by
  refine ⟨?_, by decide, by decide⟩
  obtain ⟨st, _, e, hI⟩ := find_cycles_run edges
  refine ⟨st.result, e, ?_, ?_⟩
  · intro hr hcyc
    obtain ⟨c, hc⟩ := hcyc
    obtain ⟨a, ha⟩ := closed_walk_trans edges c hc
    obtain ⟨w, haw, _⟩ := Relation.TransGen.head'_iff.1 ha
    exact (hI.2.2.2 hr).2 a (visited_of_source edges st hI a w haw) ha
  · intro hno
    by_contra hr
    obtain ⟨c, hc⟩ := List.exists_mem_of_ne_nil _ hr
    exact hno ⟨c, (hI.2.2.1 c hc).1⟩

/-- C35: `find_cycles` returns (the loop that walks back along
`on_current_branch` ends, and so does the search), the assertion that
`on_current_branch` is empty after each root never fails, and every list
returned is a simple cycle of the graph: not empty, without a repeated vertex,
each vertex with an edge to the next and the last with an edge to the first.
The last line is one run, with a self-loop and two longer cycles. -/
theorem find_cycles_sound {T : Type} [DecidableEq T] (edges : List (T × List T)) :
    find_cycles_asserted edges = find_cycles edges ∧
    (∃ r, find_cycles edges = some r ∧ ∀ c ∈ r, simple_cycle edges c) ∧
    find_cycles_asserted [(0, [0, 1]), (1, [2]), (2, [1, 0])] = some [[0], [1, 2], [0, 1, 2]] := by
  obtain ⟨st, e1, e2, hI⟩ := find_cycles_run edges
  exact ⟨by rw [e1, e2], ⟨st.result, e2, hI.2.2.1⟩, by decide⟩

/-! ## Instances of the theorems above -/

theorem orientation_canonical_witness :
    ∃ (rot : Int) (diag : Bool) (rotated : List Bool),
      0 ≤ rot ∧ rot ≤ 3 ∧
      nesw_array_rotate [false, true, true, false] 4 rot.toNat = some rotated ∧
      (count_dirs [false, true, true, false] = 1 → rotated = [true, false, false, false]) ∧
      (count_dirs [false, true, true, false] = 2 →
        at_ [false, true, true, false] 0 = at_ [false, true, true, false] 2 →
        rotated = [true, false, true, false] ∧ diag = false) ∧
      (count_dirs [false, true, true, false] = 2 →
        at_ [false, true, true, false] 0 ≠ at_ [false, true, true, false] 2 →
        rotated = [true, true, false, false] ∧ diag = true) ∧
      (count_dirs [false, true, true, false] = 3 → rotated = [true, true, false, true]) ∧
      mapgen_road_layout (fun d => at_ [false, true, true, false] d) (fun _ => false)
        = some ⟨count_dirs [false, true, true, false], rot, diag, -1, rotated⟩ ∧
      mapgen_railroad_layout (fun d => at_ [false, true, true, false] d)
        = some ⟨count_dirs [false, true, true, false], rot, diag, -1, rotated⟩ ∧
      mapgen_subway_layout (fun d => at_ [false, true, false, false] d)
          (fun d => at_ [false, false, true, false] d)
        = some ⟨count_dirs [false, true, true, false], rot, diag, -1, rotated⟩ :=
  orientation_canonical (fun d => at_ [false, true, false, false] d)
    (fun d => at_ [false, false, true, false] d) (fun _ => false) (by decide) (by decide)

theorem road_rotation_commutes_witness :
    (fun q => road_arm_pavement ⟨1, 1, false, -1, [true, false, false, false]⟩
        (coord_rotate_cw q 3)) (⟨20, 10⟩ : point) = true ↔
      ∃ d, d < 4 ∧ (fun d => at_ [false, true, false, false] d) d = true ∧
        ∃ p, north_arm (dead_end_extension 1) p = true ∧ coord_rotate_cw p d = ⟨20, 10⟩ :=
  road_rotation_commutes (fun d => at_ [false, true, false, false] d) (fun _ => false)
    ⟨1, 1, false, -1, [true, false, false, false]⟩ (by decide) rfl rfl
    (fun q => road_arm_pavement ⟨1, 1, false, -1, [true, false, false, false]⟩
        (coord_rotate_cw q 3))
    (fun p => by
      show road_arm_pavement _ (coord_rotate_cw (coord_rotate_cw p 1) 3) = _
      rw [coord_rotate_cw_add, coord_rotate_cw_four])
    ⟨20, 10⟩

theorem lake_shore_slots_close_once_witness :
    ∃ res r, mapgen_lake_shore sample_env 7 sample_dat 1 = some res ∧ res.plan = some r ∧
      (∀ s : Fin 8, at_ r.opened s.val
          = slot_contains (lake_shore_slots (classify_neighbours sample_dat.t_nesw)) s.val) ∧
      (∀ s : Fin 8, times_closed r.paired.closings s.val
          = if at_ r.opened s.val then 1 else 0) ∧
      (∀ e ∈ r.paired.closings, 0 ≤ e.1 ∧ e.1 < 8 ∧ 0 ≤ e.2 ∧ e.2 < 8 ∧
          at_ r.opened e.1.toNat = true ∧ at_ r.opened e.2.toNat = true) ∧
      (∀ s : Fin 8, at_ r.paired.open_ s.val = false) ∧
      r.line_segments ≠ [] ∧
      ((∀ s : Fin 8, at_ r.opened s.val = false) →
        r.line_segments = [[⟨15, 8⟩, ⟨8, 8⟩], [⟨8, 8⟩, ⟨8, 15⟩], [⟨8, 15⟩, ⟨15, 15⟩],
          [⟨15, 15⟩, ⟨15, 8⟩]]) :=
  lake_shore_slots_close_once sample_env 7 sample_dat 1 (by decide)

theorem shoreline_deterministic_witness :
    ∃ r1 r2, mapgen_lake_shore sample_env 7 sample_dat 1 = some r1 ∧
      mapgen_lake_shore sample_env 7 sample_dat_below 9 = some r2 ∧
      r1.plan = r2.plan ∧ r1.polylines = r2.polylines :=
  shoreline_deterministic sample_env 7 sample_dat sample_dat_below 1 9 rfl rfl (by decide)

theorem fallback_side_solid_witness :
    ∃ res r, mapgen_lake_shore sample_env 7 sample_dat_cove 1 = some res ∧ res.plan = some r ∧
      ∀ e ∈ r.paired.closings, e.2 = e.1 →
        ∃ fb, fallback_scan
            (open_slots (lake_shore_slots (classify_neighbours sample_dat_cove.t_nesw))).2
            (water_sides (classify_neighbours sample_dat_cove.t_nesw)) e.1.toNat = some fb ∧
          0 ≤ fb ∧ fb < 8 ∧
          [slot_at (open_slots (lake_shore_slots
              (classify_neighbours sample_dat_cove.t_nesw))).2 e.1,
            fallback_midpoint fb] ∈ r.line_segments ∧
          ((∃ k : Fin 4, nb (classify_neighbours sample_dat_cove.t_nesw) k.val = n_type.solid) →
            nb (classify_neighbours sample_dat_cove.t_nesw) (fallback_neighbour fb)
              = n_type.solid) ∧
          ((∀ k : Fin 4, nb (classify_neighbours sample_dat_cove.t_nesw) k.val ≠ n_type.solid) →
            fb = e.1) :=
  fallback_side_solid sample_env 7 sample_dat_cove 1 (by decide)

theorem lake_shore_without_lake_witness :
    (∀ i : Fin 8, classify (sample_dat_dry.t_nesw i.val) ≠ n_type.lake) ∧
    count_lakes (classify_neighbours sample_dat_dry.t_nesw) = 0 ∧
    ∃ res, mapgen_lake_shore sample_env 7 sample_dat_dry 1 = some res ∧
      res.m = (sample_env.ground sample_dat_dry 1).1 ∧
      res.ambient = (sample_env.ground sample_dat_dry 1).2 ∧
      res.plan = none ∧ res.polylines = [] ∧ res.fill_starts = [] ∧ res.filled = [] :=
  ⟨by decide, (lake_shore_without_lake sample_env 7 sample_dat_dry 1 (by decide)).2.2⟩

theorem feature_pool_weights_witness :
    (feature_pool 5 3 (fill_adjacency_factor 3 fun _ => 2) named_features ⟨0, 0⟩).head?
      = some (named_features.no_ter_furn, placeholder_weight 5 3 (fun _ => 2) ⟨0, 0⟩) ∧
    (0 ≤ placeholder_weight 5 3 (fun _ => 2) ⟨0, 0⟩ ↔
      2 * 3 + ((blended_neighbours ⟨0, 0⟩).map fun i => 3 + (fun _ => (2 : Int)) i).sum
        ≤ (1 + ((blended_neighbours ⟨0, 0⟩).length : Int)) * 5) ∧
    ∀ e ∈ (feature_pool 5 3 (fill_adjacency_factor 3 fun _ => 2) named_features ⟨0, 0⟩).tail,
      0 ≤ e.2 :=
  feature_pool_weights 5 3 (fun _ => 2) named_features ⟨0, 0⟩ (by decide)

theorem centre_pool_self_only_witness :
    margin_x = 8 ∧ margin_y = 8 ∧
    feature_pool 5 2 (fill_adjacency_factor 2 fun _ => 5) named_features ⟨16, 8⟩
      = [(named_features.no_ter_furn, 5 - 2 * 2), (named_features.self_feature, 2)] ∧
    feature_pool 5 2 (fill_adjacency_factor 2 fun _ => 5) named_features ⟨16, 8⟩
      = feature_pool 5 2 (fill_adjacency_factor 2 fun _ => 0)
          ⟨feature_name.none_, feature_name.self, feature_name.self, feature_name.self,
            feature_name.self, feature_name.self⟩ ⟨16, 8⟩ ∧
    get_blended_feature (fun l => l.head?.map Prod.fst) 5 2
        (fill_adjacency_factor 2 fun _ => 5) named_features ⟨16, 8⟩
      = get_blended_feature (fun l => l.head?.map Prod.fst) 5 2
          (fill_adjacency_factor 2 fun _ => 0)
          ⟨feature_name.none_, feature_name.self, feature_name.self, feature_name.self,
            feature_name.self, feature_name.self⟩ ⟨16, 8⟩ :=
  centre_pool_self_only (fun l => l.head?.map Prod.fst) 5 2
    (fill_adjacency_factor 2 fun _ => 5) (fill_adjacency_factor 2 fun _ => 0) named_features
    ⟨feature_name.none_, feature_name.self, feature_name.self, feature_name.self,
      feature_name.self, feature_name.self⟩ ⟨16, 8⟩ (by decide) (by decide) (by decide)
    (by decide) rfl rfl

theorem four_way_plaza_dir_witness :
    ∃ l, mapgen_road_layout (fun _ => true) (fun _ => false) = some l ∧ l.num_dirs = 4 ∧
      l.plaza_dir = road_plaza_dir ((List.range 8).map fun _ => false) ∧
      (l.plaza_dir = -1 ∨ (0 ≤ l.plaza_dir ∧ l.plaza_dir ≤ 8)) ∧
      (l.plaza_dir > -1 → l.rot = l.plaza_dir % 4) ∧
      (l.plaza_dir = -1 → l.rot = 0) ∧
      ((∀ d : Fin 4, (fun _ => false) d.val = false) → l.plaza_dir = -1 ∧ l.rot = 0) :=
  four_way_plaza_dir (fun _ => true) (fun _ => false) (fun _ => rfl)

theorem subway_dead_end_north_witness :
    ∃ l cells, mapgen_subway_stamp (fun d => d == 0) (fun _ => false)
        = some (l, subway_dead_end, cells) ∧
      l.num_dirs = 1 ∧ l.rot = 0 ∧ l.diag = false ∧
      cells.map (fun e => e.1) = buffer_cells ∧
      (cells.filter fun e => e.2.1 == ter_name.t_buffer_stop).map (fun e => e.1)
        = [⟨4, 19⟩, ⟨8, 19⟩, ⟨15, 19⟩, ⟨19, 19⟩] :=
  subway_dead_end_north (fun d => d == 0) (fun _ => false) rfl rfl rfl rfl (fun _ => rfl)

theorem sort_by_rating_sorted_witness :
    (sort_by_rating (fun lt l => insertion_sort lt l)
        (fun (e : Nat) (log : List Nat) => ((10 : Int) - (e : Int), log ++ [e])) [3, 1, 2] []).1.Perm
      [3, 1, 2] ∧
    (sort_by_rating (fun lt l => insertion_sort lt l)
        (fun (e : Nat) (log : List Nat) => ((10 : Int) - (e : Int), log ++ [e])) [3, 1, 2] []).1.Pairwise
      (fun (a b : Nat) => (10 : Int) - (a : Int) ≤ (10 : Int) - (b : Int)) ∧
    (sort_by_rating (fun lt l => insertion_sort lt l)
        (fun (e : Nat) (log : List Nat) => ((10 : Int) - (e : Int), log ++ [e])) [3, 1, 2] []).2
      = [3, 1, 2] :=
  sort_by_rating_sorted (fun lt l => insertion_sort lt l) insertion_is_std_sort
    (fun e : Nat => (10 : Int) - (e : Int)) [3, 1, 2]

theorem road_corner_fill_triangle_witness :
    at_ [true, true, false, false] 1 = true ∧
    (road_corner_fill [true, true, false, false] [0, 1, 0, 0] 1).length = 6 ∧
    (road_corner_fill [true, true, false, false] [0, 1, 0, 0] 1).Nodup :=
  ⟨by decide,
    (road_corner_fill_triangle [true, true, false, false] [0, 1, 0, 0] 1 (by decide) (by decide)
      (by decide)).2.1,
    (road_corner_fill_triangle [true, true, false, false] [0, 1, 0, 0] 1 (by decide) (by decide)
      (by decide)).2.2.1⟩

theorem coord_rotate_cw_against_rotate_point_witness :
    in_buffer ⟨3, 5, 0⟩ ∧
    rotate_point ⟨(coord_rotate_cw (tripoint.xy ⟨3, 5, 0⟩) 1).x,
      (coord_rotate_cw (tripoint.xy ⟨3, 5, 0⟩) 1).y, 0⟩ (1 : Nat) = ⟨3, 5, 0⟩ :=
  ⟨by decide,
    (coord_rotate_cw_against_rotate_point ⟨3, 5, 0⟩ 1 (by decide)).2.2.2.1 (by decide)⟩

theorem rotate_point_negative_witness :
    in_buffer ⟨3, 5, 0⟩ ∧ rotate_point ⟨3, 5, 0⟩ (-5) = ⟨3, 5, 0⟩ ∧
    rotate_point ⟨3, 5, 0⟩ 3 ≠ rotate_point ⟨3, 5, 0⟩ (-1) :=
  ⟨by decide,
    (rotate_point_negative ⟨3, 5, 0⟩ (-5) (by decide) (by decide) (by decide)).1,
    (rotate_point_negative ⟨3, 5, 0⟩ (-5) (by decide) (by decide) (by decide)).2.2.2⟩

theorem rift_connection_band_witness :
    mapgen_rift (one_open_side 2 true) (fun _ _ _ => -3) ⟨0, 0, 0, 0⟩ ⟨12, 23⟩
      = some lava_ter.t_lava ∧
    mapgen_rift (one_open_side 1 true) (fun _ _ _ => -3) ⟨0, 0, 0, 0⟩ ⟨23, 12⟩
      = some lava_ter.t_lava :=
  ⟨(rift_connection_band 3 (by decide) ⟨12, 23⟩ (by unfold in_tile; decide)).2.2.1,
    (rift_connection_band 3 (by decide) ⟨23, 12⟩ (by unfold in_tile; decide)).2.2.2.1⟩

theorem hellmouth_centre_slope_witness :
    mapgen_hellmouth (fun _ => ⟨false, false⟩) ⟨0, 0, 0, 0⟩ 1 ⟨11, 12⟩
      = some lava_ter.t_slope_down :=
  (hellmouth_centre_slope (fun _ => ⟨false, false⟩) ⟨0, 0, 0, 0⟩ 1 ⟨11, 12⟩ (by decide)).1

theorem set_damage_frame_witness :
    is_int32 3 ∧
    (dealt_damage_instance.fresh.set_damage 3 7).type_damage 3 = 7 ∧
    (dealt_damage_instance.fresh.set_damage 3 7).total_damage
      = dealt_damage_instance.fresh.total_damage
        + (7 - dealt_damage_instance.fresh.type_damage 3) :=
  ⟨by unfold is_int32; decide,
    ((set_damage_frame dealt_damage_instance.fresh 3 7 (by unfold is_int32; decide)).1
      (by decide)).1,
    ((set_damage_frame dealt_damage_instance.fresh 3 7 (by unfold is_int32; decide)).1
      (by decide)).2.2⟩

end Cata
